import Mathlib

/-!
# awesomedb: a verification development

A shallow embedding of the object-relational mapping layer of `awesomedb`
(`src/lib/database`, `src/lib/utils`) and theorems about it.

Conventions of the embedding

* `std::string` is `String`; `fmt::format` with `{}` fields is concatenation.
* Machine integers are `Int` together with their C++ type (`IntType`); a
  `static_cast` to a type is `IntType.wrap`.
* A C++ exception or undefined behaviour (a failed `std::any_cast`,
  `std::map::at` on a missing key, `erase(end())`) is the result `none`.
* The SQL driver (`QSqlDatabase`, `QSqlQuery`) is a black box: its answers are
  the fields of `Driver`, and the calls made to it are recorded in
  `Database.calls`.
* Output written to the terminal (`fmt::print`, `qDebug`) is not modelled.
-/

namespace Awesomedb

/-! ## utils/list.hpp -/

/-- `utils::list_join`: every element but the last is written followed by the
delimiter (`std::copy` into an `ostream_iterator`), then the last element. -/
def list_join : List String → String → String
  | [], _ => ""
  | [x], _ => x
  | x :: y :: rest, delimiter => x ++ delimiter ++ list_join (y :: rest) delimiter

/-! ## database/table.hpp, database/table.cpp -/

/-- `DatabaseTable::Field`, with the default member initialisers of the source. -/
structure Field where
  name : String
  type : String
  pk : Bool := false
  fk : Bool := false
  uk : Bool := false
  nullable : Bool := false
  auto_increment : Bool := false
  references_table : String := ""
  references_field : String := ""
  default_value : String := ""
deriving DecidableEq, Repr

/-- `DatabaseTable`: a name and the ordered list of fields. -/
structure DatabaseTable where
  name : String
  fields : List Field := []
deriving DecidableEq, Repr

/-- `DatabaseTable::idField`. -/
def DatabaseTable.idField : Field :=
  { name := "id", type := "bigint", pk := true, auto_increment := true }

/-- `DatabaseTable::addField`. -/
def DatabaseTable.addField (t : DatabaseTable) (field : Field) : DatabaseTable :=
  { t with fields := t.fields ++ [field] }

/-- `DatabaseTable::empty`. -/
def DatabaseTable.empty (t : DatabaseTable) : Bool :=
  t.fields.isEmpty

/-- A `std::ostringstream`: the buffer, the put position and the fail bit.
Positions count characters; the only seek of the source steps back over a
one-byte character. -/
structure OStringStream where
  buf : List Char := []
  pos : Nat := 0
  fail : Bool := false
deriving DecidableEq, Repr

/-- `os << s`: overwrites from the put position and extends the buffer when the
text runs past its end; does nothing once the fail bit is set. -/
def OStringStream.write (os : OStringStream) (s : String) : OStringStream :=
  if os.fail then os
  else
    { os with
      buf := os.buf.take os.pos ++ s.data ++ os.buf.drop (os.pos + s.data.length)
      pos := os.pos + s.data.length }

/-- `os.seekp(off, std::ios_base::cur)`: a seek outside the buffer fails and
sets the fail bit. -/
def OStringStream.seekp_cur (os : OStringStream) (off : Int) : OStringStream :=
  if os.fail then os
  else if 0 ≤ (os.pos : Int) + off ∧ (os.pos : Int) + off ≤ os.buf.length then
    { os with pos := ((os.pos : Int) + off).toNat }
  else { os with fail := true }

/-- `os.str()`: the whole buffer, whatever the put position. -/
def OStringStream.str (os : OStringStream) : String :=
  String.mk os.buf

/-- A stream that has only been appended to: the put position is the end of
the buffer. -/
def OStringStream.ofBuf (buf : List Char) : OStringStream :=
  { buf := buf, pos := buf.length, fail := false }

/-- The three buffers of `generateSqlStatement`. -/
structure SqlBuffers where
  query : OStringStream
  append : OStringStream
  has_append : Bool

/-- One iteration of the field loop of `generateSqlStatement`. -/
def generateSqlStatement_field (b : SqlBuffers) (field : Field) : SqlBuffers :=
  -- generate field
  let query := b.query |>.write "`" |>.write field.name |>.write "` " |>.write field.type
  -- field is not nullable
  let query := if !field.nullable then query.write " NOT NULL" else query
  -- field is auto incrementable
  let query := if field.auto_increment then query.write " AUTO_INCREMENT" else query
  -- field has default value
  let query :=
    if !field.default_value.isEmpty then query |>.write " DEFAULT " |>.write field.default_value
    else query
  -- end generate field
  let query := query.write ","
  -- append primary key
  let append := b.append
  let has_append := b.has_append
  let append :=
    if field.pk then append |>.write "PRIMARY KEY (`" |>.write field.name |>.write "`),"
    else append
  let has_append := if field.pk then true else has_append
  -- append foreign key
  let append :=
    if field.fk then
      append |>.write "FOREIGN KEY (`" |>.write field.name |>.write "`) REFERENCES "
        |>.write field.references_table |>.write "(`" |>.write field.references_field
        |>.write "`),"
    else append
  let has_append := if field.fk then true else has_append
  -- append unique key
  let append :=
    if field.uk then append |>.write "UNIQUE KEY (`" |>.write field.name |>.write "`),"
    else append
  let has_append := if field.uk then true else has_append
  { query := query, append := append, has_append := has_append }

/-- `DatabaseTable::generateSqlStatement`. -/
def DatabaseTable.generateSqlStatement (t : DatabaseTable) (includeIfNotExists : Bool) :
    String :=
  let ifNotExists := "IF NOT EXISTS "
  let query : OStringStream := {}
  let append : OStringStream := {}
  let query := query |>.write "CREATE TABLE "
    |>.write (if includeIfNotExists then ifNotExists else "") |>.write "`" |>.write t.name
    |>.write "` ("
  let b := t.fields.foldl generateSqlStatement_field
    { query := query, append := append, has_append := false }
  -- remove last trailing comma because MariaDB can't handle this
  let b : SqlBuffers :=
    if b.has_append then { b with append := b.append.seekp_cur (-1) }
    else { b with query := (b.query.seekp_cur (-1)).write " " }
  -- finalize query
  let append := b.append.write ");"
  -- build final query
  b.query.str ++ append.str

/-! ## Attribute values (`std::any`) and driver values (`QVariant`) -/

/-- The eight fixed-width integer types. -/
inductive IntType where
  | uint8 | uint16 | uint32 | uint64 | int8 | int16 | int32 | int64
deriving DecidableEq, Repr

/-- Width in bits. -/
def IntType.bits : IntType → Nat
  | .uint8 | .int8 => 8
  | .uint16 | .int16 => 16
  | .uint32 | .int32 => 32
  | .uint64 | .int64 => 64

/-- Signedness. -/
def IntType.signed : IntType → Bool
  | .int8 | .int16 | .int32 | .int64 => true
  | _ => false

/-- Least value of the type. -/
def IntType.lo (T : IntType) : Int :=
  if T.signed then -(2 ^ (T.bits - 1)) else 0

/-- Greatest value of the type. -/
def IntType.hi (T : IntType) : Int :=
  if T.signed then 2 ^ (T.bits - 1) - 1 else 2 ^ T.bits - 1

/-- The values of the type. -/
def IntType.inRange (T : IntType) (n : Int) : Prop :=
  T.lo ≤ n ∧ n ≤ T.hi

instance (T : IntType) (n : Int) : Decidable (T.inRange n) :=
  inferInstanceAs (Decidable (T.lo ≤ n ∧ n ≤ T.hi))

/-- `static_cast<T>(n)`: reduction modulo `2 ^ bits` into the range of `T`. -/
def IntType.wrap (T : IntType) (n : Int) : Int :=
  if T.signed then (n + 2 ^ (T.bits - 1)) % 2 ^ T.bits - 2 ^ (T.bits - 1)
  else n % 2 ^ T.bits

/-- An IEEE-754 value (`float` or `double`) by its three fields. -/
structure Ieee where
  sign : Bool
  exponent : Nat
  fraction : Nat
deriving DecidableEq, Repr

/-- NaN: the exponent is all ones (`maxExp`) and the fraction is not zero. -/
def Ieee.isNaN (maxExp : Nat) (x : Ieee) : Bool :=
  x.exponent == maxExp && x.fraction != 0

/-- Positive or negative zero. -/
def Ieee.isZero (x : Ieee) : Bool :=
  x.exponent == 0 && x.fraction == 0

/-- `operator==` of a floating-point type: NaN equals nothing, the two zeros
are equal, otherwise the fields decide. -/
def Ieee.eq (maxExp : Nat) (x y : Ieee) : Bool :=
  !x.isNaN maxExp && !y.isNaN maxExp && ((x.isZero && y.isZero) || x == y)

/-- The non-optional types of the default dispatch tables. The three Qt types
carry an integer (instant, day, time of day) that `operator==` compares. -/
inductive BaseType where
  | bool | float | double
  | int (T : IntType)
  | string
  | qDateTime | qDate | qTime
deriving DecidableEq, Repr

/-- A runtime type tag (`std::type_index`): `void` for an empty `std::any`, a
base type, `std::optional` of a base type, or any other type, by name. -/
inductive TypeTag where
  | void
  | plain (b : BaseType)
  | optional (b : BaseType)
  | other (typeName : String)
deriving DecidableEq, Repr

/-- A value of a base type. -/
inductive Scalar where
  | bool (v : Bool)
  | float (v : Ieee)
  | double (v : Ieee)
  | int (T : IntType) (v : Int)
  | string (v : String)
  | qDateTime (v : Int)
  | qDate (v : Int)
  | qTime (v : Int)
deriving DecidableEq, Repr

/-- The type of a scalar. -/
def Scalar.type : Scalar → BaseType
  | .bool _ => .bool
  | .float _ => .float
  | .double _ => .double
  | .int T _ => .int T
  | .string _ => .string
  | .qDateTime _ => .qDateTime
  | .qDate _ => .qDate
  | .qTime _ => .qTime

/-- An integer scalar lies in the range of its type. -/
def Scalar.inRange : Scalar → Prop
  | .int T v => T.inRange v
  | _ => True

/-- `l == r` for two values of one base type (`false` for values of different
types, which the callers never compare). -/
def Scalar.eq : Scalar → Scalar → Bool
  | .bool a, .bool b => a == b
  | .float a, .float b => Ieee.eq 255 a b
  | .double a, .double b => Ieee.eq 2047 a b
  | .int T a, .int U b => T == U && a == b
  | .string a, .string b => a == b
  | .qDateTime a, .qDateTime b => a == b
  | .qDate a, .qDate b => a == b
  | .qTime a, .qTime b => a == b
  | _, _ => false

/-- A `std::any`: empty, a value of a base type, a `std::optional<b>`, or a
value of some other type (represented by a number). -/
inductive AnyValue where
  | void
  | plain (s : Scalar)
  | optional (b : BaseType) (v : Option Scalar)
  | other (typeName : String) (repr : Nat)
deriving DecidableEq, Repr

/-- `any.type()`. -/
def AnyValue.type : AnyValue → TypeTag
  | .void => .void
  | .plain s => .plain s.type
  | .optional b _ => .optional b
  | .other n _ => .other n

/-- A well-formed cell: an optional holds a value of its own type, and integers
lie in the range of their type. -/
def AnyValue.wf : AnyValue → Prop
  | .plain s => s.inRange
  | .optional b (some s) => s.type = b ∧ s.inRange
  | _ => True

/-- A `QVariant`: invalid (null), or a value together with its meta type. -/
inductive QVariant where
  | invalid
  | bool (v : Bool)
  | float (v : Ieee)
  | double (v : Ieee)
  | int (T : IntType) (v : Int)
  | string (v : String)
  | dateTime (v : Int)
  | date (v : Int)
  | time (v : Int)
deriving DecidableEq, Repr

/-- `QVariant::fromValue(v)`; a `std::string` goes through
`QString::fromStdString`. -/
def QVariant.fromValue : Scalar → QVariant
  | .bool v => .bool v
  | .float v => .float v
  | .double v => .double v
  | .int T v => .int T v
  | .string v => .string v
  | .qDateTime v => .dateTime v
  | .qDate v => .date v
  | .qTime v => .time v

/-- The conversions of the driver library between values of unrelated kinds
(text to number, number to text and so on), which this repository does not
define: they are a parameter of the decoder. -/
structure QtConvert where
  toBool : QVariant → Bool
  toFloat : QVariant → Ieee
  toDouble : QVariant → Ieee
  toInt : IntType → QVariant → Int
  toString : QVariant → String
  toDateTime : QVariant → Int
  toDate : QVariant → Int
  toTime : QVariant → Int

/-- `var.toBool()`: the stored value for a `bool`, `false` for a null variant. -/
def QVariant.toBool (qt : QtConvert) : QVariant → Bool
  | .bool v => v
  | .invalid => false
  | var => qt.toBool var

/-- `var.toFloat()`. -/
def QVariant.toFloat (qt : QtConvert) : QVariant → Ieee
  | .float v => v
  | .invalid => ⟨false, 0, 0⟩
  | var => qt.toFloat var

/-- `var.toDouble()`. -/
def QVariant.toDouble (qt : QtConvert) : QVariant → Ieee
  | .double v => v
  | .invalid => ⟨false, 0, 0⟩
  | var => qt.toDouble var

/-- `var.value<T>()` for an integer type `T`: an integer of any meta type is
converted by `static_cast`, a null variant gives `0`. -/
def QVariant.value (qt : QtConvert) (T : IntType) : QVariant → Int
  | .int _ v => T.wrap v
  | .invalid => 0
  | var => T.wrap (qt.toInt T var)

/-- `var.toString().toStdString()`. -/
def QVariant.toStdString (qt : QtConvert) : QVariant → String
  | .string v => v
  | .invalid => ""
  | var => qt.toString var

/-- `var.toDateTime()`. -/
def QVariant.toDateTime (qt : QtConvert) : QVariant → Int
  | .dateTime v => v
  | var => qt.toDateTime var

/-- `var.toDate()`. -/
def QVariant.toDate (qt : QtConvert) : QVariant → Int
  | .date v => v
  | var => qt.toDate var

/-- `var.toTime()`. -/
def QVariant.toTime (qt : QtConvert) : QVariant → Int
  | .time v => v
  | var => qt.toTime var

/-! ## utils/qvariant_converter: the encoder table -/

/-- A dispatch table: the entries of a `std::unordered_map` keyed by type tag. -/
abbrev DispatchTable (F : Type) := List (TypeTag × F)

/-- `table.find(tag)`: the entry of the tag, if there is one. -/
def DispatchTable.find {F : Type} (table : DispatchTable F) (tag : TypeTag) : Option F :=
  match table with
  | [] => none
  | (t, f) :: rest => if t = tag then some f else DispatchTable.find rest tag

/-- `table.insert(entry)`: adds the entry unless the tag already has one. -/
def DispatchTable.insert {F : Type} (table : DispatchTable F) (entry : TypeTag × F) :
    DispatchTable F :=
  match table.find entry.1 with
  | some _ => table
  | none => table ++ [entry]

/-- An encoder: `none` is a failed `std::any_cast`. -/
abbrev Converter := AnyValue → Option QVariant

/-- `to_qvariant_converter<T>(f)`: the entry casts the cell to `T` and applies `f`. -/
def to_qvariant_converter (T : TypeTag) (f : AnyValue → QVariant) : TypeTag × Converter :=
  (T, fun source =>
    if T = .void then some .invalid
    else if source.type = T then some (f source) else none)

/-- `MAPPER_BASIC(type)`, and `MAPPER_CUSTOM(std::string, ...)`. -/
def MAPPER_BASIC (b : BaseType) : TypeTag × Converter :=
  to_qvariant_converter (.plain b) fun source =>
    match source with
    | .plain s => QVariant.fromValue s
    | _ => .invalid

/-- `MAPPER_BASIC_OPTIONAL(std::optional<type>)`, and the entry written out for
`std::optional<std::string>`. -/
def MAPPER_BASIC_OPTIONAL (b : BaseType) : TypeTag × Converter :=
  to_qvariant_converter (.optional b) fun source =>
    match source with
    | .optional _ (some s) => QVariant.fromValue s
    | _ => .invalid

/-- The table `utils::qvariant_converter` as the source initialises it. -/
def qvariant_converter : DispatchTable Converter :=
  [ -- default data types
    MAPPER_BASIC .bool,
    MAPPER_BASIC .float,
    MAPPER_BASIC .double,
    MAPPER_BASIC (.int .uint8),
    MAPPER_BASIC (.int .uint16),
    MAPPER_BASIC (.int .uint32),
    MAPPER_BASIC (.int .uint64),
    MAPPER_BASIC (.int .int8),
    MAPPER_BASIC (.int .int16),
    MAPPER_BASIC (.int .int32),
    MAPPER_BASIC (.int .int64),
    MAPPER_BASIC .string,
    -- optional default data types
    MAPPER_BASIC_OPTIONAL .bool,
    MAPPER_BASIC_OPTIONAL .float,
    MAPPER_BASIC_OPTIONAL .double,
    MAPPER_BASIC_OPTIONAL (.int .uint8),
    MAPPER_BASIC_OPTIONAL (.int .uint16),
    MAPPER_BASIC_OPTIONAL (.int .uint32),
    MAPPER_BASIC_OPTIONAL (.int .uint64),
    MAPPER_BASIC_OPTIONAL (.int .int8),
    MAPPER_BASIC_OPTIONAL (.int .int16),
    MAPPER_BASIC_OPTIONAL (.int .int32),
    MAPPER_BASIC_OPTIONAL (.int .int64),
    MAPPER_BASIC_OPTIONAL .string,
    -- Qt specific types
    MAPPER_BASIC .qDateTime,
    MAPPER_BASIC .qDate,
    MAPPER_BASIC .qTime ]

/-- `utils::qvariant_from_any(any, &success)`: the driver value and the success
flag; an invalid variant when the type has no entry. -/
def qvariant_from_any (table : DispatchTable Converter) (any : AnyValue) :
    Option (QVariant × Bool) :=
  match table.find any.type with
  | some f => (f any).map fun v => (v, true)
  | none => some (.invalid, false)

/-! ## utils/qvariant_mapper: the decoder table -/

/-- A decoder: the cell after the assignment; `none` is a failed `std::any_cast`. -/
abbrev Mapper := AnyValue → QVariant → Option AnyValue

/-- `to_qvariant_mapper<T>(f)`: the entry casts the cell to `T&` and lets `f`
assign to it. -/
def to_qvariant_mapper (T : TypeTag) (f : AnyValue → QVariant → AnyValue) : TypeTag × Mapper :=
  (T, fun target variant =>
    if T = .void then some .void
    else if target.type = T then some (f target variant) else none)

/-- What the `impl` argument of `MAPPER` computes for the entry of a type. The
entry of `std::int64_t` reads the variant with `value<std::int16_t>`. -/
def mapper_impl (qt : QtConvert) (b : BaseType) (var : QVariant) : Scalar :=
  match b with
  | .bool => .bool (var.toBool qt)
  | .float => .float (var.toFloat qt)
  | .double => .double (var.toDouble qt)
  | .int .uint8 => .int .uint8 (var.value qt .uint8)
  | .int .uint16 => .int .uint16 (var.value qt .uint16)
  | .int .uint32 => .int .uint32 (var.value qt .uint32)
  | .int .uint64 => .int .uint64 (var.value qt .uint64)
  | .int .int8 => .int .int8 (var.value qt .int8)
  | .int .int16 => .int .int16 (var.value qt .int16)
  | .int .int32 => .int .int32 (var.value qt .int32)
  | .int .int64 => .int .int64 (var.value qt .int16)
  | .string => .string (var.toStdString qt)
  | .qDateTime => .qDateTime (var.toDateTime qt)
  | .qDate => .qDate (var.toDate qt)
  | .qTime => .qTime (var.toTime qt)

/-- `MAPPER(type, impl)`: two entries, `target = var.impl()` for `type` and the
same assignment for `std::optional<type>`. -/
def MAPPER (qt : QtConvert) (b : BaseType) : List (TypeTag × Mapper) :=
  [ to_qvariant_mapper (.plain b) (fun _ var => .plain (mapper_impl qt b var)),
    to_qvariant_mapper (.optional b) (fun _ var => .optional b (some (mapper_impl qt b var))) ]

/-- The table `utils::qvariant_mapper` as the source initialises it. -/
def qvariant_mapper (qt : QtConvert) : DispatchTable Mapper :=
  -- default and optional data types
  MAPPER qt .bool ++
  MAPPER qt .float ++
  MAPPER qt .double ++
  MAPPER qt (.int .uint8) ++
  MAPPER qt (.int .uint16) ++
  MAPPER qt (.int .uint32) ++
  MAPPER qt (.int .uint64) ++
  MAPPER qt (.int .int8) ++
  MAPPER qt (.int .int16) ++
  MAPPER qt (.int .int32) ++
  MAPPER qt (.int .int64) ++
  MAPPER qt .string ++
  -- Qt specific types
  MAPPER qt .qDateTime ++
  MAPPER qt .qDate ++
  MAPPER qt .qTime

/-- `utils::any_from_qvariant(any, var)`: the cell afterwards and the returned
flag; the cell is untouched when its type has no entry. -/
def any_from_qvariant (table : DispatchTable Mapper) (any : AnyValue) (var : QVariant) :
    Option (AnyValue × Bool) :=
  match table.find any.type with
  | some f => (f any var).map fun a => (a, true)
  | none => some (any, false)

/-! ## utils/any_comparator: the comparator table -/

/-- A comparator: `none` is a failed `std::any_cast`. -/
abbrev Comparator := AnyValue → AnyValue → Option Bool

/-- `to_any_comparator<T>(f)`: the entry casts both cells to `T`; the entry of
`void` calls `f` without arguments. -/
def to_any_comparator (T : TypeTag) (f : AnyValue → AnyValue → Bool) : TypeTag × Comparator :=
  (T, fun l r =>
    if T = .void then some (f .void .void)
    else if l.type = T ∧ r.type = T then some (f l r) else none)

/-- `l == r` for two cells of one type: `operator==` of the base type, and of
`std::optional` (two empty optionals are equal, an empty one differs from an
engaged one, two engaged ones compare their values). -/
def AnyValue.eq : AnyValue → AnyValue → Bool
  | .plain a, .plain b => a.eq b
  | .optional _ none, .optional _ none => true
  | .optional _ (some a), .optional _ (some b) => a.eq b
  | _, _ => false

/-- `COMPARATOR(type)`. -/
def COMPARATOR (T : TypeTag) : TypeTag × Comparator :=
  to_any_comparator T fun l r => l.eq r

/-- The table `utils::any_comparator` as the source initialises it. -/
def any_comparator : DispatchTable Comparator :=
  [ -- default data types
    to_any_comparator .void (fun _ _ => false), -- void is never equal
    COMPARATOR (.plain .bool),
    COMPARATOR (.plain .float),
    COMPARATOR (.plain .double),
    COMPARATOR (.plain (.int .uint8)),
    COMPARATOR (.plain (.int .uint16)),
    COMPARATOR (.plain (.int .uint32)),
    COMPARATOR (.plain (.int .uint64)),
    COMPARATOR (.plain (.int .int8)),
    COMPARATOR (.plain (.int .int16)),
    COMPARATOR (.plain (.int .int32)),
    COMPARATOR (.plain (.int .int64)),
    COMPARATOR (.plain .string),
    -- optional default data types
    COMPARATOR (.optional .bool),
    COMPARATOR (.optional .float),
    COMPARATOR (.optional .double),
    COMPARATOR (.optional (.int .uint8)),
    COMPARATOR (.optional (.int .uint16)),
    COMPARATOR (.optional (.int .uint32)),
    COMPARATOR (.optional (.int .uint64)),
    COMPARATOR (.optional (.int .int8)),
    COMPARATOR (.optional (.int .int16)),
    COMPARATOR (.optional (.int .int32)),
    COMPARATOR (.optional (.int .int64)),
    COMPARATOR (.optional .string),
    -- Qt specific types
    COMPARATOR (.plain .qDateTime),
    COMPARATOR (.plain .qDate),
    COMPARATOR (.plain .qTime) ]

/-- `utils::compare_any(l, r, &success)`: the comparison result and the success
flag, both `false` when the type of `l` has no entry. -/
def compare_any (table : DispatchTable Comparator) (l r : AnyValue) : Option (Bool × Bool) :=
  match table.find l.type with
  | some f => (f l r).map fun equal => (equal, true)
  | none => some (false, false)

/-! ## database/model.hpp, database/model.cpp: the attribute store -/

/-- `Model::attribute_t`: the value and the modified flag. -/
structure Attribute where
  value : AnyValue
  modified : Bool
deriving DecidableEq, Repr

/-- Lexicographic comparison of two character sequences. -/
def chars_less : List Char → List Char → Bool
  | [], [] => false
  | [], _ :: _ => true
  | _ :: _, [] => false
  | a :: as, b :: bs =>
    if a.toNat < b.toNat then true
    else if a.toNat = b.toNat then chars_less as bs
    else false

/-- `std::less<std::string>`, the ordering of the attribute map: lexicographic
comparison (by code point, which orders UTF-8 text as its bytes do). -/
def key_less (a b : String) : Bool :=
  chars_less a.data b.data

/-- `std::map::find` on the attribute map. -/
def map_find (attributes : List (String × Attribute)) (key : String) : Option Attribute :=
  match attributes with
  | [] => none
  | (k, a) :: rest => if k = key then some a else map_find rest key

/-- The position of a new key in the ascending key order of the map. -/
def map_insert_sorted (attributes : List (String × Attribute)) (key : String) (a : Attribute) :
    List (String × Attribute) :=
  match attributes with
  | [] => [(key, a)]
  | (k, b) :: rest =>
    if key_less key k then (key, a) :: (k, b) :: rest
    else (k, b) :: map_insert_sorted rest key a

/-- `std::map::insert`: a key that is already present keeps its entry, a new
key is inserted at its place in the ascending key order. -/
def map_insert (attributes : List (String × Attribute)) (key : String) (a : Attribute) :
    List (String × Attribute) :=
  match map_find attributes key with
  | some _ => attributes
  | none => map_insert_sorted attributes key a

/-- `std::map::erase(key)`. -/
def map_erase (attributes : List (String × Attribute)) (key : String) :
    List (String × Attribute) :=
  attributes.filter fun e => e.1 != key

/-- Assignment through a reference to the entry of `key`. -/
def map_assign (attributes : List (String × Attribute)) (key : String) (a : Attribute) :
    List (String × Attribute) :=
  match attributes with
  | [] => []
  | (k, b) :: rest =>
    if k = key then (k, a) :: rest else (k, b) :: map_assign rest key a

/-- `std::map::operator[]`: a missing key is first inserted with a
value-initialised entry (an empty `std::any`, flag `false`). -/
def map_subscript (attributes : List (String × Attribute)) (key : String) :
    List (String × Attribute) :=
  map_insert attributes key { value := .void, modified := false }

/-- The data members of `Model`: the attribute map `_attributes` (a `std::map`,
so in ascending key order) and the declaration-ordered list `_columns`. -/
structure AttributeStore where
  attributes : List (String × Attribute)
  columns : List String
deriving DecidableEq, Repr

/-- A model: the attribute store and what the concrete subclass supplies
(`MODEL_DECL`): table name, type name and the validation predicate
`is_valid(&error_message)`, given as the returned flag and the message it
leaves in `error_message` (empty when it writes none). -/
structure Model extends AttributeStore where
  table_name : String
  type_name : String
  is_valid : AttributeStore → Bool × String

/-- `make_model_attribute<ValueType>(name, value)`. -/
def Model.make_model_attribute (m : Model) (name : String) (value : AnyValue) : Model :=
  { m with
    attributes := map_insert m.attributes name { value := value, modified := false }
    columns := m.columns ++ [name] }

/-- `Model::Model()` for a subclass with the given names and validator: the
primary key `id` of type `id_t = std::uint64_t`, value `0`. -/
def Model.new (table_name type_name : String) (is_valid : AttributeStore → Bool × String) :
    Model :=
  Model.make_model_attribute
    { attributes := [], columns := [], table_name := table_name, type_name := type_name,
      is_valid := is_valid }
    "id" (.plain (.int .uint64 0))

/-- `columns.erase(std::find(columns.begin(), columns.end(), "id"))`: the first
`"id"` is removed; erasing the end iterator is undefined. -/
def erase_id (columns : List String) : Option (List String) :=
  if "id" ∈ columns then some (columns.erase "id") else none

/-- `remove_model_attribute(name)`. -/
def Model.remove_model_attribute (m : Model) (name : String) : Option Model :=
  if name ∈ m.columns then
    some { m with attributes := map_erase m.attributes name, columns := m.columns.erase name }
  else none

/-- `set_attribute_value<ValueType>(key, value)`: the cell reached through
`_attributes[key]` is cast to `ValueType` and assigned, and its flag is set; a
cell of another type gives a null pointer that is dereferenced. -/
def Model.set_attribute_value (m : Model) (key : String) (value : AnyValue) : Option Model :=
  let attributes := map_subscript m.attributes key
  match map_find attributes key with
  | some a =>
    if a.value.type = value.type ∧ value.type ≠ .void then
      some { m with attributes := map_assign attributes key { value := value, modified := true } }
    else none
  | none => none

/-- `get_attribute_value<ValueType>(key)`: `_attributes.at(key)` cast to the
type `T`; a missing key throws and a cell of another type is a null
dereference. -/
def Model.get_attribute_value (m : Model) (T : TypeTag) (key : String) : Option AnyValue :=
  match map_find m.attributes key with
  | some a => if a.value.type = T ∧ T ≠ .void then some a.value else none
  | none => none

/-- `id()`, the getter that `MODEL_ATTRIBUTE_PROTECTED(id, id_t)` declares. -/
def Model.id (m : Model) : Option Int :=
  match m.get_attribute_value (.plain (.int .uint64)) "id" with
  | some (.plain (.int .uint64 v)) => some v
  | _ => none

/-- `set_id(value)`, the setter that `MODEL_ATTRIBUTE_PROTECTED(id, id_t)` declares. -/
def Model.set_id (m : Model) (value : Int) : Option Model :=
  m.set_attribute_value "id" (.plain (.int .uint64 value))

/-- `Model::has_model_attributes`. -/
def Model.has_model_attributes (m : Model) : Option Bool :=
  -- remove id column
  match erase_id m.columns with
  | none => none
  -- check if empty
  | some columns => some (!columns.isEmpty)

/-- `Model::generate_insert_query`. -/
def Model.generate_insert_query (m : Model) : Option String :=
  -- remove id column
  match erase_id m.columns with
  | none => none
  | some columns =>
    let format := list_join columns ","
    let values := ":" ++ list_join columns ",:"
    some ("INSERT INTO `" ++ m.table_name ++ "` (" ++ format ++ ") VALUES (" ++ values ++ ");")

/-- The loop of `generate_update_query` over the attribute map. -/
def update_query_pairs : List (String × Attribute) → List String
  | [] => []
  | (name, a) :: rest =>
    if name = "id" then update_query_pairs rest
    -- only update changed values
    else if a.modified then (name ++ "=:" ++ name) :: update_query_pairs rest
    else update_query_pairs rest

/-- `Model::generate_update_query`. -/
def Model.generate_update_query (m : Model) : Option String :=
  -- remove id column
  match erase_id m.columns with
  | none => none
  | some _ =>
    let query_pairs := update_query_pairs m.attributes
    -- nothing to update
    if query_pairs.isEmpty then some ""
    else
      match m.id with
      | none => none
      | some id =>
        some ("UPDATE `" ++ m.table_name ++ "` SET " ++ list_join query_pairs "," ++ " WHERE id="
          ++ toString id ++ ";")

/-- `Model::has_changes`. -/
def Model.has_changes (m : Model) : Bool :=
  m.attributes.any fun e => e.2.modified

/-- `Model::is_new_record`. -/
def Model.is_new_record (m : Model) : Option Bool :=
  match m.id with
  | none => none
  | some id => some (id == 0)

/-- `Model::reset_changed_state`. -/
def Model.reset_changed_state (m : Model) : Model :=
  { m with attributes := m.attributes.map fun e => (e.1, { e.2 with modified := false }) }

/-- `Model::compare_helper`, the loop over the attributes of `other` for one
attribute of `this`: `some false` is an early `return false`, `some true` means
the loop ran to its end. -/
def compare_helper_inner (comparators : DispatchTable Comparator) (attr_self : String × Attribute) :
    List (String × Attribute) → Option Bool
  | [] => some true
  | attr_other :: rest =>
    if attr_self.1 = attr_other.1 then
      match compare_any comparators attr_self.2.value attr_other.2.value with
      | none => none
      | some (equal, success) =>
        -- unregistered type, assume model is no longer equal
        if success = false then some false
        -- no longer equal, stop and return false
        else if !equal then some false
        else compare_helper_inner comparators attr_self rest
    else compare_helper_inner comparators attr_self rest

/-- `Model::compare_helper`, the loop over the attributes of `this`. -/
def compare_helper_outer (comparators : DispatchTable Comparator)
    (other : List (String × Attribute)) : List (String × Attribute) → Option Bool
  | [] => some true
  | attr_self :: rest =>
    match compare_helper_inner comparators attr_self other with
    | none => none
    | some false => some false
    | some true => compare_helper_outer comparators other rest

/-- `Model::compare_helper`, which `operator==` returns and `operator!=` negates. -/
def Model.compare_helper (comparators : DispatchTable Comparator) (self other : Model) :
    Option Bool :=
  -- attribute count must match
  if self.attributes.length ≠ other.attributes.length then some false
  else compare_helper_outer comparators other.attributes self.attributes

/-! ## The driver boundary and `Database` -/

/-- A result row: `query->value(fieldName)` looks the column up by name. -/
abbrev Row := List (String × QVariant)

/-- `QSqlQuery::value(name)`: an invalid variant for a column the row lacks. -/
def Row.value (row : Row) (fieldName : String) : QVariant :=
  match row with
  | [] => .invalid
  | (k, v) :: rest => if k = fieldName then v else Row.value rest fieldName

/-- The answers of the SQL driver. An error is the text of `lastError()`. -/
structure Driver where
  /-- `QSqlDatabase::open`: `none` on success. -/
  connect : Option String
  /-- `QSqlQuery::exec(text)`: the rows of the result set, or the error. -/
  exec : String → Except String (List Row)
  /-- `QSqlQuery::prepare(text)`: `none` on success. -/
  prepare : String → Option String
  /-- `QSqlQuery::exec()` of a prepared statement with its bound values:
  `none` on success. -/
  execPrepared : String → List (String × QVariant) → Option String
  /-- `QSqlQuery::lastInsertId().toULongLong()` after that statement. -/
  lastInsertId : String → Nat
  /-- `QSqlDatabase::tables()`: the names of the tables. -/
  tables : List String := []

/-- A call made to the driver. -/
inductive DriverCall where
  | connect
  | close
  | exec (statement : String)
  | prepare (statement : String)
  | bindValue (placeholder : String) (value : QVariant)
  | execPrepared (statement : String)
  | tables
deriving DecidableEq, Repr

/-- The state of a `Database` that the operations change: the last error
message and the trace of calls made to the driver (oldest first). -/
structure Database where
  lastErrorMessage : String := ""
  calls : List DriverCall := []
deriving DecidableEq, Repr

/-- What `save` and `remove` leave behind: the returned flag, the engine, the
model and the cell that `last_insert_id` points to (`none` for `nullptr`). -/
structure SaveResult where
  ok : Bool
  db : Database
  model : Model
  last_insert_id : Option Int

/-- The loop of `save` that binds the value of every attribute. -/
def bind_values (converters : DispatchTable Converter) :
    List (String × Attribute) → Option (List (String × QVariant))
  | [] => some []
  | attr :: rest => do
    let value ← qvariant_from_any converters attr.2.value
    let bound ← bind_values converters rest
    return (":" ++ attr.1, value.1) :: bound

/-- `Model::save`, from "bind values and execute generated query" to the end:
the statement is prepared, every attribute is bound, the statement is executed
and, after an insert, a last insert id other than `0` is stored with `set_id`
and written to `*last_insert_id`. -/
def Model.save_execute (converters : DispatchTable Converter) (drv : Driver) (db : Database)
    (m : Model) (last_insert_id : Option Int) (statement : String) (did_insert : Bool) :
    Option SaveResult :=
  let prepared : Database := { db with calls := db.calls ++ [.prepare statement] }
  match drv.prepare statement with
  | some error =>
    some { ok := false, db := { prepared with lastErrorMessage := error }, model := m,
           last_insert_id := last_insert_id }
  | none =>
    match bind_values converters m.attributes with
    | none => none
    | some bound =>
      let executed : Database :=
        { prepared with
          calls := prepared.calls ++ bound.map (fun b => DriverCall.bindValue b.1 b.2)
            ++ [.execPrepared statement] }
      match drv.execPrepared statement bound with
      | some error =>
        some { ok := false, db := { executed with lastErrorMessage := error }, model := m,
               last_insert_id := last_insert_id }
      | none =>
        -- obtain last insert id when new record was saved
        -- and store it in the current model instance
        if did_insert then
          let newId : Int := ((drv.lastInsertId statement % 2 ^ 64 : Nat) : Int)
          if newId ≠ 0 then
            match m.set_id newId with
            | none => none
            | some saved =>
              some { ok := true, db := executed, model := saved,
                     last_insert_id := last_insert_id.map fun _ => newId }
          else some { ok := true, db := executed, model := m, last_insert_id := last_insert_id }
        else some { ok := true, db := executed, model := m, last_insert_id := last_insert_id }

/-- `Model::save(db, last_insert_id)`. -/
def Model.save (converters : DispatchTable Converter) (drv : Driver) (db : Database) (m : Model)
    (last_insert_id : Option Int) : Option SaveResult :=
  -- first do client-side model validation
  match m.is_valid m.toAttributeStore with
  | (false, error_message) =>
    some { ok := false, db := { db with lastErrorMessage := error_message }, model := m,
           last_insert_id := last_insert_id }
  | (true, _) =>
    -- check if model has attributes
    match m.has_model_attributes with
    | none => none
    | some false =>
      some { ok := false,
             db := { db with
                     lastErrorMessage := "model is empty, please add some attributes first" },
             model := m, last_insert_id := last_insert_id }
    | some true =>
      match m.is_new_record with
      | none => none
      -- record not present in database, insert it
      | some true =>
        match m.generate_insert_query with
        | none => none
        | some statement =>
          Model.save_execute converters drv db m last_insert_id statement true
      -- record present in database, update it
      | some false =>
        match m.generate_update_query with
        | none => none
        | some statement =>
          if statement.isEmpty then
            -- nothing to do, simulate success
            some { ok := true, db := db, model := m, last_insert_id := last_insert_id }
          else Model.save_execute converters drv db m last_insert_id statement false

/-- `Model::remove(db)`; `last_insert_id` of the result is not used. -/
def Model.remove (drv : Driver) (db : Database) (m : Model) : Option SaveResult :=
  match m.is_new_record with
  | none => none
  | some true => some { ok := true, db := db, model := m, last_insert_id := none }
  | some false =>
    match m.id with
    | none => none
    | some id =>
      let statement := "DELETE FROM `" ++ m.table_name ++ "` WHERE id=" ++ toString id ++ ";"
      let executed : Database := { db with calls := db.calls ++ [.exec statement] }
      match drv.exec statement with
      | .error error =>
        some { ok := false, db := { executed with lastErrorMessage := error }, model := m,
               last_insert_id := none }
      | .ok _ =>
        match m.set_id 0 with
        | none => none
        | some removed =>
          some { ok := true, db := executed, model := removed, last_insert_id := none }

/-- One step of the loop of `construct_default`: the cell `get_attribute(attr)`
(reached through `_attributes[attr]`) is decoded in place from the column of
the same name. -/
def construct_default_step (mappers : DispatchTable Mapper) (row : Row)
    (attributes : List (String × Attribute)) (attr : String) :
    Option (List (String × Attribute)) := do
  let attributes := map_subscript attributes attr
  let cell ← map_find attributes attr
  let decoded ← any_from_qvariant mappers cell.value (row.value attr)
  return map_assign attributes attr { cell with value := decoded.1 }

/-- The loop of `construct_default` over `_columns`. -/
def construct_default_loop (mappers : DispatchTable Mapper) (row : Row) :
    List (String × Attribute) → List String → Option (List (String × Attribute))
  | attributes, [] => some attributes
  | attributes, attr :: rest => do
    let attributes ← construct_default_step mappers row attributes attr
    construct_default_loop mappers row attributes rest

/-- `Model::construct_default(query)` on the current row of the query. -/
def Model.construct_default (mappers : DispatchTable Mapper) (m : Model) (row : Row) :
    Option Model := do
  -- iterate and fetch data on a best guess basis
  let attributes ← construct_default_loop mappers row m.attributes m.columns
  -- mark model as unchanged
  return Model.reset_changed_state { m with attributes := attributes }

/-! ## database/model_validators.cpp -/

/-- `Model::validate_varchar_length`: `text.size()` counts bytes. -/
def validate_varchar_length (length : Nat) (text : String) : Bool :=
  text.utf8ByteSize ≤ length

/-- `Model::validate_mediumtext_length`. -/
def validate_mediumtext_length (text : String) : Bool :=
  text.utf8ByteSize ≤ 0xffffff -- 16,777,215 bytes

/-! ## Reference description of the DDL, following the specification -/

/-- A clause of the key section of a `CREATE TABLE` statement. -/
inductive KeyClause where
  | primary (name : String)
  | foreign (name target target_field : String)
  | unique (name : String)
deriving DecidableEq, Repr

/-- The text of a key clause. -/
def KeyClause.render : KeyClause → String
  | .primary name => "PRIMARY KEY (`" ++ name ++ "`)"
  | .foreign name target target_field =>
    "FOREIGN KEY (`" ++ name ++ "`) REFERENCES " ++ target ++ "(`" ++ target_field ++ "`)"
  | .unique name => "UNIQUE KEY (`" ++ name ++ "`)"

/-- Whether the clause is a `PRIMARY KEY` clause. -/
def KeyClause.isPrimary : KeyClause → Bool
  | .primary _ => true
  | _ => false

/-- Reference: the key clauses of one field, primary, then foreign, then unique. -/
def ddl_key_clauses (f : Field) : List KeyClause :=
  (if f.pk then [KeyClause.primary f.name] else []) ++
  (if f.fk then [KeyClause.foreign f.name f.references_table f.references_field] else []) ++
  (if f.uk then [KeyClause.unique f.name] else [])

/-- Reference: the field clause, `name` and type followed by the optional parts. -/
def ddl_field_clause (f : Field) : String :=
  "`" ++ f.name ++ "` " ++ f.type ++
  (if f.nullable then "" else " NOT NULL") ++
  (if f.auto_increment then " AUTO_INCREMENT" else "") ++
  (if f.default_value = "" then "" else " DEFAULT " ++ f.default_value)

/-- Reference: the key section `K`, a comma and the comma-joined key clauses of
all fields in field order, or a single space when there is no key clause. -/
def ddl_key_section (fields : List Field) : String :=
  if fields.flatMap ddl_key_clauses = [] then " "
  else "," ++ String.intercalate "," ((fields.flatMap ddl_key_clauses).map KeyClause.render)

/-- Reference: the whole `CREATE TABLE` statement. -/
def ddl_reference (t : DatabaseTable) (includeIfNotExists : Bool) : String :=
  "CREATE TABLE " ++ (if includeIfNotExists then "IF NOT EXISTS " else "") ++
  "`" ++ t.name ++ "` (" ++ String.intercalate "," (t.fields.map ddl_field_clause) ++
  ddl_key_section t.fields ++ ");"

/-! ## database/registrar.hpp, database/database.hpp, database/database.cpp: finding records -/

/-- A `std::shared_ptr<Model>`: `none` is the null pointer, otherwise the object
with its dynamic type, which `dynamic_cast` inspects. -/
abbrev ModelPtr := Option (TypeTag × Model)

/-- A registrar entry: the callable that builds a model from the current row of
a query (the `Database` pointer it also receives is not used by `Model`). -/
abbrev Factory := Row → ModelPtr

/-- `DatabaseRegistrar::to_model_constructor<T>(f)`. -/
def to_model_constructor (T : TypeTag) (f : Factory) : TypeTag × Factory :=
  (T, fun query => f query)

/-- `DatabaseRegistrar::register_model<T>(f)`. -/
def register_model (model_registrar : DispatchTable Factory) (T : TypeTag) (f : Factory) :
    DispatchTable Factory :=
  model_registrar.insert (to_model_constructor T f)

/-- A concrete model class (`MODEL(name)` with `MODEL_DECL`): its runtime type
tag, the names and validator it supplies, the attributes its constructors
declare with `make_model_attribute`, and its query constructor
`name(const Query *query, const Database *db)`. -/
structure ModelType where
  tag : TypeTag
  table_name : String
  type_name : String
  is_valid : AttributeStore → Bool × String
  declared : List (String × AnyValue)
  from_query : Row → Model

/-- `ModelType()`: `Model::Model()` followed by the declarations of the class. -/
def ModelType.default (T : ModelType) : Model :=
  T.declared.foldl (fun m d => m.make_model_attribute d.1 d.2)
    (Model.new T.table_name T.type_name T.is_valid)

/-- The callable that `Database::registerModel<ModelType>()` registers:
`std::make_shared<ModelType>(ModelType(query, db))`. -/
def ModelType.factory (T : ModelType) : Factory :=
  fun query => some (T.tag, T.from_query query)

/-- `Database::registerModel<ModelType>()`. -/
def registerModel (model_registrar : DispatchTable Factory) (T : ModelType) :
    DispatchTable Factory :=
  register_model model_registrar T.tag T.factory

/-- `Database::set_error(error, b)`: writes through the pointer unless it is
null (`none`). -/
def set_error (error : Option Bool) (b : Bool) : Option Bool :=
  error.map fun _ => b

/-- `Database::open(error)`: the returned flag, the engine and the cell of
`error`. -/
def Database.open (drv : Driver) (db : Database) (error : Option Bool) :
    Bool × Database × Option Bool :=
  let cleared : Database := { lastErrorMessage := "", calls := db.calls ++ [.connect] }
  match drv.connect with
  -- open success
  | none => (true, cleared, set_error error false)
  -- open failed
  | some text => (false, { cleared with lastErrorMessage := text }, set_error error true)

/-- `Database::close()`. -/
def Database.close (db : Database) : Database :=
  { db with calls := db.calls ++ [.close] }

/-- The `query` wrapper of `database.cpp`: the statement is executed and the
result is the cursor (its rows) or the error text. -/
def query (drv : Driver) (db : Database) (statement : String) :
    Database × Except String (List Row) :=
  ({ db with calls := db.calls ++ [.exec statement] }, drv.exec statement)

/-- What `internal_find` leaves behind: the engine, the cell of `error` and the
returned pointer. -/
structure InternalFind where
  db : Database
  error : Option Bool
  result : ModelPtr

/-- The statement that `internal_find` builds: by primary key when `id` is not
null, otherwise from `*filter` (a null `filter` is then dereferenced). -/
def internal_find_statement (model : Model) (id : Option Int) (filter : Option String) :
    Option String :=
  match id, filter with
  | some id, _ => some ("SELECT * FROM `" ++ model.table_name ++ "` WHERE id=" ++ toString id ++ ";")
  | none, some filter =>
    some ("SELECT * FROM `" ++ model.table_name ++ "` WHERE " ++ filter ++ " LIMIT 1;")
  | none, none => none

/-- `Database::internal_find(model, id, filter, type, error)`; `type` is the
type tag of the `std::any` argument. -/
def Database.internal_find (model_registrar : DispatchTable Factory) (drv : Driver)
    (db : Database) (model : Model) (id : Option Int) (filter : Option String) (type : TypeTag)
    (error : Option Bool) : Option InternalFind :=
  match internal_find_statement model id filter with
  | none => none
  | some statement =>
    match query drv db statement with
    | (db, .error text) =>
      some { db := { db with lastErrorMessage := text }, error := set_error error true,
             result := none }
    -- try to seek to first result
    | (db, .ok []) =>
      some { db := { db with lastErrorMessage := "empty result set for " ++ model.table_name },
             error := set_error error true, result := none }
    | (db, .ok (row :: _)) =>
      -- look if current model is registered in the registrar and call the constructor
      match model_registrar.find type with
      | some constructor =>
        some { db := db, error := set_error error false, result := constructor row }
      -- model not registered
      | none =>
        some { db := { db with lastErrorMessage := "unsupported model type: " ++ model.type_name },
               error := set_error (set_error error false) true, result := none }

/-- What `findRecord` leaves behind: the engine, the cell of `error` and the
returned model. -/
structure FindRecord where
  db : Database
  error : Option Bool
  model : Model

/-- The body shared by the two overloads of `Database::findRecord<ModelType>`;
dereferencing the result of a failed `dynamic_cast` is undefined. -/
def Database.findRecord_body (model_registrar : DispatchTable Factory) (drv : Driver)
    (db : Database) (T : ModelType) (id : Option Int) (filter : Option String)
    (error : Option Bool) : Option FindRecord :=
  match Database.open drv db error with
  | (false, db, error) => some { db := db, error := error, model := T.default }
  | (true, db, error) =>
    match Database.internal_find model_registrar drv db T.default id filter T.tag error with
    | none => none
    | some found =>
      let closed := found.db.close
      match found.result with
      | none => some { db := closed, error := found.error, model := T.default }
      | some (tag, model) =>
        if tag = T.tag then some { db := closed, error := found.error, model := model }
        else none

/-- `Database::findRecord<ModelType>(id, error)`. -/
def Database.findRecord (model_registrar : DispatchTable Factory) (drv : Driver) (db : Database)
    (T : ModelType) (id : Int) (error : Option Bool) : Option FindRecord :=
  Database.findRecord_body model_registrar drv db T (some id) none error

/-- `Database::findRecord<ModelType>(filter, error)`. -/
def Database.findRecord_filter (model_registrar : DispatchTable Factory) (drv : Driver)
    (db : Database) (T : ModelType) (filter : String) (error : Option Bool) :
    Option FindRecord :=
  Database.findRecord_body model_registrar drv db T none (some filter) error

/-- The statement that `internal_find_all` builds. -/
def internal_find_all_statement (model : Model) (filter : Option String) : String :=
  match filter with
  | some filter => "SELECT * FROM `" ++ model.table_name ++ "` WHERE " ++ filter ++ ";"
  | none => "SELECT * FROM `" ++ model.table_name ++ "`;"

/-- The `while (next())` loop of `internal_find_all`: the pointers collected
for the rows, or `none` when the loop is left by `return {}` because the model
is not registered. -/
def internal_find_all_loop (model_registrar : DispatchTable Factory) (type : TypeTag) :
    List Row → Option (List ModelPtr)
  | [] => some []
  | row :: rest =>
    -- look if current model is registered in the registrar and call the constructor
    match model_registrar.find type with
    | some constructor =>
      (internal_find_all_loop model_registrar type rest).map fun results => constructor row :: results
    -- if model isn't registered, cancel iteration and return empty list
    | none => none

/-- What `internal_find_all` leaves behind. -/
structure InternalFindAll where
  db : Database
  error : Option Bool
  results : List ModelPtr

/-- `Database::internal_find_all(model, filter, type, error)`. -/
def Database.internal_find_all (model_registrar : DispatchTable Factory) (drv : Driver)
    (db : Database) (model : Model) (filter : Option String) (type : TypeTag)
    (error : Option Bool) : InternalFindAll :=
  match query drv db (internal_find_all_statement model filter) with
  | (db, .error text) =>
    { db := { db with lastErrorMessage := text }, error := set_error error true, results := [] }
  | (db, .ok rows) =>
    match internal_find_all_loop model_registrar type rows with
    | some results => { db := db, error := set_error error false, results := results }
    | none =>
      { db := { db with lastErrorMessage := "unsupported model type: " ++ model.type_name },
        error := set_error (set_error error false) true, results := [] }

/-- The loop of `findAll` that copies `*dynamic_cast<const ModelType*>(res.get())`
for every result; a null pointer or an object of another class is undefined. -/
def findAll_cast (T : ModelType) : List ModelPtr → Option (List Model)
  | [] => some []
  | none :: _ => none
  | some (tag, model) :: rest =>
    if tag = T.tag then (findAll_cast T rest).map fun casted_results => model :: casted_results
    else none

/-- What `findAll` leaves behind: the engine, the cell of `error` and the
returned list. -/
structure FindAll where
  db : Database
  error : Option Bool
  models : List Model

/-- The body shared by the two overloads of `Database::findAll<ModelType>`;
`filter` is `none` for the overload without a filter. -/
def Database.findAll_body (model_registrar : DispatchTable Factory) (drv : Driver)
    (db : Database) (T : ModelType) (filter : Option String) (error : Option Bool) :
    Option FindAll :=
  match Database.open drv db error with
  | (false, db, error) => some { db := db, error := error, models := [] }
  | (true, db, error) =>
    let found := Database.internal_find_all model_registrar drv db T.default filter T.tag error
    match findAll_cast T found.results with
    | none => none
    | some casted_results =>
      some { db := found.db.close, error := found.error, models := casted_results }

/-- `Database::findAll<ModelType>(error)`. -/
def Database.findAll (model_registrar : DispatchTable Factory) (drv : Driver) (db : Database)
    (T : ModelType) (error : Option Bool) : Option FindAll :=
  Database.findAll_body model_registrar drv db T none error

/-- `Database::findAll<ModelType>(filter, error)`. -/
def Database.findAll_filter (model_registrar : DispatchTable Factory) (drv : Driver)
    (db : Database) (T : ModelType) (filter : String) (error : Option Bool) : Option FindAll :=
  Database.findAll_body model_registrar drv db T (some filter) error

/-! ## Typed access to the attribute store: how a failing call ends -/

/-- How a call of `get_attribute_value` or `set_attribute_value` that has no
result ends: `std::map::at` throws `std::out_of_range`, and the null pointer
that the pointer form of `std::any_cast` returns for a cell of another type is
dereferenced, which is undefined behaviour. -/
inductive Fault where
  | out_of_range
  | null_dereference
deriving DecidableEq, Repr

/-- `get_attribute_value<T>(key)` with the way it ends when it has no result. -/
def Model.get_attribute_value_outcome (m : Model) (T : TypeTag) (key : String) :
    Except Fault AnyValue :=
  match map_find m.attributes key with
  | none => .error .out_of_range
  | some a => if a.value.type = T ∧ T ≠ .void then .ok a.value else .error .null_dereference

/-- `set_attribute_value<ValueType>(key, value)` with the way it ends when it
has no result. -/
def Model.set_attribute_value_outcome (m : Model) (key : String) (value : AnyValue) :
    Except Fault Model :=
  let attributes := map_subscript m.attributes key
  match map_find attributes key with
  | some a =>
    if a.value.type = value.type ∧ value.type ≠ .void then
      .ok { m with attributes := map_assign attributes key { value := value, modified := true } }
    else .error .null_dereference
  | none => .error .null_dereference

/-- The way a call ended when it has no result. -/
def fault_of {α : Type} : Except Fault α → Option Fault
  | .error fault => some fault
  | .ok _ => none

/-! ## database/model.hpp: the comparison operators -/

/-- `Model::operator==`. -/
def Model.op_eq (comparators : DispatchTable Comparator) (self other : Model) : Option Bool :=
  Model.compare_helper comparators self other

/-- `Model::operator!=`. -/
def Model.op_ne (comparators : DispatchTable Comparator) (self other : Model) : Option Bool :=
  (Model.compare_helper comparators self other).map fun equal => !equal

/-- `utils::register_any_comparator<T>(f)`. -/
def register_any_comparator (any_comparator : DispatchTable Comparator) (T : TypeTag)
    (f : AnyValue → AnyValue → Bool) : DispatchTable Comparator :=
  any_comparator.insert (to_any_comparator T f)

/-- A comparator table all of whose entries were made by `to_any_comparator`,
as the initialiser of the table and `register_any_comparator` make them. -/
def comparators_registered (comparators : DispatchTable Comparator) : Prop :=
  ∀ e ∈ comparators, ∃ f, e = to_any_comparator e.1 f

/-! ## Sequences of operations on the attribute store -/

/-- An operation that a model class applies to its attribute store. -/
inductive StoreOp where
  /-- `make_model_attribute<ValueType>(name, value)`. -/
  | declare (name : String) (value : AnyValue)
  /-- `set_attribute_value<ValueType>(name, value)`. -/
  | set (name : String) (value : AnyValue)
  /-- `construct_default(query)` on the given row. -/
  | load (row : Row)
  /-- `reset_changed_state()`. -/
  | reset
deriving DecidableEq, Repr

/-- The model after one operation; `none` when the operation has no result. -/
def StoreOp.apply (mappers : DispatchTable Mapper) (m : Model) : StoreOp → Option Model
  | .declare name value => some (m.make_model_attribute name value)
  | .set name value => m.set_attribute_value name value
  | .load row => m.construct_default mappers row
  | .reset => some m.reset_changed_state

/-- The model after a sequence of operations. -/
def run_store_ops (mappers : DispatchTable Mapper) : Model → List StoreOp → Option Model
  | m, [] => some m
  | m, op :: rest =>
    match op.apply mappers m with
    | none => none
    | some next => run_store_ops mappers next rest

/-- The names that a sequence of operations declares, in order. -/
def declared_names : List StoreOp → List String
  | [] => []
  | .declare name _ :: rest => name :: declared_names rest
  | _ :: rest => declared_names rest

/-! ## database/registrar.cpp: the registrar as the program starts -/

/-- The table `DatabaseRegistrar::model_registrar` as the source defines it:
default-constructed, without an entry. -/
def model_registrar : DispatchTable Factory :=
  []

/-- The registrar after the calls `register_model<T>(f)` of a list, oldest
first. -/
def register_models (registrar : DispatchTable Factory) (calls : List (TypeTag × Factory)) :
    DispatchTable Factory :=
  calls.foldl (fun table call => register_model table call.1 call.2) registrar

/-! ## utils/qvariant_mapper.hpp: registered decoders -/

/-- `register_qvariant_mapper<T>(f)`. -/
def register_qvariant_mapper (table : DispatchTable Mapper) (T : TypeTag)
    (f : AnyValue → QVariant → AnyValue) : DispatchTable Mapper :=
  table.insert (to_qvariant_mapper T f)

/-- A decoder table all of whose entries were made by `to_qvariant_mapper`, as
the initialiser of the table and `register_qvariant_mapper` make them. The
callable of an entry receives the cell as a `T&`, so what it leaves in the
cell is a `T`. -/
def mappers_registered (mappers : DispatchTable Mapper) : Prop :=
  ∀ e ∈ mappers, ∃ f, e = to_qvariant_mapper e.1 f ∧
    ∀ target var, target.type = e.1 → (f target var).type = e.1

/-! ## database/database.cpp: the public operations -/

/-- `Database::execute(query)`: the returned flag and the engine. -/
def Database.execute (drv : Driver) (db : Database) (_query : String) : Bool × Database :=
  match Database.open drv db none with
  | (false, db, _) => (false, db)
  | (true, db, _) =>
    match query drv db _query with
    | (db, .error text) => (false, Database.close { db with lastErrorMessage := text })
    | (db, .ok _) => (true, Database.close { db with lastErrorMessage := "" })

/-- `Database::tables()`: the returned list and the engine. -/
def Database.tables (drv : Driver) (db : Database) : List String × Database :=
  match Database.open drv db none with
  | (false, db, _) => ([], db)
  | (true, db, _) =>
    let listed : Database := { db with calls := db.calls ++ [.tables] }
    (drv.tables, Database.close listed)

/-- `Database::internal_create_table(table, errorWhenExists)`. -/
def Database.internal_create_table (drv : Driver) (db : Database) (table : DatabaseTable)
    (errorWhenExists : Bool) : Bool × Database :=
  if table.empty then
    (false, { db with lastErrorMessage := table.name ++ ": no fields specified" })
  else
    match query drv db (table.generateSqlStatement (!errorWhenExists)) with
    | (db, .error text) => (false, { db with lastErrorMessage := text })
    | (db, .ok _) => (true, { db with lastErrorMessage := "" })

/-- `Database::createTable(table, errorWhenExists)`: the returned flag and the
engine. -/
def Database.createTable (drv : Driver) (db : Database) (table : DatabaseTable)
    (errorWhenExists : Bool) : Bool × Database :=
  match Database.open drv db none with
  | (false, db, _) => (false, db)
  | (true, db, _) =>
    match Database.internal_create_table drv db table errorWhenExists with
    | (status, db) => (status, Database.close db)

/-- `Database::dropTable(tableName)`. -/
def Database.dropTable (drv : Driver) (db : Database) (tableName : String) : Bool × Database :=
  Database.execute drv db ("DROP TABLE `" ++ tableName ++ "`;")

/-- `Database::truncateTable(tableName)`. -/
def Database.truncateTable (drv : Driver) (db : Database) (tableName : String) :
    Bool × Database :=
  Database.execute drv db ("TRUNCATE TABLE `" ++ tableName ++ "`;")

/-- `Database::canConnect()`. -/
def Database.canConnect (drv : Driver) (db : Database) : Bool × Database :=
  match Database.open drv db none with
  | (status, db, _) => (status, Database.close db)

/-- `Database::saveRecord(model)`: what `save` leaves behind, with the engine
after `close`. -/
def Database.saveRecord (converters : DispatchTable Converter) (drv : Driver) (db : Database)
    (model : Model) : Option SaveResult :=
  match Database.open drv db none with
  | (false, db, _) => some { ok := false, db := db, model := model, last_insert_id := none }
  | (true, db, _) =>
    match model.save converters drv db none with
    | none => none
    | some saved => some { saved with db := Database.close saved.db }

/-- `Database::deleteRecord(model)`. -/
def Database.deleteRecord (drv : Driver) (db : Database) (model : Model) : Option SaveResult :=
  match Database.open drv db none with
  | (false, db, _) => some { ok := false, db := db, model := model, last_insert_id := none }
  | (true, db, _) =>
    match model.remove drv db with
    | none => none
    | some removed => some { removed with db := Database.close removed.db }

/-- The state of the `QSqlDatabase` connection after a trace of driver calls,
from the state before them: `open` leaves the connection open iff it
succeeds, `close` leaves it closed, and no other call changes it. -/
def connection_open (drv : Driver) (opened : Bool) (calls : List DriverCall) : Bool :=
  calls.foldl
    (fun state call =>
      match call with
      | .connect => drv.connect.isNone
      | .close => false
      | _ => state)
    opened

/-! ## utils/any_formatter: the formatter table -/

/-- The texts that come from outside the program: `fmt::format("{}", x)` for a
`float` and a `double`, and `toString(Qt::ISODate)` of the Qt date types. -/
structure TextFormat where
  float : Ieee → String
  double : Ieee → String
  dateTime : Int → String
  date : Int → String
  time : Int → String

/-- A formatter: `none` is a failed `std::any_cast`. -/
abbrev Formatter := AnyValue → Option String

/-- `to_any_formatter<T>(f)`: the entry casts the cell to `T` and applies `f`;
the entry of `void` returns the empty string. -/
def to_any_formatter (T : TypeTag) (f : AnyValue → String) : TypeTag × Formatter :=
  (T, fun any =>
    if T = .void then some ""
    else if any.type = T then some (f any) else none)

/-- `fmt::format("{}", x)` for a value of a base type: `true` or `false`, the
decimal digits of an integer (the 8-bit types are formatted as numbers), the
string itself. -/
def format_scalar (text : TextFormat) : Scalar → String
  | .bool v => if v then "true" else "false"
  | .float v => text.float v
  | .double v => text.double v
  | .int _ v => toString v
  | .string v => v
  | .qDateTime v => text.dateTime v
  | .qDate v => text.date v
  | .qTime v => text.time v

/-- `FORMATTER(type)`: the entry of `type` and the entry of
`std::optional<type>`, which writes `{NULL}` for an empty optional. -/
def FORMATTER (text : TextFormat) (b : BaseType) : List (TypeTag × Formatter) :=
  [ to_any_formatter (.plain b) (fun any =>
      match any with
      | .plain s => format_scalar text s
      | _ => ""),
    to_any_formatter (.optional b) (fun any =>
      match any with
      | .optional _ (some s) => format_scalar text s
      | _ => "\x7bNULL\x7d") ]

/-- The table `utils::any_formatter` as the source initialises it. -/
def any_formatter (text : TextFormat) : DispatchTable Formatter :=
  -- default data types
  FORMATTER text .bool ++
  FORMATTER text .float ++
  FORMATTER text .double ++
  FORMATTER text (.int .uint8) ++
  FORMATTER text (.int .uint16) ++
  FORMATTER text (.int .uint32) ++
  FORMATTER text (.int .uint64) ++
  FORMATTER text (.int .int8) ++
  FORMATTER text (.int .int16) ++
  FORMATTER text (.int .int32) ++
  FORMATTER text (.int .int64) ++
  FORMATTER text .string ++
  -- Qt specific types
  FORMATTER text .qDateTime ++
  FORMATTER text .qDate ++
  FORMATTER text .qTime

/-- `utils::format_any(any, &success)`: the text and the success flag; the
empty text with `false` when the type of the cell has no entry. -/
def format_any (table : DispatchTable Formatter) (any : AnyValue) : Option (String × Bool) :=
  match table.find any.type with
  | some f => (f any).map fun formatted => (formatted, true)
  | none => some ("", false)

/-- A formatter table all of whose entries were made by `to_any_formatter`. -/
def formatters_registered (formatters : DispatchTable Formatter) : Prop :=
  ∀ e ∈ formatters, ∃ f, e = to_any_formatter e.1 f

/-! ## database/model.cpp: `to_string` -/

/-- The entry that `to_string` writes for one attribute from the answer of
`format_any`. -/
def to_string_entry (attr : String) (formatted : String × Bool) : String :=
  if formatted.2 then attr ++ " = " ++ formatted.1
  else attr ++ "=\x7bunsupported\x7d"

/-- The loop of `to_string` over `_columns`; `_attributes.at(attr)` throws for
a column without an attribute. -/
def to_string_loop (formatters : DispatchTable Formatter)
    (attributes : List (String × Attribute)) : List String → Option (List String)
  | [] => some []
  | attr :: rest =>
    if attr = "id" then to_string_loop formatters attributes rest
    else
      match map_find attributes attr with
      | none => none
      | some cell =>
        match format_any formatters cell.value with
        | none => none
        | some formatted =>
          (to_string_loop formatters attributes rest).map fun formatted_attrs =>
            to_string_entry attr formatted :: formatted_attrs

/-- `Model::to_string`. -/
def Model.to_string (formatters : DispatchTable Formatter) (m : Model) : Option String :=
  match m.is_new_record with
  | none => none
  | some is_new =>
    match m.id with
    | none => none
    | some id =>
      -- header
      let str := m.type_name ++ "(" ++ (if is_new then "new" else toString id) ++ ") \x7b\n    "
      -- attributes
      match to_string_loop formatters m.attributes m.columns with
      | none => none
      | some formatted_attrs =>
        some (str ++ list_join formatted_attrs ",\n    " ++ ",\n\x7d")

/-! ## utils/any_comparator: symmetric comparators -/

/-- A comparator table all of whose entries were made by `to_any_comparator`
from a symmetric callable, as the `operator==` that `COMPARATOR` and
`REGISTER_BASIC_ANY_COMPARATOR` use is. -/
def comparators_symmetric (comparators : DispatchTable Comparator) : Prop :=
  ∀ e ∈ comparators, ∃ f, e = to_any_comparator e.1 f ∧ ∀ l r, f l r = f r l

/-! ## utils/any_formatter.hpp, utils/qvariant_converter.hpp: registration -/

/-- `register_any_formatter<T>(f)`. -/
def register_any_formatter (table : DispatchTable Formatter) (T : TypeTag)
    (f : AnyValue → String) : DispatchTable Formatter :=
  table.insert (to_any_formatter T f)

/-- `register_qvariant_converter<T>(f)`. -/
def register_qvariant_converter (table : DispatchTable Converter) (T : TypeTag)
    (f : AnyValue → QVariant) : DispatchTable Converter :=
  table.insert (to_qvariant_converter T f)

/-! ## Sample models and driver answers -/

/-- `MODEL_DEFAULT_VALID_IMPL`: the stub validator, which returns `true`. -/
def default_valid : AttributeStore → Bool × String :=
  fun _ => (true, "")

/-- A validator built on `validate_varchar_length`: the `name` must fit a
`VARCHAR(2)` column. -/
def short_name_valid : AttributeStore → Bool × String :=
  fun store =>
    match map_find store.attributes "name" with
    | some ⟨.plain (.string name), _⟩ =>
      if validate_varchar_length 2 name then (true, "") else (false, "name is too long")
    | _ => (false, "name is missing")

/-- The constructor of a model `User` (table `users`) that declares a `name`
of type `std::string` and an `age` of type `std::int64_t` with the given
values. -/
def user_model (name : String) (age : Int) : Model :=
  ((Model.new "users" "User" default_valid).make_model_attribute "name"
    (.plain (.string name))).make_model_attribute "age" (.plain (.int .int64 age))

/-- A new `User` record with name `ada` and age `40000`. -/
def sample_user : Model :=
  user_model "ada" 40000

/-- The `User` record as loaded from the row with id `7`. -/
def sample_persisted : Model :=
  { sample_user with
    attributes :=
      [ ("age", ⟨.plain (.int .int64 36), false⟩),
        ("id", ⟨.plain (.int .uint64 7), false⟩),
        ("name", ⟨.plain (.string "ada"), false⟩) ] }

/-- The loaded record after `set_name("eve")`. -/
def sample_modified : Model :=
  { sample_user with
    attributes :=
      [ ("age", ⟨.plain (.int .int64 36), false⟩),
        ("id", ⟨.plain (.int .uint64 7), false⟩),
        ("name", ⟨.plain (.string "eve"), true⟩) ] }

/-- The loaded record of a subclass whose validator rejects the name `ada`. -/
def sample_invalid : Model :=
  { sample_persisted with is_valid := short_name_valid }

/-- A driver that accepts every statement, returns no rows and reports the
given last insert id. -/
def accepting_driver (last_insert_id : Nat) : Driver :=
  { connect := none
    exec := fun _ => .ok []
    prepare := fun _ => none
    execPrepared := fun _ _ => none
    lastInsertId := fun _ => last_insert_id }

/-- A driver that fails every statement with the given error text. -/
def failing_driver (error : String) : Driver :=
  { connect := none
    exec := fun _ => .error error
    prepare := fun _ => none
    execPrepared := fun _ _ => some error
    lastInsertId := fun _ => 0 }

/-- Cross-kind conversions that give the zero value of the target type. -/
def zero_convert : QtConvert :=
  { toBool := fun _ => false
    toFloat := fun _ => ⟨false, 0, 0⟩
    toDouble := fun _ => ⟨false, 0, 0⟩
    toInt := fun _ _ => 0
    toString := fun _ => ""
    toDateTime := fun _ => 0
    toDate := fun _ => 0
    toTime := fun _ => 0 }

/-- The sample table of the DDL theorems: an id, a nullable name with a
default, and an owner that is both a foreign and a unique key. -/
def sample_table : DatabaseTable :=
  { name := "users"
    fields :=
      [ DatabaseTable.idField,
        { name := "name", type := "varchar(64)", nullable := true, default_value := "'x'" },
        { name := "owner", type := "bigint", fk := true, uk := true,
          references_table := "owners", references_field := "id" } ] }

/-- The class `User` of the sample models: its query constructor declares the
attributes and calls `construct_default`. -/
def user_type : ModelType :=
  { tag := .other "User"
    table_name := "users"
    type_name := "User"
    is_valid := default_valid
    declared := [("name", .plain (.string "")), ("age", .plain (.int .int64 0))]
    from_query := fun query =>
      ((user_model "" 0).construct_default (qvariant_mapper zero_convert) query).getD
        (user_model "" 0) }

/-- A driver that accepts every statement and answers every query with the
given rows. -/
def rows_driver (rows : List Row) : Driver :=
  { connect := none
    exec := fun _ => .ok rows
    prepare := fun _ => none
    execPrepared := fun _ _ => none
    lastInsertId := fun _ => 0 }

/-- A driver whose connection cannot be opened. -/
def offline_driver (error : String) : Driver :=
  { connect := some error
    exec := fun _ => .error error
    prepare := fun _ => some error
    execPrepared := fun _ _ => some error
    lastInsertId := fun _ => 0 }

/-- Two rows of the table `users`. -/
def sample_rows : List Row :=
  [ [("id", .int .uint64 7), ("name", .string "ada"), ("age", .int .int64 36)],
    [("id", .int .uint64 8), ("name", .string "eve"), ("age", .int .int64 41)] ]

/-- A model of a class that declares no attribute, as loaded from the row with
id `5`. -/
def bare_persisted : Model :=
  { attributes := [("id", ⟨.plain (.int .uint64 5), false⟩)]
    columns := ["id"]
    table_name := "tokens"
    type_name := "Token"
    is_valid := default_valid }

/-- A record of a class `User` that declares a `code` of type `std::int32_t`
and a `photo` of a type `Photo` that has no entry in the dispatch tables. -/
def photo_user : Model :=
  ((Model.new "users" "User" default_valid).make_model_attribute "code"
    (.plain (.int .int32 1))).make_model_attribute "photo" (.other "Photo" 1)

/-- A record of a class `Product` that declares a `code` of type `std::string`
and a `photo` of the same type `Photo`. -/
def photo_product : Model :=
  ((Model.new "products" "Product" default_valid).make_model_attribute "code"
    (.plain (.string "x"))).make_model_attribute "photo" (.other "Photo" 1)

/-- The operations of a `User` object: two declarations, a write, a load from a
row and a reset of the flags. -/
def sample_ops : List StoreOp :=
  [ .declare "name" (.plain (.string "")),
    .declare "age" (.plain (.int .int64 0)),
    .set "name" (.plain (.string "eve")),
    .load [("id", .int .uint64 7), ("name", .string "ada"), ("age", .int .int64 36)],
    .reset ]

/-- Texts for the values that are formatted outside the program: every one is
written as `?`. -/
def sample_text : TextFormat :=
  { float := fun _ => "?"
    double := fun _ => "?"
    dateTime := fun _ => "?"
    date := fun _ => "?"
    time := fun _ => "?" }

/-! # Theorems -/

/-! ## Text lemmas -/

theorem intercalate_go_append (s : String) (l : List String) (x acc : String) :
    String.intercalate.go (x ++ acc) s l = x ++ String.intercalate.go acc s l := by
  induction l generalizing acc with
  | nil => rfl
  | cons a as ih =>
    simp only [String.intercalate.go]
    rw [String.append_assoc, String.append_assoc, ← String.append_assoc acc, ih]

theorem intercalate_cons_cons (s a b : String) (l : List String) :
    String.intercalate s (a :: b :: l) = a ++ s ++ String.intercalate s (b :: l) := by
  simp only [String.intercalate, String.intercalate.go]
  rw [intercalate_go_append]

theorem list_join_eq_intercalate (s : String) :
    ∀ l : List String, list_join l s = String.intercalate s l
  | [] => rfl
  | [_] => rfl
  | x :: y :: rest => by
    rw [list_join, intercalate_cons_cons, list_join_eq_intercalate s (y :: rest)]

/-- The text written by a loop that puts the separator after every element is
the joined text followed by one separator. -/
theorem flatten_sep_eq (s : String) :
    ∀ l : List String, l ≠ [] →
      (l.map fun x => x.data ++ s.data).flatten = (String.intercalate s l).data ++ s.data
  | [], h => absurd rfl h
  | [x], _ => by simp [String.intercalate, String.intercalate.go]
  | x :: y :: rest, _ => by
    have ih := flatten_sep_eq s (y :: rest) (by simp)
    rw [intercalate_cons_cons, List.map_cons, List.flatten_cons, ih]
    simp [List.append_assoc]


/-! ## The generated DDL -/

theorem write_ofBuf (l : List Char) (s : String) :
    (OStringStream.ofBuf l).write s = OStringStream.ofBuf (l ++ s.data) := by
  simp [OStringStream.ofBuf, OStringStream.write]

theorem empty_stream_eq : ({} : OStringStream) = OStringStream.ofBuf [] := rfl

/-- Stepping back over the last character and writing `s` replaces that
character by `s`. -/
theorem seekp_back_write (l : List Char) (c : Char) (s : String) (hs : s.data ≠ []) :
    (((OStringStream.ofBuf (l ++ [c])).seekp_cur (-1)).write s).buf = l ++ s.data := by
  have h1 : ((OStringStream.ofBuf (l ++ [c])).seekp_cur (-1))
      = { buf := l ++ [c], pos := l.length, fail := false } := by
    simp [OStringStream.ofBuf, OStringStream.seekp_cur]
  rw [h1]
  have h2 : 1 ≤ s.data.length := by
    cases h : s.data with
    | nil => exact absurd h hs
    | cons a as => simp
  simp [OStringStream.write, List.take_append_eq_append_take, List.drop_append_eq_append_drop]
  exact h2

theorem isEmpty_eq_decide (s : String) : s.isEmpty = decide (s = "") := by
  by_cases h : s = ""
  · simp [h]; rfl
  · have h2 : ¬ (s.isEmpty = true) := fun h2 => h ((String.isEmpty_iff s).1 h2)
    simp [h, h2]

theorem generateSqlStatement_field_query (q : List Char) (b : SqlBuffers) (f : Field)
    (hq : b.query = OStringStream.ofBuf q) :
    (generateSqlStatement_field b f).query
      = OStringStream.ofBuf (q ++ ((ddl_field_clause f).data ++ ",".data)) := by
  obtain ⟨name, type, pk, fk, uk, nullable, auto_increment, rt, rf, dv⟩ := f
  have hd := isEmpty_eq_decide dv
  simp only [generateSqlStatement_field, hd, hq]
  by_cases hv : dv = "" <;> cases nullable <;> cases auto_increment <;>
    simp [hv, write_ofBuf, ddl_field_clause, List.append_assoc]

theorem generateSqlStatement_field_append (a : List Char) (b : SqlBuffers) (f : Field)
    (ha : b.append = OStringStream.ofBuf a) :
    (generateSqlStatement_field b f).append
      = OStringStream.ofBuf
          (a ++ ((ddl_key_clauses f).map fun k => k.render.data ++ ",".data).flatten) := by
  obtain ⟨name, type, pk, fk, uk, nullable, auto_increment, rt, rf, dv⟩ := f
  simp only [generateSqlStatement_field, ha]
  cases pk <;> cases fk <;> cases uk <;>
    simp [write_ofBuf, ddl_key_clauses, KeyClause.render, List.append_assoc]

theorem generateSqlStatement_field_has_append (b : SqlBuffers) (f : Field) :
    (generateSqlStatement_field b f).has_append
      = (b.has_append || !(ddl_key_clauses f).isEmpty) := by
  obtain ⟨name, type, pk, fk, uk, nullable, auto_increment, rt, rf, dv⟩ := f
  simp only [generateSqlStatement_field]
  cases pk <;> cases fk <;> cases uk <;> simp [ddl_key_clauses]

/-- The state of the buffers after the field loop. -/
theorem generateSqlStatement_loop (fields : List Field) :
    ∀ (q a : List Char) (b : SqlBuffers), b.query = OStringStream.ofBuf q →
      b.append = OStringStream.ofBuf a →
      (fields.foldl generateSqlStatement_field b).query
        = OStringStream.ofBuf
            (q ++ (fields.map fun f => (ddl_field_clause f).data ++ ",".data).flatten) ∧
      (fields.foldl generateSqlStatement_field b).append
        = OStringStream.ofBuf
            (a ++ ((fields.flatMap ddl_key_clauses).map
              fun k => k.render.data ++ ",".data).flatten) ∧
      (fields.foldl generateSqlStatement_field b).has_append
        = (b.has_append || !(fields.flatMap ddl_key_clauses).isEmpty) := by
  induction fields with
  | nil => intro q a b hq ha; simp [hq, ha]
  | cons f fs ih =>
    intro q a b hq ha
    have h := ih _ _ (generateSqlStatement_field b f)
      (generateSqlStatement_field_query q b f hq) (generateSqlStatement_field_append a b f ha)
    rw [List.foldl_cons]
    refine ⟨?_, ?_, ?_⟩
    · rw [h.1]; simp [List.append_assoc]
    · rw [h.2.1]; simp [List.append_assoc, List.flatMap_cons]
    · rw [h.2.2, generateSqlStatement_field_has_append]
      cases b.has_append <;> cases hk : ddl_key_clauses f <;> simp [List.flatMap_cons, hk]

/-- The buffers of `generateSqlStatement`, put together, are the reference
statement. -/
theorem generateSqlStatement_writes_reference (t : DatabaseTable) (includeIfNotExists : Bool)
    (hne : t.fields ≠ []) :
    t.generateSqlStatement includeIfNotExists = ddl_reference t includeIfNotExists := by
  obtain ⟨hq, ha, hh⟩ := generateSqlStatement_loop t.fields
    (("CREATE TABLE " ++ (if includeIfNotExists then "IF NOT EXISTS " else "") ++ "`" ++ t.name
      ++ "` (").data) []
    { query := ((((({} : OStringStream).write "CREATE TABLE ").write
        (if includeIfNotExists then "IF NOT EXISTS " else "")).write "`").write t.name).write "` ("
      append := {}
      has_append := false }
    (by simp [empty_stream_eq, write_ofBuf, List.append_assoc]) rfl
  have hF := flatten_sep_eq "," (t.fields.map ddl_field_clause) (by simpa using hne)
  rw [List.map_map] at hF
  have hF2 : (t.fields.map fun f => (ddl_field_clause f).data ++ ",".data).flatten
      = (String.intercalate "," (t.fields.map ddl_field_clause)).data ++ [','] := hF
  rw [hF2, ← List.append_assoc] at hq
  apply String.ext
  unfold DatabaseTable.generateSqlStatement ddl_reference ddl_key_section
  simp only []
  generalize List.foldl generateSqlStatement_field _ t.fields = B at hq ha hh ⊢
  by_cases hk : t.fields.flatMap ddl_key_clauses = []
  · rw [hk] at ha hh
    have hh2 : B.has_append = false := by simpa using hh
    have ha2 : B.append = OStringStream.ofBuf [] := by simpa using ha
    simp only [hh2, hk, Bool.false_eq_true, if_false, if_true, String.data_append,
      OStringStream.str]
    rw [hq, ha2, seekp_back_write _ _ _ (by decide), write_ofBuf]
    simp [OStringStream.ofBuf, List.append_assoc]
  · have hh2 : B.has_append = true := by
      cases hc : t.fields.flatMap ddl_key_clauses with
      | nil => exact absurd hc hk
      | cons k ks => rw [hc] at hh; simpa using hh
    have hK := flatten_sep_eq "," ((t.fields.flatMap ddl_key_clauses).map KeyClause.render)
      (by simpa using hk)
    rw [List.map_map] at hK
    have hK2 : ((t.fields.flatMap ddl_key_clauses).map
        fun k => k.render.data ++ ",".data).flatten
        = (String.intercalate ","
            ((t.fields.flatMap ddl_key_clauses).map KeyClause.render)).data ++ [','] := hK
    rw [hK2, List.nil_append] at ha
    simp only [hh2, hk, Bool.false_eq_true, if_false, if_true, String.data_append,
      OStringStream.str]
    rw [hq, ha, seekp_back_write _ _ _ (by decide)]
    simp [OStringStream.ofBuf, List.append_assoc]

/-- C10: for a table with a non-empty field list `generateSqlStatement` equals
the reference statement: `CREATE TABLE`, the optional `IF NOT EXISTS`, the
quoted table name, the comma-joined field clauses, the key section and `);`. -/
theorem generateSqlStatement_eq_reference (t : DatabaseTable) (includeIfNotExists : Bool)
    (hne : t.fields ≠ []) :
    t.generateSqlStatement includeIfNotExists
      = "CREATE TABLE " ++ (if includeIfNotExists then "IF NOT EXISTS " else "") ++
        "`" ++ t.name ++ "` (" ++ String.intercalate "," (t.fields.map ddl_field_clause) ++
        ddl_key_section t.fields ++ ");" :=
  generateSqlStatement_writes_reference t includeIfNotExists hne

/-- A joined text of elements that end with a closing parenthesis ends with one. -/
theorem intercalate_ends (s : String) :
    ∀ l : List String, l ≠ [] → (∀ x ∈ l, ∃ r, x = r ++ ")") →
      ∃ r, String.intercalate s l = r ++ ")"
  | [], h, _ => absurd rfl h
  | [x], _, hx => by
    obtain ⟨r, hr⟩ := hx x (by simp)
    exact ⟨r, by simpa [String.intercalate, String.intercalate.go] using hr⟩
  | x :: y :: rest, _, hx => by
    obtain ⟨r, hr⟩ := intercalate_ends s (y :: rest) (by simp)
      (fun z hz => hx z (List.mem_cons_of_mem _ hz))
    exact ⟨x ++ s ++ r, by rw [intercalate_cons_cons, hr]; simp [String.append_assoc]⟩

theorem render_ends (k : KeyClause) : ∃ r, k.render = r ++ ")" := by
  cases k with
  | primary name =>
    exact ⟨"PRIMARY KEY (`" ++ name ++ "`", by simp [KeyClause.render, String.append_assoc]⟩
  | foreign name target target_field =>
    exact ⟨"FOREIGN KEY (`" ++ name ++ "`) REFERENCES " ++ target ++ "(`" ++ target_field ++ "`",
      by simp [KeyClause.render, String.append_assoc]⟩
  | unique name =>
    exact ⟨"UNIQUE KEY (`" ++ name ++ "`", by simp [KeyClause.render, String.append_assoc]⟩

theorem ddl_primary_clauses (fields : List Field) :
    (fields.flatMap ddl_key_clauses).filter KeyClause.isPrimary
      = (fields.filter fun f => f.pk).map fun f => KeyClause.primary f.name := by
  induction fields with
  | nil => rfl
  | cons f fs ih =>
    rw [List.flatMap_cons, List.filter_append, ih]
    cases hp : f.pk <;> cases hf : f.fk <;> cases hu : f.uk <;>
      simp [ddl_key_clauses, KeyClause.isPrimary, hp, hf, hu, List.filter_cons]

/-- C9: for a table with at least one field the statement ends with `);`, the
character before that closing parenthesis is not a comma, and the key section
is the comma-joined text of a list of key clauses whose `PRIMARY KEY` clauses
are exactly one per field flagged `pk`, in field order; for the table `t` with
the single field `idField()` the statement is the expected text. -/
theorem generateSqlStatement_no_dangling_comma (t : DatabaseTable) (includeIfNotExists : Bool)
    (hne : t.fields ≠ []) :
    (∃ (body : String) (c : Char),
      t.generateSqlStatement includeIfNotExists = body ++ String.singleton c ++ ");" ∧ c ≠ ',') ∧
    (∃ clauses : List KeyClause,
      t.generateSqlStatement includeIfNotExists
        = "CREATE TABLE " ++ (if includeIfNotExists then "IF NOT EXISTS " else "") ++
          "`" ++ t.name ++ "` (" ++ String.intercalate "," (t.fields.map ddl_field_clause) ++
          (if clauses = [] then " "
           else "," ++ String.intercalate "," (clauses.map KeyClause.render)) ++ ");" ∧
      clauses.filter KeyClause.isPrimary
        = (t.fields.filter fun f => f.pk).map fun f => KeyClause.primary f.name) ∧
    DatabaseTable.generateSqlStatement { name := "t", fields := [DatabaseTable.idField] } false
      = "CREATE TABLE `t` (`id` bigint NOT NULL AUTO_INCREMENT,PRIMARY KEY (`id`));" := by
  have href := generateSqlStatement_writes_reference t includeIfNotExists hne
  refine ⟨?_, ⟨t.fields.flatMap ddl_key_clauses, ?_, ddl_primary_clauses t.fields⟩, by decide⟩
  · rw [href]
    unfold ddl_reference ddl_key_section
    by_cases hk : t.fields.flatMap ddl_key_clauses = []
    · refine ⟨"CREATE TABLE " ++ (if includeIfNotExists then "IF NOT EXISTS " else "") ++
          "`" ++ t.name ++ "` (" ++ String.intercalate "," (t.fields.map ddl_field_clause),
        ' ', ?_, by decide⟩
      rw [if_pos hk]
      rfl
    · obtain ⟨r, hr⟩ := intercalate_ends ","
        ((t.fields.flatMap ddl_key_clauses).map KeyClause.render) (by simpa using hk)
        (by
          intro x hx
          obtain ⟨k, _, rfl⟩ := List.mem_map.1 hx
          exact render_ends k)
      refine ⟨"CREATE TABLE " ++ (if includeIfNotExists then "IF NOT EXISTS " else "") ++
          "`" ++ t.name ++ "` (" ++ String.intercalate "," (t.fields.map ddl_field_clause) ++
          ("," ++ r), ')', ?_, by decide⟩
      rw [if_neg hk, hr]
      simp only [String.append_assoc]
      rfl
  · rw [href]
    rfl

/-! ## The generated INSERT and UPDATE statements -/

/-- The placeholder list: a colon before a text joined with `,:` puts a colon
before every element. -/
theorem colon_list_join :
    ∀ l : List String, l ≠ [] →
      ":" ++ list_join l ",:" = list_join (l.map fun c => ":" ++ c) ","
  | [], h => absurd rfl h
  | [_], _ => rfl
  | x :: y :: rest, _ => by
    have ih := colon_list_join (y :: rest) (by simp)
    rw [List.map_cons, List.map_cons, list_join, list_join, ← List.map_cons, ← ih]
    apply String.ext
    simp [List.append_assoc]

theorem erase_id_eq (pre post : List String) (hpre : "id" ∉ pre) :
    erase_id (pre ++ "id" :: post) = some (pre ++ post) := by
  simp [erase_id, List.erase_append_right _ hpre]

/-- C7: when the declared columns are `pre`, `id`, `post` and at least one of
them is not `id`, `generate_insert_query` returns
``INSERT INTO `<table>` (c1,...,cn) VALUES (:c1,...,:cn);`` over the columns
`pre ++ post`, every declared column except `id`, in declaration order. -/
theorem generate_insert_query_eq (m : Model) (pre post : List String)
    (hcols : m.columns = pre ++ "id" :: post) (hpre : "id" ∉ pre) (hne : pre ++ post ≠ []) :
    m.generate_insert_query
      = some ("INSERT INTO `" ++ m.table_name ++ "` (" ++ String.intercalate "," (pre ++ post)
          ++ ") VALUES (" ++ String.intercalate "," ((pre ++ post).map fun c => ":" ++ c)
          ++ ");") := by
  unfold Model.generate_insert_query
  rw [hcols, erase_id_eq pre post hpre]
  simp only []
  rw [colon_list_join _ hne, list_join_eq_intercalate, list_join_eq_intercalate]

theorem update_query_pairs_eq (attributes : List (String × Attribute)) :
    update_query_pairs attributes
      = ((attributes.filter fun e => e.1 ≠ "id" && e.2.modified).map fun e => e.1).map
          fun n => n ++ "=:" ++ n := by
  induction attributes with
  | nil => rfl
  | cons e rest ih =>
    obtain ⟨name, a⟩ := e
    by_cases hn : name = "id" <;> cases hm : a.modified <;>
      simp [update_query_pairs, hn, hm, ih, List.filter_cons]

/-- C8: with `names` the modified attributes other than `id` (each once),
`generate_update_query` returns the empty text when `names` is empty, and
otherwise ``UPDATE `<table>` SET <pairs> WHERE id=<id>;`` whose pairs are the
comma-joined `name=:name` over `names`; the result is the empty text exactly
when no attribute other than `id` is modified, and `id` is never among the
pairs. -/
theorem generate_update_query_spec (m : Model) (k : Int) (hid : m.id = some k)
    (hcol : "id" ∈ m.columns) (hkeys : (m.attributes.map fun e => e.1).Nodup) :
    ∃ names : List String,
      names.Nodup ∧
      (∀ n, n ∈ names ↔ n ≠ "id" ∧ ∃ a, (n, a) ∈ m.attributes ∧ a.modified = true) ∧
      "id" ∉ names ∧
      (names = [] → m.generate_update_query = some "") ∧
      (names ≠ [] → m.generate_update_query
        = some ("UPDATE `" ++ m.table_name ++ "` SET "
            ++ String.intercalate "," (names.map fun n => n ++ "=:" ++ n)
            ++ " WHERE id=" ++ toString k ++ ";")) ∧
      (m.generate_update_query = some "" ↔
        ∀ e ∈ m.attributes, e.1 ≠ "id" → e.2.modified = false) := by
  have hmem : ∀ n, n ∈ ((m.attributes.filter fun e => e.1 ≠ "id" && e.2.modified).map
      fun e => e.1) ↔ n ≠ "id" ∧ ∃ a, (n, a) ∈ m.attributes ∧ a.modified = true := by
    intro n
    simp only [List.mem_map, List.mem_filter, Bool.and_eq_true, decide_eq_true_eq]
    constructor
    · rintro ⟨⟨n', a⟩, ⟨hin, hne, hmod⟩, rfl⟩
      exact ⟨hne, a, hin, hmod⟩
    · rintro ⟨hne, a, hin, hmod⟩
      exact ⟨(n, a), ⟨hin, hne, hmod⟩, rfl⟩
  have hgen : m.generate_update_query
      = if (update_query_pairs m.attributes).isEmpty then some ""
        else some ("UPDATE `" ++ m.table_name ++ "` SET "
          ++ list_join (update_query_pairs m.attributes) "," ++ " WHERE id=" ++ toString k
          ++ ";") := by
    simp only [Model.generate_update_query, erase_id, hcol, if_true, hid]
  rw [list_join_eq_intercalate, update_query_pairs_eq] at hgen
  have hempty : ((m.attributes.filter fun e => e.1 ≠ "id" && e.2.modified).map fun e => e.1) = []
      → m.generate_update_query = some "" := by
    intro h
    rw [hgen, h]
    rfl
  have hfull : ((m.attributes.filter fun e => e.1 ≠ "id" && e.2.modified).map fun e => e.1) ≠ []
      → m.generate_update_query
        = some ("UPDATE `" ++ m.table_name ++ "` SET "
            ++ String.intercalate ","
              (((m.attributes.filter fun e => e.1 ≠ "id" && e.2.modified).map fun e => e.1).map
                fun n => n ++ "=:" ++ n)
            ++ " WHERE id=" ++ toString k ++ ";") := by
    intro h
    rw [hgen, if_neg]
    simpa using h
  refine ⟨_, ?_, hmem, fun h => ((hmem "id").1 h).1 rfl, hempty, hfull, ?_⟩
  · exact ((List.filter_sublist _).map _).nodup hkeys
  · constructor
    · intro h e he hne
      by_contra hmod
      have hin : e.1 ∈ ((m.attributes.filter fun e => e.1 ≠ "id" && e.2.modified).map
          fun e => e.1) := (hmem e.1).2 ⟨hne, e.2, he, by simpa using hmod⟩
      have hfull' := hfull (List.ne_nil_of_mem hin)
      rw [hfull'] at h
      have := congrArg String.data (Option.some.inj h)
      simp at this
    · intro h
      apply hempty
      rw [List.map_eq_nil_iff, List.filter_eq_nil_iff]
      intro e he
      by_cases hne : e.1 = "id"
      · simp [hne]
      · simp [h e he hne]

/-! ## The attribute map -/

theorem map_find_assign_same (attributes : List (String × Attribute)) (key : String)
    (a x : Attribute) (h : map_find attributes key = some a) :
    map_find (map_assign attributes key x) key = some x := by
  induction attributes with
  | nil => simp [map_find] at h
  | cons e rest ih =>
    obtain ⟨k, b⟩ := e
    by_cases hk : k = key
    · simp [map_assign, map_find, hk]
    · simp only [map_find, hk, if_false] at h
      simp [map_assign, map_find, hk, ih h]

theorem map_find_assign_other (attributes : List (String × Attribute)) (key other : String)
    (x : Attribute) (h : other ≠ key) :
    map_find (map_assign attributes key x) other = map_find attributes other := by
  induction attributes with
  | nil => rfl
  | cons e rest ih =>
    obtain ⟨k, b⟩ := e
    by_cases hk : k = key
    · have hko : ¬ key = other := fun hh => h hh.symm
      simp [map_assign, map_find, hk, hko]
    · simp [map_assign, map_find, hk, ih]

theorem map_subscript_present (attributes : List (String × Attribute)) (key : String)
    (a : Attribute) (h : map_find attributes key = some a) :
    map_subscript attributes key = attributes := by
  simp [map_subscript, map_insert, h]

theorem map_assign_any_modified (attributes : List (String × Attribute)) (key : String)
    (a : Attribute) (v : AnyValue) (h : map_find attributes key = some a) :
    (map_assign attributes key { value := v, modified := true }).any (fun e => e.2.modified)
      = true := by
  induction attributes with
  | nil => simp [map_find] at h
  | cons e rest ih =>
    obtain ⟨k, b⟩ := e
    by_cases hk : k = key
    · simp [map_assign, hk]
    · simp only [map_find, hk, if_false] at h
      simp only [map_assign, hk, if_false, List.any_cons, ih h, Bool.or_true]

/-- The primary key is `k` exactly when the map holds a `std::uint64_t` cell
with that value under `id`. -/
theorem id_eq_some_iff (m : Model) (k : Int) :
    m.id = some k ↔
      ∃ flag, map_find m.attributes "id" = some ⟨.plain (.int .uint64 k), flag⟩ := by
  unfold Model.id Model.get_attribute_value
  constructor
  · intro h
    cases hf : map_find m.attributes "id" with
    | none => simp [hf] at h
    | some a =>
      obtain ⟨value, flag⟩ := a
      rw [hf] at h
      simp only at h
      split at h
      · rename_i heq
        split at heq
        · simp only [Option.some.injEq] at heq h
          subst heq; subst h
          exact ⟨flag, rfl⟩
        · simp at heq
      · simp at h
  · rintro ⟨flag, hf⟩
    simp [hf, AnyValue.type, Scalar.type]

/-- `set_id` on a model that has a primary key assigns the `id` cell and sets
its flag. -/
theorem set_id_eq (m : Model) (k v : Int) (h : m.id = some k) :
    m.set_id v = some { m with
      attributes := map_assign m.attributes "id"
        { value := .plain (.int .uint64 v), modified := true } } := by
  obtain ⟨flag, hf⟩ := (id_eq_some_iff m k).1 h
  simp [Model.set_id, Model.set_attribute_value, map_subscript_present _ _ _ hf, hf,
    AnyValue.type, Scalar.type]

theorem id_set_id (m m' : Model) (k v : Int) (h : m.id = some k) (hs : m.set_id v = some m') :
    m'.id = some v := by
  rw [set_id_eq m k v h] at hs
  obtain ⟨flag, hf⟩ := (id_eq_some_iff m k).1 h
  rw [← Option.some.inj hs]
  exact (id_eq_some_iff _ v).2 ⟨true, map_find_assign_same _ _ _ _ hf⟩

/-! ## `save` and `remove` -/

/-- The outcomes of the part of `save` that talks to the driver: a failure
leaves the model alone, and so does a success unless an insert got a last
insert id other than `0`, which `set_id` stores. -/
theorem save_execute_cases (converters : DispatchTable Converter) (drv : Driver) (db : Database)
    (m : Model) (out : Option Int) (statement : String) (did_insert : Bool) (r : SaveResult)
    (h : m.save_execute converters drv db out statement did_insert = some r) :
    ((drv.prepare statement ≠ none ∧ r.ok = false ∧
        r.db.calls = db.calls ++ [.prepare statement]) ∨
      (drv.prepare statement = none ∧ ∃ bound, bind_values converters m.attributes = some bound ∧
        r.db.calls = db.calls ++ [.prepare statement]
          ++ bound.map (fun b => DriverCall.bindValue b.1 b.2) ++ [.execPrepared statement])) ∧
    ((r.model = m ∧ r.last_insert_id = out ∧
        (r.ok = true → did_insert = false ∨ drv.lastInsertId statement % 2 ^ 64 = 0)) ∨
      (r.ok = true ∧ did_insert = true ∧ drv.lastInsertId statement % 2 ^ 64 ≠ 0 ∧
        m.set_id ((drv.lastInsertId statement % 2 ^ 64 : Nat) : Int) = some r.model ∧
        r.last_insert_id = out.map fun _ => ((drv.lastInsertId statement % 2 ^ 64 : Nat) : Int))) := by
  unfold Model.save_execute at h
  simp only at h
  cases hp : drv.prepare statement with
  | some error =>
    rw [hp] at h
    simp only [Option.some.injEq] at h
    subst h
    exact ⟨Or.inl ⟨by simp, rfl, rfl⟩, Or.inl ⟨rfl, rfl, by simp⟩⟩
  | none =>
    rw [hp] at h
    simp only at h
    cases hb : bind_values converters m.attributes with
    | none => rw [hb] at h; simp at h
    | some bound =>
      rw [hb] at h
      simp only at h
      cases he : drv.execPrepared statement bound with
      | some error =>
        rw [he] at h
        simp only [Option.some.injEq] at h
        subst h
        exact ⟨Or.inr ⟨rfl, bound, rfl, by simp [List.append_assoc]⟩, Or.inl ⟨rfl, rfl, by simp⟩⟩
      | none =>
        rw [he] at h
        simp only at h
        cases did_insert with
        | false =>
          simp only [Bool.false_eq_true, if_false, Option.some.injEq] at h
          subst h
          exact ⟨Or.inr ⟨rfl, bound, rfl, by simp [List.append_assoc]⟩, Or.inl ⟨rfl, rfl, by simp⟩⟩
        | true =>
          simp only [if_true] at h
          by_cases hz : drv.lastInsertId statement % 2 ^ 64 = 0
          · have hz' : ((drv.lastInsertId statement % 2 ^ 64 : Nat) : Int) = 0 := by
              rw [hz]; rfl
            simp only [hz', ne_eq, not_true_eq_false, if_false, Option.some.injEq] at h
            subst h
            exact ⟨Or.inr ⟨rfl, bound, rfl, by simp [List.append_assoc]⟩, Or.inl ⟨rfl, rfl, fun _ => Or.inr hz⟩⟩
          · have hz' : ((drv.lastInsertId statement % 2 ^ 64 : Nat) : Int) ≠ 0 := by
              exact_mod_cast hz
            simp only [ne_eq, hz', not_false_eq_true, if_true] at h
            cases hs : m.set_id ((drv.lastInsertId statement % 2 ^ 64 : Nat) : Int) with
            | none => rw [hs] at h; simp at h
            | some saved =>
              rw [hs] at h
              simp only [Option.some.injEq] at h
              subst h
              exact ⟨Or.inr ⟨rfl, bound, rfl, by simp [List.append_assoc]⟩, Or.inr ⟨rfl, rfl, hz, rfl, rfl⟩⟩

/-- The paths through `save`: the three returns before any driver call
(validation failure, empty model, nothing to update) and the call of the
driver with the INSERT statement of a new record or the non-empty UPDATE
statement of a persisted one. -/
theorem save_cases (converters : DispatchTable Converter) (drv : Driver) (db : Database)
    (m : Model) (out : Option Int) (r : SaveResult)
    (h : m.save converters drv db out = some r) :
    (r.model = m ∧ r.last_insert_id = out ∧ r.db.calls = db.calls ∧
      ((r.ok = false ∧ (m.is_valid m.toAttributeStore).1 = false ∧
          r.db.lastErrorMessage = (m.is_valid m.toAttributeStore).2) ∨
        (r.ok = false ∧ (m.is_valid m.toAttributeStore).1 = true ∧
          m.has_model_attributes = some false ∧
          r.db.lastErrorMessage = "model is empty, please add some attributes first") ∨
        (r.ok = true ∧ r.db = db ∧ (m.is_valid m.toAttributeStore).1 = true ∧
          m.has_model_attributes = some true ∧ m.is_new_record = some false ∧
          ∃ statement, m.generate_update_query = some statement ∧ statement.isEmpty = true))) ∨
    ((m.is_valid m.toAttributeStore).1 = true ∧ m.has_model_attributes = some true ∧
      ∃ did_insert statement, m.is_new_record = some did_insert ∧
        (if did_insert then m.generate_insert_query else m.generate_update_query)
          = some statement ∧
        (did_insert = false → statement.isEmpty = false) ∧
        m.save_execute converters drv db out statement did_insert = some r) := by
  unfold Model.save at h
  cases hv : m.is_valid m.toAttributeStore with
  | mk valid error_message =>
    rw [hv] at h
    cases valid with
    | false =>
      simp only [Option.some.injEq] at h
      subst h
      exact Or.inl ⟨rfl, rfl, rfl, Or.inl ⟨rfl, rfl, rfl⟩⟩
    | true =>
      simp only at h
      cases ha : m.has_model_attributes with
      | none => rw [ha] at h; simp at h
      | some has =>
        rw [ha] at h
        cases has with
        | false =>
          simp only [Option.some.injEq] at h
          subst h
          exact Or.inl ⟨rfl, rfl, rfl, Or.inr (Or.inl ⟨rfl, rfl, rfl, rfl⟩)⟩
        | true =>
          simp only at h
          cases hn : m.is_new_record with
          | none => rw [hn] at h; simp at h
          | some new =>
            rw [hn] at h
            cases new with
            | true =>
              simp only at h
              cases hg : m.generate_insert_query with
              | none => rw [hg] at h; simp at h
              | some statement =>
                rw [hg] at h
                exact Or.inr ⟨rfl, rfl, true, statement, rfl, by simp [hg], by simp, h⟩
            | false =>
              simp only at h
              cases hg : m.generate_update_query with
              | none => rw [hg] at h; simp at h
              | some statement =>
                rw [hg] at h
                simp only at h
                by_cases he : statement.isEmpty = true
                · rw [if_pos he, Option.some.injEq] at h
                  subst h
                  exact Or.inl ⟨rfl, rfl, rfl,
                    Or.inr (Or.inr ⟨rfl, rfl, rfl, rfl, rfl, statement, rfl, he⟩)⟩
                · rw [if_neg he] at h
                  exact Or.inr ⟨rfl, rfl, false, statement, rfl, by simp [hg],
                    fun _ => by simpa using he, h⟩

/-- C5: when `save` returns failure the model (attribute values, modified
flags, declaration order, id) and the cell of `last_insert_id` are what they
were before the call, and the trace of driver calls is only extended. -/
theorem save_failure_leaves_model (converters : DispatchTable Converter) (drv : Driver)
    (db : Database) (m : Model) (out : Option Int) (r : SaveResult)
    (h : m.save converters drv db out = some r) (hfail : r.ok = false) :
    r.model = m ∧ r.last_insert_id = out ∧ ∃ calls, r.db.calls = db.calls ++ calls := by
  rcases save_cases converters drv db m out r h with
    ⟨hm, hl, hc, _⟩ | ⟨_, _, did_insert, statement, _, _, _, hx⟩
  · exact ⟨hm, hl, [], by simp [hc]⟩
  · obtain ⟨htrace, hres⟩ := save_execute_cases converters drv db m out statement did_insert r hx
    have hcalls : ∃ calls, r.db.calls = db.calls ++ calls := by
      rcases htrace with ⟨_, _, hc⟩ | ⟨_, bound, _, hc⟩
      · exact ⟨_, hc⟩
      · exact ⟨[.prepare statement] ++ (bound.map (fun b => DriverCall.bindValue b.1 b.2)
          ++ [.execPrepared statement]), by rw [hc]; simp only [List.append_assoc]⟩
    rcases hres with ⟨hm, hl, _⟩ | ⟨hok, _⟩
    · exact ⟨hm, hl, hcalls⟩
    · rw [hfail] at hok; exact absurd hok (by simp)

/-- A successful `save` of a new record for which the driver reports a last
insert id other than `0` stores that id with `set_id`. -/
theorem save_insert_stores_id (converters : DispatchTable Converter) (drv : Driver)
    (db : Database) (m : Model) (out : Option Int) (r : SaveResult) (statement : String)
    (hid : m.id = some 0) (h : m.save converters drv db out = some r) (hok : r.ok = true)
    (hstmt : m.generate_insert_query = some statement)
    (hdrv : drv.lastInsertId statement % 2 ^ 64 ≠ 0) :
    m.set_id ((drv.lastInsertId statement % 2 ^ 64 : Nat) : Int) = some r.model := by
  have hnew : m.is_new_record = some true := by simp [Model.is_new_record, hid]
  rcases save_cases converters drv db m out r h with
    ⟨_, _, _, ⟨hf, _⟩ | ⟨hf, _⟩ | ⟨_, _, _, _, hn, _⟩⟩ | ⟨_, _, did_insert, stmt, hn, hs, _, hx⟩
  · rw [hok] at hf; exact absurd hf (by simp)
  · rw [hok] at hf; exact absurd hf (by simp)
  · rw [hnew] at hn; exact absurd hn (by simp)
  · rw [hnew, Option.some.injEq] at hn
    subst hn
    rw [if_pos rfl, hstmt, Option.some.injEq] at hs
    subst hs
    rcases (save_execute_cases converters drv db m out statement true r hx).2 with
      ⟨_, _, hz⟩ | ⟨_, _, _, hset, _⟩
    · rcases hz hok with hz | hz
      · exact absurd hz (by simp)
      · exact absurd hz hdrv
    · exact hset

/-- C2 (amended): a model with id `0` on which `save` returns success, when the
driver reports a last insert id other than `0`, has that id afterwards and is
no longer a new record. -/
theorem save_new_record_transition (converters : DispatchTable Converter) (drv : Driver)
    (db : Database) (m : Model) (out : Option Int) (r : SaveResult) (statement : String)
    (hid : m.id = some 0) (h : m.save converters drv db out = some r) (hok : r.ok = true)
    (hstmt : m.generate_insert_query = some statement)
    (hdrv : drv.lastInsertId statement % 2 ^ 64 ≠ 0) :
    r.model.id = some ((drv.lastInsertId statement % 2 ^ 64 : Nat) : Int) ∧
    r.model.is_new_record = some false := by
  have hset := save_insert_stores_id converters drv db m out r statement hid h hok hstmt hdrv
  have hid' := id_set_id m r.model 0 _ hid hset
  refine ⟨hid', ?_⟩
  have hz' : ((drv.lastInsertId statement % 2 ^ 64 : Nat) : Int) ≠ 0 := by
    exact_mod_cast hdrv
  unfold Model.is_new_record
  rw [hid']
  exact congrArg some (beq_eq_false_iff_ne.2 hz')

/-- The default encoder table never fails a cast: every cell is encoded. -/
theorem qvariant_from_any_default (any : AnyValue) :
    ∃ v, qvariant_from_any qvariant_converter any = some v := by
  cases any with
  | void => exact ⟨_, rfl⟩
  | plain s =>
    cases s with
    | int T v => cases T <;> exact ⟨_, rfl⟩
    | _ => exact ⟨_, rfl⟩
  | optional b v =>
    cases b with
    | int T => cases T <;> exact ⟨_, rfl⟩
    | _ => exact ⟨_, rfl⟩
  | other n repr =>
    exact ⟨(.invalid, false), by
      simp [qvariant_from_any, qvariant_converter, DispatchTable.find, MAPPER_BASIC,
        MAPPER_BASIC_OPTIONAL, to_qvariant_converter, AnyValue.type]⟩

theorem bind_values_default (attributes : List (String × Attribute)) :
    ∃ bound, bind_values qvariant_converter attributes = some bound := by
  induction attributes with
  | nil => exact ⟨[], rfl⟩
  | cons attr rest ih =>
    obtain ⟨bound, hb⟩ := ih
    obtain ⟨v, hv⟩ := qvariant_from_any_default attr.2.value
    exact ⟨(":" ++ attr.1, v.1) :: bound, by simp [bind_values, hv, hb]⟩

theorem update_query_pairs_clean (attributes : List (String × Attribute))
    (h : attributes.any (fun e => e.2.modified) = false) : update_query_pairs attributes = [] := by
  induction attributes with
  | nil => rfl
  | cons e rest ih =>
    obtain ⟨name, a⟩ := e
    simp only [List.any_cons, Bool.or_eq_false_iff] at h
    simp [update_query_pairs, h.1, ih h.2]

theorem has_model_attributes_of_column (m : Model) (hidcol : "id" ∈ m.columns)
    (hattr : ∃ c ∈ m.columns, c ≠ "id") : m.has_model_attributes = some true := by
  obtain ⟨c, hc, hne⟩ := hattr
  have hmem : c ∈ m.columns.erase "id" := (List.mem_erase_of_ne hne).2 hc
  have : (m.columns.erase "id").isEmpty = false := by
    cases he : m.columns.erase "id" with
    | nil => rw [he] at hmem; simp at hmem
    | cons a as => rfl
  simp [Model.has_model_attributes, erase_id, hidcol, this]

theorem is_new_record_of_id (m : Model) (k : Int) (hid : m.id = some k) :
    m.is_new_record = some (k == 0) := by
  simp [Model.is_new_record, hid]

/-- C4: on a persisted model that passes validation, declares an attribute
besides `id` and has no modified attribute, `save` returns success, makes no
driver call, changes neither the engine nor the model; so a second `save`
right after it does the same, and no UPDATE is issued by either. -/
theorem save_unmodified_is_noop (converters : DispatchTable Converter) (drv drv2 : Driver)
    (db : Database) (m : Model) (out : Option Int) (k : Int)
    (hid : m.id = some k) (hk : k ≠ 0) (hvalid : (m.is_valid m.toAttributeStore).1 = true)
    (hidcol : "id" ∈ m.columns) (hattr : ∃ c ∈ m.columns, c ≠ "id")
    (hclean : m.has_changes = false) :
    m.save converters drv db out
      = some { ok := true, db := db, model := m, last_insert_id := out } ∧
    ((m.save converters drv db out).bind fun r =>
        r.model.save converters drv2 r.db r.last_insert_id)
      = some { ok := true, db := db, model := m, last_insert_id := out } := by
  have hsave : ∀ d : Driver, m.save converters d db out
      = some { ok := true, db := db, model := m, last_insert_id := out } := by
    intro d
    have hupd : m.generate_update_query = some "" := by
      simp [Model.generate_update_query, erase_id, hidcol,
        update_query_pairs_clean m.attributes hclean]
    have hnew : m.is_new_record = some false := by
      rw [is_new_record_of_id m k hid]
      exact congrArg some (beq_eq_false_iff_ne.2 hk)
    unfold Model.save
    cases hv : m.is_valid m.toAttributeStore with
    | mk valid error_message =>
      rw [hv] at hvalid
      simp only at hvalid
      subst hvalid
      simp only [has_model_attributes_of_column m hidcol hattr, hnew, hupd]
      rfl
  rw [hsave drv]
  exact ⟨rfl, hsave drv2⟩

theorem id_of_is_new_record (m : Model) (b : Bool) (h : m.is_new_record = some b) :
    ∃ k, m.id = some k := by
  unfold Model.is_new_record at h
  cases hid : m.id with
  | none => rw [hid] at h; simp at h
  | some k => exact ⟨k, rfl⟩

/-- C3 (amended): `save` clears no modified flag. After `save` returns success
an attribute that was modified is still modified, every attribute other than
`id` has the value and flag it had, `has_changes()` is still `true` if it was
`true` before, and it is `true` after the insert of a new record for which the
driver reports a last insert id other than `0` (the flag of `id` is set). -/
theorem save_success_keeps_flags (converters : DispatchTable Converter) (drv : Driver)
    (db : Database) (m : Model) (out : Option Int) (r : SaveResult)
    (h : m.save converters drv db out = some r) (hok : r.ok = true) :
    (∀ key a, map_find m.attributes key = some a → a.modified = true →
      ∃ b, map_find r.model.attributes key = some b ∧ b.modified = true) ∧
    (∀ key, key ≠ "id" → map_find r.model.attributes key = map_find m.attributes key) ∧
    (m.has_changes = true → r.model.has_changes = true) ∧
    (∀ statement, m.id = some 0 → m.generate_insert_query = some statement →
      drv.lastInsertId statement % 2 ^ 64 ≠ 0 → r.model.has_changes = true) := by
  have hlast : ∀ statement, m.id = some 0 → m.generate_insert_query = some statement →
      drv.lastInsertId statement % 2 ^ 64 ≠ 0 → r.model.has_changes = true := by
    intro statement hid hstmt hdrv
    have hset := save_insert_stores_id converters drv db m out r statement hid h hok hstmt hdrv
    obtain ⟨flag, hf⟩ := (id_eq_some_iff m 0).1 hid
    rw [set_id_eq m 0 _ hid, Option.some.injEq] at hset
    rw [← hset]
    exact map_assign_any_modified _ _ _ _ hf
  have hsame : r.model = m →
      (∀ key a, map_find m.attributes key = some a → a.modified = true →
        ∃ b, map_find r.model.attributes key = some b ∧ b.modified = true) ∧
      (∀ key, key ≠ "id" → map_find r.model.attributes key = map_find m.attributes key) ∧
      (m.has_changes = true → r.model.has_changes = true) := by
    intro hm
    rw [hm]
    exact ⟨fun key a ha hmod => ⟨a, ha, hmod⟩, fun _ _ => rfl, fun hc => hc⟩
  rcases save_cases converters drv db m out r h with
    ⟨hm, _⟩ | ⟨_, _, did_insert, statement, hn, _, _, hx⟩
  · exact ⟨(hsame hm).1, (hsame hm).2.1, (hsame hm).2.2, hlast⟩
  · rcases (save_execute_cases converters drv db m out statement did_insert r hx).2 with
      ⟨hm, _⟩ | ⟨_, _, _, hset, _⟩
    · exact ⟨(hsame hm).1, (hsame hm).2.1, (hsame hm).2.2, hlast⟩
    · obtain ⟨k, hid⟩ := id_of_is_new_record m did_insert hn
      obtain ⟨flag, hf⟩ := (id_eq_some_iff m k).1 hid
      rw [set_id_eq m k _ hid, Option.some.injEq] at hset
      rw [← hset]
      refine ⟨?_, fun key hkey => map_find_assign_other _ _ _ _ hkey, fun _ => ?_, ?_⟩
      · intro key a ha hmod
        by_cases hkey : key = "id"
        · subst hkey
          exact ⟨_, map_find_assign_same _ _ _ _ hf, rfl⟩
        · exact ⟨a, by simpa [map_find_assign_other _ _ _ _ hkey] using ha, hmod⟩
      · exact map_assign_any_modified _ _ _ _ hf
      · intro _ _ _ _
        exact map_assign_any_modified _ _ _ _ hf

theorem save_execute_default_returns (drv : Driver) (db : Database) (m : Model)
    (out : Option Int) (statement : String) (did_insert : Bool) (k : Int) (hid : m.id = some k) :
    ∃ r, m.save_execute qvariant_converter drv db out statement did_insert = some r := by
  obtain ⟨bound, hb⟩ := bind_values_default m.attributes
  unfold Model.save_execute
  simp only [hb]
  cases drv.prepare statement with
  | some error => exact ⟨_, rfl⟩
  | none =>
    simp only
    cases drv.execPrepared statement bound with
    | some error => exact ⟨_, rfl⟩
    | none =>
      simp only
      cases did_insert with
      | false => exact ⟨_, rfl⟩
      | true =>
        simp only [if_true, set_id_eq m k _ hid]
        split
        · exact ⟨_, rfl⟩
        · exact ⟨_, rfl⟩

/-- C6 (amended): on a persisted model with id `k`, `remove` executes exactly
``DELETE FROM `<table>` WHERE id=<k>;``. When the driver accepts it, `remove`
returns success and the id is `0` (a new record); a following `save`, if the
model passes validation and declares an attribute besides `id`, prepares the
INSERT statement of `generate_insert_query` and, when the driver accepts the
preparation, binds the values and executes it; no other statement reaches the
driver. When the driver rejects the DELETE, `remove` returns failure with the
driver's message and the model, id included, is unchanged. -/
theorem remove_then_save_inserts (drv drv2 : Driver) (db db2 : Database) (m : Model) (k : Int)
    (out : Option Int) (hid : m.id = some k) (hk : k ≠ 0) :
    (∀ rows,
      drv.exec ("DELETE FROM `" ++ m.table_name ++ "` WHERE id=" ++ toString k ++ ";")
        = .ok rows →
      ∃ removed,
        m.remove drv db
          = some { ok := true
                   db := { db with
                     calls := db.calls ++
                       [.exec ("DELETE FROM `" ++ m.table_name ++ "` WHERE id=" ++ toString k
                         ++ ";")] }
                   model := removed
                   last_insert_id := none } ∧
        removed.id = some 0 ∧ removed.is_new_record = some true ∧
        ((removed.is_valid removed.toAttributeStore).1 = true → "id" ∈ m.columns →
          (∃ c ∈ m.columns, c ≠ "id") →
          ∃ insert r,
            removed.generate_insert_query = some insert ∧
            (∃ rest, insert = "INSERT INTO `" ++ m.table_name ++ "` (" ++ rest) ∧
            removed.save qvariant_converter drv2 db2 out = some r ∧
            ((drv2.prepare insert ≠ none ∧ r.ok = false ∧
                r.db.calls = db2.calls ++ [.prepare insert]) ∨
              (drv2.prepare insert = none ∧
                ∃ bound, bind_values qvariant_converter removed.attributes = some bound ∧
                  r.db.calls = db2.calls ++ [.prepare insert]
                    ++ bound.map (fun b => DriverCall.bindValue b.1 b.2)
                    ++ [.execPrepared insert])))) ∧
    (∀ error,
      drv.exec ("DELETE FROM `" ++ m.table_name ++ "` WHERE id=" ++ toString k ++ ";")
        = .error error →
      m.remove drv db
        = some { ok := false
                 db := { lastErrorMessage := error
                         calls := db.calls ++
                           [.exec ("DELETE FROM `" ++ m.table_name ++ "` WHERE id=" ++ toString k
                             ++ ";")] }
                 model := m
                 last_insert_id := none }) := by
  have hnew : m.is_new_record = some false := by
    rw [is_new_record_of_id m k hid]
    exact congrArg some (beq_eq_false_iff_ne.2 hk)
  constructor
  · intro rows hexec
    obtain ⟨removed, hset, hcols, htable⟩ : ∃ removed, m.set_id 0 = some removed ∧
        removed.columns = m.columns ∧ removed.table_name = m.table_name :=
      ⟨_, set_id_eq m k 0 hid, rfl, rfl⟩
    have hremoved_id := id_set_id m removed k 0 hid hset
    have hnew2 : removed.is_new_record = some true := by
      rw [is_new_record_of_id _ 0 hremoved_id]; rfl
    refine ⟨removed, ?_, hremoved_id, hnew2, ?_⟩
    · unfold Model.remove
      simp only [hnew, hid, hexec, hset]
    · intro hvalid hidcol hattr
      have hins : removed.generate_insert_query
          = some ("INSERT INTO `" ++ m.table_name ++ "` ("
              ++ (list_join (m.columns.erase "id") "," ++ ") VALUES (" ++
                (":" ++ list_join (m.columns.erase "id") ",:") ++ ");")) := by
        simp [Model.generate_insert_query, erase_id, hcols, htable, hidcol,
          String.append_assoc]
      obtain ⟨r, hr⟩ := save_execute_default_returns drv2 db2 removed out
        ("INSERT INTO `" ++ m.table_name ++ "` ("
          ++ (list_join (m.columns.erase "id") "," ++ ") VALUES (" ++
            (":" ++ list_join (m.columns.erase "id") ",:") ++ ");")) true 0 hremoved_id
      refine ⟨_, r, hins, ⟨_, rfl⟩, ?_,
        (save_execute_cases qvariant_converter drv2 db2 removed out _ true r hr).1⟩
      have hhas : removed.has_model_attributes = some true :=
        has_model_attributes_of_column removed (hcols ▸ hidcol) (hcols ▸ hattr)
      unfold Model.save
      cases hv : removed.is_valid removed.toAttributeStore with
      | mk valid error_message =>
        rw [hv] at hvalid
        simp only at hvalid
        subst hvalid
        simp only [hhas, hnew2, hins]
        exact hr
  · intro error hexec
    unfold Model.remove
    simp only [hnew, hid, hexec]

/-! ## Evaluations at the sample inputs -/

theorem ok_of_map {o : Option SaveResult} {r : SaveResult} {b : Bool} (h : o = some r)
    (hm : o.map (fun r => r.ok) = some b) : r.ok = b := by
  subst h
  simpa using hm

/-- C1: an `std::int64_t` attribute with value `40000` is encoded as the driver
integer `40000`, which the decoder reads through `value<std::int16_t>` and
stores as `-25536`; the comparator reports the decoded cell different from the
original, and the default-constructed `User` that `construct_default` fills
from the saved row is not equal to the saved model. -/
theorem roundtrip_int64_truncates (qt : QtConvert) :
    qvariant_from_any qvariant_converter (.plain (.int .int64 40000))
      = some (.int .int64 40000, true) ∧
    any_from_qvariant (qvariant_mapper qt) (.plain (.int .int64 0)) (.int .int64 40000)
      = some (.plain (.int .int64 (-25536)), true) ∧
    compare_any any_comparator (.plain (.int .int64 (-25536))) (.plain (.int .int64 40000))
      = some (false, true) ∧
    ((sample_user.save qvariant_converter (accepting_driver 7) {} none).bind fun saved =>
      ((user_model "" 0).construct_default (qvariant_mapper zero_convert)
        [("id", .int .uint64 7), ("name", .string "ada"), ("age", .int .int64 40000)]).bind
        fun rebuilt => Model.compare_helper any_comparator rebuilt saved.model) = some false :=
  ⟨rfl, rfl, by decide, by decide⟩

/-- C2, counterexample: the driver reports the last insert id `0`; `save` of
the new record returns success, the id is still `0` and the model is still a
new record. -/
theorem save_new_record_zero_id :
    sample_user.id = some 0 ∧
    (sample_user.save qvariant_converter (accepting_driver 0) {} none).map
        (fun r => (r.ok, r.model.id, r.model.is_new_record))
      = some (true, some 0, some true) := by
  decide

/-- Witness of C2 at the sample input. -/
theorem save_new_record_transition_witness :
    sample_user.id = some 0 ∧
    ∃ r, sample_user.save qvariant_converter (accepting_driver 7) {} none = some r ∧
      r.ok = true ∧ r.model.id = some 7 ∧ r.model.is_new_record = some false := by
  obtain ⟨r, hr⟩ := Option.isSome_iff_exists.1
    (show (sample_user.save qvariant_converter (accepting_driver 7) {} none).isSome = true by
      decide)
  have hok : r.ok = true := ok_of_map hr (by decide)
  exact ⟨by decide, r, hr, hok,
    save_new_record_transition qvariant_converter (accepting_driver 7) {} sample_user none r
      "INSERT INTO `users` (name,age) VALUES (:name,:age);" (by decide) hr hok (by decide)
      (by decide)⟩

/-- C3, counterexample: `save` of the loaded record after `set_name("eve")`
executes the UPDATE and returns success, and `has_changes()` is still `true`. -/
theorem save_leaves_modified_flag :
    (sample_modified.save qvariant_converter (accepting_driver 0) {} none).map
        (fun r => (r.ok, r.db.calls, r.model.has_changes))
      = some (true,
          [ .prepare "UPDATE `users` SET name=:name WHERE id=7;",
            .bindValue ":age" (.int .int64 36),
            .bindValue ":id" (.int .uint64 7),
            .bindValue ":name" (.string "eve"),
            .execPrepared "UPDATE `users` SET name=:name WHERE id=7;" ],
          true) := by
  decide

/-- Witness of C3 at the sample input. -/
theorem save_success_keeps_flags_witness :
    ∃ r, sample_modified.save qvariant_converter (accepting_driver 0) {} none = some r ∧
      r.ok = true ∧ (sample_modified.has_changes = true → r.model.has_changes = true) := by
  obtain ⟨r, hr⟩ := Option.isSome_iff_exists.1
    (show (sample_modified.save qvariant_converter (accepting_driver 0) {} none).isSome = true by
      decide)
  have hok : r.ok = true := ok_of_map hr (by decide)
  exact ⟨r, hr, hok,
    (save_success_keeps_flags qvariant_converter (accepting_driver 0) {} sample_modified none r
      hr hok).2.2.1⟩

/-- Witness of C4 at the sample input. -/
theorem save_unmodified_is_noop_witness :
    sample_persisted.id = some 7 ∧ sample_persisted.has_changes = false ∧
    sample_persisted.save qvariant_converter (failing_driver "gone away") {} none
      = some { ok := true, db := {}, model := sample_persisted, last_insert_id := none } :=
  ⟨by decide, by decide,
    (save_unmodified_is_noop qvariant_converter (failing_driver "gone away")
      (failing_driver "gone away") {} sample_persisted none 7 (by decide) (by decide) (by decide)
      (by decide) ⟨"name", by decide, by decide⟩ (by decide)).1⟩

/-- Witness of C5 at the sample input. -/
theorem save_failure_leaves_model_witness :
    ∃ r, sample_modified.save qvariant_converter (failing_driver "gone away") {} none = some r ∧
      r.ok = false ∧ r.model = sample_modified ∧ r.last_insert_id = none := by
  obtain ⟨r, hr⟩ := Option.isSome_iff_exists.1
    (show (sample_modified.save qvariant_converter (failing_driver "gone away") {} none).isSome
        = true by decide)
  have hfail : r.ok = false := ok_of_map hr (by decide)
  have h := save_failure_leaves_model qvariant_converter (failing_driver "gone away") {}
    sample_modified none r hr hfail
  exact ⟨r, hr, hfail, h.1, h.2.1⟩

/-- C6, counterexample: the loaded record of a subclass whose validator rejects
it is removed (the DELETE is executed, the id becomes `0`), and the following
`save` returns failure with the validator's message without preparing or
executing any statement: the only driver call is the DELETE. -/
theorem remove_then_save_without_insert :
    sample_invalid.id = some 7 ∧
    (sample_invalid.remove (accepting_driver 0) {}).map
        (fun r => (r.ok, r.db.calls, r.model.id))
      = some (true, [.exec "DELETE FROM `users` WHERE id=7;"], some 0) ∧
    ((sample_invalid.remove (accepting_driver 0) {}).bind fun r =>
        r.model.save qvariant_converter (accepting_driver 8) r.db none).map
        (fun r => (r.ok, r.db))
      = some (false,
          { lastErrorMessage := "name is too long"
            calls := [.exec "DELETE FROM `users` WHERE id=7;"] }) := by
  decide

/-- Witness of C6 at the sample input. -/
theorem remove_then_save_inserts_witness :
    sample_persisted.id = some 7 ∧
    ∃ removed,
      sample_persisted.remove (accepting_driver 0) {}
        = some { ok := true
                 db := { calls := [.exec "DELETE FROM `users` WHERE id=7;"] }
                 model := removed
                 last_insert_id := none } ∧
      removed.id = some 0 ∧ removed.is_new_record = some true :=
  ⟨by decide,
    match (remove_then_save_inserts (accepting_driver 0) (accepting_driver 8) {} {}
      sample_persisted 7 none (by decide) (by decide)).1 [] rfl with
    | ⟨removed, h1, h2, h3, _⟩ => ⟨removed, h1, h2, h3⟩⟩

/-- Witness of C7 at the sample input. -/
theorem generate_insert_query_eq_witness :
    sample_user.columns = [] ++ "id" :: ["name", "age"] ∧
    sample_user.generate_insert_query
      = some "INSERT INTO `users` (name,age) VALUES (:name,:age);" :=
  ⟨by decide,
    generate_insert_query_eq sample_user [] ["name", "age"] (by decide) (by decide) (by decide)⟩

/-- Witness of C8 at the sample input. -/
theorem generate_update_query_spec_witness :
    sample_modified.id = some 7 ∧
    (sample_modified.generate_update_query = some "" ↔
      ∀ e ∈ sample_modified.attributes, e.1 ≠ "id" → e.2.modified = false) :=
  ⟨by decide,
    match generate_update_query_spec sample_modified 7 (by decide) (by decide) (by decide) with
    | ⟨_, _, _, _, _, _, h⟩ => h⟩

/-- Witness of C9 at the sample input. -/
theorem generateSqlStatement_no_dangling_comma_witness :
    sample_table.fields ≠ [] ∧
    ∃ (body : String) (c : Char),
      sample_table.generateSqlStatement true = body ++ String.singleton c ++ ");" ∧ c ≠ ',' :=
  ⟨by decide, (generateSqlStatement_no_dangling_comma sample_table true (by decide)).1⟩

/-- Witness of C10 at the sample table. -/
theorem generateSqlStatement_eq_reference_witness :
    sample_table.fields ≠ [] ∧
    sample_table.generateSqlStatement true
      = "CREATE TABLE IF NOT EXISTS `users` (" ++
        String.intercalate "," (sample_table.fields.map ddl_field_clause) ++
        ddl_key_section sample_table.fields ++ ");" :=
  ⟨by decide, generateSqlStatement_eq_reference sample_table true (by decide)⟩

/-! ## Finding records -/

theorem map_find_insert_sorted_other (attributes : List (String × Attribute)) (key other : String)
    (a : Attribute) (h : other ≠ key) :
    map_find (map_insert_sorted attributes key a) other = map_find attributes other := by
  induction attributes with
  | nil => simp [map_insert_sorted, map_find, Ne.symm h]
  | cons e rest ih =>
    obtain ⟨k, b⟩ := e
    by_cases hk : key_less key k = true
    · simp [map_insert_sorted, hk, map_find, Ne.symm h]
    · simp [map_insert_sorted, hk, map_find, ih]

theorem map_find_insert_other (attributes : List (String × Attribute)) (key other : String)
    (a : Attribute) (h : other ≠ key) :
    map_find (map_insert attributes key a) other = map_find attributes other := by
  unfold map_insert
  cases map_find attributes key with
  | some b => rfl
  | none => exact map_find_insert_sorted_other attributes key other a h

/-- A declaration keeps the cell of a name that is already declared. -/
theorem map_find_insert_present (attributes : List (String × Attribute)) (key name : String)
    (a b : Attribute) (h : map_find attributes key = some b) :
    map_find (map_insert attributes name a) key = some b := by
  by_cases hk : key = name
  · subst hk; simp [map_insert, h]
  · rw [map_find_insert_other _ _ _ _ hk, h]

/-- The declarations of a class leave names, validator and primary key of
`Model::Model()` alone. -/
theorem declare_fold_keeps (declared : List (String × AnyValue)) (m : Model) (b : Attribute)
    (h : map_find m.attributes "id" = some b) :
    (declared.foldl (fun m d => m.make_model_attribute d.1 d.2) m).table_name = m.table_name ∧
    (declared.foldl (fun m d => m.make_model_attribute d.1 d.2) m).type_name = m.type_name ∧
    map_find (declared.foldl (fun m d => m.make_model_attribute d.1 d.2) m).attributes "id"
      = some b := by
  induction declared generalizing m with
  | nil => exact ⟨rfl, rfl, h⟩
  | cons d rest ih =>
    have := ih (m.make_model_attribute d.1 d.2)
      (map_find_insert_present m.attributes "id" d.1 _ b h)
    exact this

theorem default_names (T : ModelType) :
    T.default.table_name = T.table_name ∧ T.default.type_name = T.type_name ∧
    T.default.id = some 0 := by
  have h := declare_fold_keeps T.declared (Model.new T.table_name T.type_name T.is_valid)
    ⟨.plain (.int .uint64 0), false⟩ rfl
  exact ⟨h.1, h.2.1, (id_eq_some_iff _ 0).2 ⟨false, h.2.2⟩⟩

theorem set_error_twice (error : Option Bool) (a b : Bool) :
    set_error (set_error error a) b = set_error error b := by
  cases error <;> rfl

/-- The outcomes of the body of `findRecord`, path by path. -/
theorem findRecord_body_outcomes (model_registrar : DispatchTable Factory) (drv : Driver)
    (db : Database) (T : ModelType) (id : Option Int) (filter : Option String)
    (statement : String) (error : Option Bool)
    (hs : internal_find_statement T.default id filter = some statement) :
    T.default.id = some 0 ∧
    (∀ text, drv.connect = some text →
      Database.findRecord_body model_registrar drv db T id filter error
        = some { db := { lastErrorMessage := text, calls := db.calls ++ [.connect] }
                 error := set_error error true
                 model := T.default }) ∧
    (drv.connect = none →
      (∀ text, drv.exec statement = .error text →
        Database.findRecord_body model_registrar drv db T id filter error
          = some { db := { lastErrorMessage := text
                           calls := db.calls ++ [.connect, .exec statement, .close] }
                   error := set_error error true
                   model := T.default }) ∧
      (drv.exec statement = .ok [] →
        Database.findRecord_body model_registrar drv db T id filter error
          = some { db := { lastErrorMessage := "empty result set for " ++ T.table_name
                           calls := db.calls ++ [.connect, .exec statement, .close] }
                   error := set_error error true
                   model := T.default }) ∧
      (∀ row rest, drv.exec statement = .ok (row :: rest) →
        model_registrar.find T.tag = none →
        Database.findRecord_body model_registrar drv db T id filter error
          = some { db := { lastErrorMessage := "unsupported model type: " ++ T.type_name
                           calls := db.calls ++ [.connect, .exec statement, .close] }
                   error := set_error error true
                   model := T.default }) ∧
      (∀ row rest, drv.exec statement = .ok (row :: rest) →
        model_registrar.find T.tag = some T.factory →
        Database.findRecord_body model_registrar drv db T id filter error
          = some { db := { lastErrorMessage := ""
                           calls := db.calls ++ [.connect, .exec statement, .close] }
                   error := set_error error false
                   model := T.from_query row })) := by
  obtain ⟨htable, htype, hid⟩ := default_names T
  refine ⟨hid, ?_, fun hc => ⟨?_, ?_, ?_, ?_⟩⟩
  · intro text hc
    simp [Database.findRecord_body, Database.open, hc]
  · intro text he
    simp [Database.findRecord_body, Database.open, hc, Database.internal_find, hs, query, he,
      Database.close, set_error_twice]
  · intro he
    simp [Database.findRecord_body, Database.open, hc, Database.internal_find, hs, query, he,
      Database.close, set_error_twice, htable]
  · intro row rest he hreg
    simp [Database.findRecord_body, Database.open, hc, Database.internal_find, hs, query, he,
      Database.close, set_error_twice, htype, hreg]
  · intro row rest he hreg
    simp [Database.findRecord_body, Database.open, hc, Database.internal_find, hs, query, he,
      Database.close, set_error_twice, hreg, ModelType.factory]


/-- C12: `findRecord` (by id: `id` is `some`, by filter: `id` is `none` and
`filter` is `some`) reports failure exactly when it has no row to reconstruct.
If the connection cannot be opened, the SELECT fails, the result set is empty
(last error `empty result set for <table>`, whatever the registrar holds) or
the class is not registered, the error flag is set to `true` and the result is
the default-constructed model, whose id is `0`; when a row exists and the class
is registered the error flag is set to `false` and the result is the model the
factory builds from the first row. -/
theorem findRecord_reports_failure (model_registrar : DispatchTable Factory) (drv : Driver)
    (db : Database) (T : ModelType) (id : Option Int) (filter : Option String)
    (statement : String) (error : Option Bool)
    (hs : internal_find_statement T.default id filter = some statement) :
    T.default.id = some 0 ∧
    (∀ text, drv.connect = some text →
      Database.findRecord_body model_registrar drv db T id filter error
        = some { db := { lastErrorMessage := text, calls := db.calls ++ [.connect] }
                 error := set_error error true
                 model := T.default }) ∧
    (drv.connect = none →
      (∀ text, drv.exec statement = .error text →
        Database.findRecord_body model_registrar drv db T id filter error
          = some { db := { lastErrorMessage := text
                           calls := db.calls ++ [.connect, .exec statement, .close] }
                   error := set_error error true
                   model := T.default }) ∧
      (drv.exec statement = .ok [] →
        Database.findRecord_body model_registrar drv db T id filter error
          = some { db := { lastErrorMessage := "empty result set for " ++ T.table_name
                           calls := db.calls ++ [.connect, .exec statement, .close] }
                   error := set_error error true
                   model := T.default }) ∧
      (∀ row rest, drv.exec statement = .ok (row :: rest) →
        model_registrar.find T.tag = none →
        Database.findRecord_body model_registrar drv db T id filter error
          = some { db := { lastErrorMessage := "unsupported model type: " ++ T.type_name
                           calls := db.calls ++ [.connect, .exec statement, .close] }
                   error := set_error error true
                   model := T.default }) ∧
      (∀ row rest, drv.exec statement = .ok (row :: rest) →
        model_registrar.find T.tag = some T.factory →
        Database.findRecord_body model_registrar drv db T id filter error
          = some { db := { lastErrorMessage := ""
                           calls := db.calls ++ [.connect, .exec statement, .close] }
                   error := set_error error false
                   model := T.from_query row })) :=
  findRecord_body_outcomes model_registrar drv db T id filter statement error hs

/-- C11 (amended): for a class that was never registered and every id,
`findRecord` sets the error flag, returns the default-constructed model and
executes at most one statement, the SELECT by primary key (exactly that one
when the connection opens), never a second query; when the connection opens
and the SELECT returns at least one row, the last error is
`unsupported model type: <TypeName>`. -/
theorem findRecord_unregistered (model_registrar : DispatchTable Factory) (drv : Driver)
    (db : Database) (T : ModelType) (id : Int) (error : Option Bool)
    (hreg : model_registrar.find T.tag = none) :
    ∃ r, Database.findRecord model_registrar drv db T id error = some r ∧
      r.error = set_error error true ∧ r.model = T.default ∧
      (r.db.calls = db.calls ++ [.connect] ∨
        r.db.calls = db.calls ++
          [.connect,
           .exec ("SELECT * FROM `" ++ T.table_name ++ "` WHERE id=" ++ toString id ++ ";"),
           .close]) ∧
      (∀ row rest, drv.connect = none →
        drv.exec ("SELECT * FROM `" ++ T.table_name ++ "` WHERE id=" ++ toString id ++ ";")
          = .ok (row :: rest) →
        r.db = { lastErrorMessage := "unsupported model type: " ++ T.type_name
                 calls := db.calls ++
                   [.connect,
                    .exec ("SELECT * FROM `" ++ T.table_name ++ "` WHERE id=" ++ toString id
                      ++ ";"),
                    .close] }) := by
  obtain ⟨htable, htype, _⟩ := default_names T
  have hs : internal_find_statement T.default (some id) none
      = some ("SELECT * FROM `" ++ T.table_name ++ "` WHERE id=" ++ toString id ++ ";") := by
    simp [internal_find_statement, htable]
  obtain ⟨_, hclosed, hopen⟩ := findRecord_body_outcomes model_registrar drv db T (some id) none
    _ error hs
  cases hc : drv.connect with
  | some text =>
    exact ⟨_, hclosed text hc, rfl, rfl, Or.inl rfl, fun _ _ h => by simp at h⟩
  | none =>
    obtain ⟨hfail, hempty, hunreg, _⟩ := hopen hc
    cases he : drv.exec ("SELECT * FROM `" ++ T.table_name ++ "` WHERE id=" ++ toString id
        ++ ";") with
    | error text =>
      exact ⟨_, hfail text he, rfl, rfl, Or.inr rfl, fun _ _ _ h => by simp at h⟩
    | ok rows =>
      cases rows with
      | nil => exact ⟨_, hempty he, rfl, rfl, Or.inr rfl, fun _ _ _ h => by simp at h⟩
      | cons row rest =>
        exact ⟨_, hunreg row rest he hreg, rfl, rfl, Or.inr rfl, fun _ _ _ _ => rfl⟩

theorem internal_find_all_loop_registered (model_registrar : DispatchTable Factory)
    (type : TypeTag) (f : Factory) (h : model_registrar.find type = some f) (rows : List Row) :
    internal_find_all_loop model_registrar type rows = some (rows.map f) := by
  induction rows with
  | nil => rfl
  | cons row rest ih => simp [internal_find_all_loop, h, ih]

theorem findAll_cast_factory (T : ModelType) (rows : List Row) :
    findAll_cast T (rows.map T.factory) = some (rows.map T.from_query) := by
  induction rows with
  | nil => rfl
  | cons row rest ih => simp [findAll_cast, ModelType.factory, ih] at ih ⊢

/-- C13: `findAll` on a connection that opens is all-or-nothing. If the SELECT
fails it returns the empty list with the error flag set and the driver's
message; if the class is not registered and the result set has at least one
row it returns the empty list with the error flag set and the last error
`unsupported model type: <TypeName>`; if the class is registered it returns
one model per row, in row order, each built by the factory of the class, with
the error flag `false`. -/
theorem findAll_all_or_nothing (model_registrar : DispatchTable Factory) (drv : Driver)
    (db : Database) (T : ModelType) (filter : Option String) (error : Option Bool)
    (hc : drv.connect = none) :
    (∀ text, drv.exec (internal_find_all_statement T.default filter) = .error text →
      Database.findAll_body model_registrar drv db T filter error
        = some { db := { lastErrorMessage := text
                         calls := db.calls ++
                           [.connect, .exec (internal_find_all_statement T.default filter),
                            .close] }
                 error := set_error error true
                 models := [] }) ∧
    (∀ rows, drv.exec (internal_find_all_statement T.default filter) = .ok rows → rows ≠ [] →
      model_registrar.find T.tag = none →
      Database.findAll_body model_registrar drv db T filter error
        = some { db := { lastErrorMessage := "unsupported model type: " ++ T.type_name
                         calls := db.calls ++
                           [.connect, .exec (internal_find_all_statement T.default filter),
                            .close] }
                 error := set_error error true
                 models := [] }) ∧
    (∀ rows, drv.exec (internal_find_all_statement T.default filter) = .ok rows →
      model_registrar.find T.tag = some T.factory →
      Database.findAll_body model_registrar drv db T filter error
        = some { db := { lastErrorMessage := ""
                         calls := db.calls ++
                           [.connect, .exec (internal_find_all_statement T.default filter),
                            .close] }
                 error := set_error error false
                 models := rows.map T.from_query }) := by
  obtain ⟨_, htype, _⟩ := default_names T
  refine ⟨?_, ?_, ?_⟩
  · intro text he
    simp [Database.findAll_body, Database.open, hc, Database.internal_find_all, query, he,
      findAll_cast, Database.close, set_error_twice]
  · intro rows he hne hreg
    cases rows with
    | nil => exact absurd rfl hne
    | cons row rest =>
      simp [Database.findAll_body, Database.open, hc, Database.internal_find_all, query, he,
        internal_find_all_loop, hreg, findAll_cast, Database.close, set_error_twice, htype]
  · intro rows he hreg
    simp [Database.findAll_body, Database.open, hc, Database.internal_find_all, query, he,
      internal_find_all_loop_registered _ _ _ hreg, findAll_cast_factory, Database.close,
      set_error_twice]

/-! ## The gates of `save` -/

/-- C19: when `is_valid` returns `false` with a message, `save` returns
failure, the last error is that message and the driver is not called: neither
the model nor the trace of driver calls changes, whatever the id is. -/
theorem save_invalid_fails (converters : DispatchTable Converter) (drv : Driver) (db : Database)
    (m : Model) (out : Option Int) (message : String)
    (h : m.is_valid m.toAttributeStore = (false, message)) :
    m.save converters drv db out
      = some { ok := false
               db := { lastErrorMessage := message, calls := db.calls }
               model := m
               last_insert_id := out } := by
  unfold Model.save
  rw [h]

/-- C20: a valid model whose only declared column is `id` is not saved: `save`
returns failure with the last error
`model is empty, please add some attributes first`, the driver is not called
and the model is unchanged, whatever the id is (new or persisted). -/
theorem save_empty_model_fails (converters : DispatchTable Converter) (drv : Driver)
    (db : Database) (m : Model) (out : Option Int)
    (hvalid : (m.is_valid m.toAttributeStore).1 = true) (hcols : m.columns = ["id"]) :
    m.save converters drv db out
      = some { ok := false
               db := { lastErrorMessage := "model is empty, please add some attributes first"
                       calls := db.calls }
               model := m
               last_insert_id := out } := by
  have hhas : m.has_model_attributes = some false := by
    simp [Model.has_model_attributes, erase_id, hcols]
  unfold Model.save
  cases hv : m.is_valid m.toAttributeStore with
  | mk valid error_message =>
    rw [hv] at hvalid
    simp only at hvalid
    subst hvalid
    simp only [hhas]

/-- Witness of C19 at the sample input. -/
theorem save_invalid_fails_witness :
    sample_invalid.is_valid sample_invalid.toAttributeStore = (false, "name is too long") ∧
    sample_invalid.save qvariant_converter (accepting_driver 0) {} none
      = some { ok := false
               db := { lastErrorMessage := "name is too long", calls := [] }
               model := sample_invalid
               last_insert_id := none } :=
  ⟨by decide,
    save_invalid_fails qvariant_converter (accepting_driver 0) {} sample_invalid none
      "name is too long" (by decide)⟩

/-- Witness of C20 at the sample input. -/
theorem save_empty_model_fails_witness :
    bare_persisted.id = some 5 ∧ bare_persisted.columns = ["id"] ∧
    bare_persisted.save qvariant_converter (accepting_driver 0) {} none
      = some { ok := false
               db := { lastErrorMessage := "model is empty, please add some attributes first"
                       calls := [] }
               model := bare_persisted
               last_insert_id := none } :=
  ⟨by decide, by decide,
    save_empty_model_fails qvariant_converter (accepting_driver 0) {} bare_persisted none
      (by decide) (by decide)⟩

/-! ## Typed access to the attribute store -/

theorem map_assign_keys (attributes : List (String × Attribute)) (key : String) (a : Attribute) :
    (map_assign attributes key a).map (fun e => e.1) = attributes.map (fun e => e.1) := by
  induction attributes with
  | nil => rfl
  | cons e rest ih =>
    obtain ⟨k, b⟩ := e
    by_cases hk : k = key <;> simp [map_assign, hk, ih]

/-- Writing a declared cell with a value of its own type assigns the cell and
sets its flag. -/
theorem set_attribute_value_eq (m : Model) (name : String) (v : AnyValue) (a : Attribute)
    (hdecl : map_find m.attributes name = some a) (htype : a.value.type = v.type)
    (hv : v.type ≠ .void) :
    m.set_attribute_value name v
      = some { m with
          attributes := map_assign m.attributes name { value := v, modified := true } } := by
  simp [Model.set_attribute_value, map_subscript_present _ _ _ hdecl, hdecl, htype, hv]

/-- C17: after `set_attribute_value<T>(name, v)` on a declared attribute of
stored type `T`, `get_attribute_value<T>(name)` returns `v`, the flag of that
attribute is set and `has_changes()` is `true`; every other attribute has the
value and flag it had, and the names of the attribute map, their order and the
declaration order are unchanged. -/
theorem set_attribute_value_frame (m : Model) (name : String) (v : AnyValue) (a : Attribute)
    (hdecl : map_find m.attributes name = some a) (htype : a.value.type = v.type)
    (hv : v.type ≠ .void) :
    ∃ m', m.set_attribute_value name v = some m' ∧
      m'.get_attribute_value v.type name = some v ∧
      map_find m'.attributes name = some { value := v, modified := true } ∧
      m'.has_changes = true ∧
      (∀ other, other ≠ name → map_find m'.attributes other = map_find m.attributes other) ∧
      m'.attributes.map (fun e => e.1) = m.attributes.map (fun e => e.1) ∧
      m'.columns = m.columns := by
  refine ⟨_, set_attribute_value_eq m name v a hdecl htype hv, ?_,
    map_find_assign_same _ _ _ _ hdecl, map_assign_any_modified _ _ _ _ hdecl,
    fun other hne => map_find_assign_other _ _ _ _ hne, map_assign_keys _ _ _, rfl⟩
  simp [Model.get_attribute_value, map_find_assign_same _ _ _ _ hdecl, hv]

/-- Witness of C17 at the sample input. -/
theorem set_attribute_value_frame_witness :
    ∃ m', sample_persisted.set_attribute_value "name" (.plain (.string "eve")) = some m' ∧
      m'.get_attribute_value (.plain .string) "name" = some (.plain (.string "eve")) ∧
      m'.has_changes = true ∧ m'.columns = ["id", "name", "age"] :=
  match set_attribute_value_frame sample_persisted "name" (.plain (.string "eve"))
      ⟨.plain (.string "ada"), false⟩ (by decide) (by decide) (by decide) with
  | ⟨m', h1, h2, _, h4, _, _, h7⟩ => ⟨m', h1, h2, h4, h7⟩

theorem get_attribute_value_outcome_toOption (m : Model) (T : TypeTag) (key : String) :
    (m.get_attribute_value_outcome T key).toOption = m.get_attribute_value T key := by
  unfold Model.get_attribute_value_outcome Model.get_attribute_value
  cases map_find m.attributes key with
  | none => rfl
  | some a => by_cases h : a.value.type = T ∧ T ≠ .void <;> simp [h, Except.toOption]

theorem set_attribute_value_outcome_toOption (m : Model) (key : String) (value : AnyValue) :
    (m.set_attribute_value_outcome key value).toOption = m.set_attribute_value key value := by
  unfold Model.set_attribute_value_outcome Model.set_attribute_value
  simp only
  cases map_find (map_subscript m.attributes key) key with
  | none => rfl
  | some a =>
    by_cases h : a.value.type = value.type ∧ value.type ≠ .void <;> simp [h, Except.toOption]

/-- C16 (amended): for a declared attribute of stored type `U` and a requested
type `T` different from `U`, neither `get_attribute_value<T>` nor
`set_attribute_value<T>` raises an error: both dereference the null pointer
that `std::any_cast` returns, which is undefined behaviour, so neither has a
result. -/
theorem typed_access_other_type (m : Model) (name : String) (a : Attribute) (T : TypeTag)
    (v : AnyValue) (hdecl : map_find m.attributes name = some a) (hT : T ≠ a.value.type)
    (hv : v.type = T) :
    m.get_attribute_value_outcome T name = .error .null_dereference ∧
    m.set_attribute_value_outcome name v = .error .null_dereference ∧
    m.get_attribute_value T name = none ∧ m.set_attribute_value name v = none := by
  have hget : m.get_attribute_value_outcome T name = .error .null_dereference := by
    simp [Model.get_attribute_value_outcome, hdecl, Ne.symm hT]
  have hset : m.set_attribute_value_outcome name v = .error .null_dereference := by
    simp [Model.set_attribute_value_outcome, map_subscript_present _ _ _ hdecl, hdecl, hv,
      Ne.symm hT]
  refine ⟨hget, hset, ?_, ?_⟩
  · rw [← get_attribute_value_outcome_toOption, hget]; rfl
  · rw [← set_attribute_value_outcome_toOption, hset]; rfl

/-- C16, counterexample: reading the `std::string` attribute `name` of the
loaded record as `bool`, or writing a `bool` to it, ends in the dereference of
a null pointer, not in an error. -/
theorem typed_access_null_dereference :
    map_find sample_persisted.attributes "name" = some ⟨.plain (.string "ada"), false⟩ ∧
    fault_of (sample_persisted.get_attribute_value_outcome (.plain .bool) "name")
      = some Fault.null_dereference ∧
    fault_of (sample_persisted.set_attribute_value_outcome "name" (.plain (.bool true)))
      = some Fault.null_dereference := by
  decide

/-- Witness of C16 at the sample input. -/
theorem typed_access_other_type_witness :
    map_find sample_persisted.attributes "name" = some ⟨.plain (.string "ada"), false⟩ ∧
    sample_persisted.get_attribute_value_outcome (.plain .bool) "name"
      = .error .null_dereference :=
  ⟨by decide,
    (typed_access_other_type sample_persisted "name" ⟨.plain (.string "ada"), false⟩
      (.plain .bool) (.plain (.bool true)) (by decide) (by decide) (by decide)).1⟩

/-! ## Model equality -/

theorem compare_helper_inner_true_iff (comparators : DispatchTable Comparator)
    (attr_self : String × Attribute) (others : List (String × Attribute)) :
    compare_helper_inner comparators attr_self others = some true ↔
      ∀ o ∈ others, attr_self.1 = o.1 →
        compare_any comparators attr_self.2.value o.2.value = some (true, true) := by
  induction others with
  | nil => simp [compare_helper_inner]
  | cons o rest ih =>
    unfold compare_helper_inner
    by_cases hn : attr_self.1 = o.1
    · simp only [hn, if_true, List.mem_cons, forall_eq_or_imp, true_implies]
      cases hc : compare_any comparators attr_self.2.value o.2.value with
      | none => simp
      | some res =>
        obtain ⟨equal, success⟩ := res
        cases success <;> cases equal <;> simp [ih, hn]
    · simp [hn, ih]

theorem compare_helper_outer_true_iff (comparators : DispatchTable Comparator)
    (others selfs : List (String × Attribute)) :
    compare_helper_outer comparators others selfs = some true ↔
      ∀ s ∈ selfs, compare_helper_inner comparators s others = some true := by
  induction selfs with
  | nil => simp [compare_helper_outer]
  | cons s rest ih =>
    unfold compare_helper_outer
    cases hc : compare_helper_inner comparators s others with
    | none => simp [hc]
    | some b => cases b <;> simp [hc, ih]

/-- The inner loop reads the names and the values only. -/
theorem compare_helper_inner_congr (comparators : DispatchTable Comparator)
    (s s' : String × Attribute) (hname : s.1 = s'.1) (hvalue : s.2.value = s'.2.value) :
    ∀ others others' : List (String × Attribute),
      others.map (fun e => (e.1, e.2.value)) = others'.map (fun e => (e.1, e.2.value)) →
      compare_helper_inner comparators s others = compare_helper_inner comparators s' others'
  | [], [], _ => rfl
  | [], _ :: _, h => by simp at h
  | _ :: _, [], h => by simp at h
  | o :: rest, o' :: rest', h => by
    simp only [List.map_cons, List.cons.injEq, Prod.mk.injEq] at h
    obtain ⟨⟨hn, hv⟩, hrest⟩ := h
    have ih := compare_helper_inner_congr comparators s s' hname hvalue rest rest' hrest
    unfold compare_helper_inner
    rw [← hname, ← hvalue, ← hn, ← hv, ih]

/-- The outer loop reads the names and the values only. -/
theorem compare_helper_outer_congr (comparators : DispatchTable Comparator)
    (others others' : List (String × Attribute))
    (ho : others.map (fun e => (e.1, e.2.value)) = others'.map (fun e => (e.1, e.2.value))) :
    ∀ selfs selfs' : List (String × Attribute),
      selfs.map (fun e => (e.1, e.2.value)) = selfs'.map (fun e => (e.1, e.2.value)) →
      compare_helper_outer comparators others selfs
        = compare_helper_outer comparators others' selfs'
  | [], [], _ => rfl
  | [], _ :: _, h => by simp at h
  | _ :: _, [], h => by simp at h
  | s :: rest, s' :: rest', h => by
    simp only [List.map_cons, List.cons.injEq, Prod.mk.injEq] at h
    obtain ⟨⟨hn, hv⟩, hrest⟩ := h
    have ih := compare_helper_outer_congr comparators others others' ho rest rest' hrest
    unfold compare_helper_outer
    rw [compare_helper_inner_congr comparators s s' hn hv others others' ho, ih]

/-- C14: `a == b` returns `true` exactly when `a` and `b` have the same number
of attributes and the comparator table reports the values equal for every
attribute name present in both; the result depends only on the names and the
values of the attributes (not on modified flags, table name, type name or
validator), and `a != b` is the negation of `a == b`. -/
theorem model_equality_spec (comparators : DispatchTable Comparator) (a b : Model) :
    (Model.op_eq comparators a b = some true ↔
      a.attributes.length = b.attributes.length ∧
      ∀ x ∈ a.attributes, ∀ y ∈ b.attributes, x.1 = y.1 →
        compare_any comparators x.2.value y.2.value = some (true, true)) ∧
    (∀ a' b' : Model,
      a'.attributes.map (fun e => (e.1, e.2.value))
        = a.attributes.map (fun e => (e.1, e.2.value)) →
      b'.attributes.map (fun e => (e.1, e.2.value))
        = b.attributes.map (fun e => (e.1, e.2.value)) →
      Model.op_eq comparators a' b' = Model.op_eq comparators a b) ∧
    Model.op_ne comparators a b = (Model.op_eq comparators a b).map (fun equal => !equal) := by
  refine ⟨?_, ?_, rfl⟩
  · unfold Model.op_eq Model.compare_helper
    by_cases hlen : a.attributes.length = b.attributes.length
    · simp only [hlen, ne_eq, not_true_eq_false, if_false, true_and,
        compare_helper_outer_true_iff, compare_helper_inner_true_iff]
    · simp [hlen]
  · intro a' b' ha hb
    have hla : a'.attributes.length = a.attributes.length := by
      simpa using congrArg List.length ha
    have hlb : b'.attributes.length = b.attributes.length := by
      simpa using congrArg List.length hb
    unfold Model.op_eq Model.compare_helper
    rw [hla, hlb, compare_helper_outer_congr comparators _ _ hb _ _ ha]

theorem find_mem {F : Type} (table : DispatchTable F) (tag : TypeTag) (f : F)
    (h : DispatchTable.find table tag = some f) : (tag, f) ∈ table := by
  induction table with
  | nil => simp [DispatchTable.find] at h
  | cons e rest ih =>
    obtain ⟨t, g⟩ := e
    unfold DispatchTable.find at h
    by_cases ht : t = tag
    · simp only [ht, if_true, Option.some.injEq] at h
      simp [ht, h]
    · simp only [ht, if_false] at h
      exact List.mem_cons_of_mem _ (ih h)

/-- With entries made by `to_any_comparator`, comparing two cells of one type
never fails a cast. -/
theorem compare_any_same_type (comparators : DispatchTable Comparator)
    (hreg : comparators_registered comparators) (l r : AnyValue) (h : l.type = r.type) :
    ∃ res, compare_any comparators l r = some res := by
  unfold compare_any
  cases hf : DispatchTable.find comparators l.type with
  | none => exact ⟨_, rfl⟩
  | some f =>
    obtain ⟨g, hg⟩ := hreg _ (find_mem comparators l.type f hf)
    have hfg : f = (to_any_comparator l.type g).2 := congrArg Prod.snd hg
    subst hfg
    by_cases hv : l.type = .void
    · exact ⟨(g .void .void, true), by simp [to_any_comparator, hv]⟩
    · exact ⟨(g l r, true), by simp [to_any_comparator, hv, ← h]⟩

theorem compare_helper_inner_returns (comparators : DispatchTable Comparator)
    (hreg : comparators_registered comparators) (s : String × Attribute)
    (others : List (String × Attribute))
    (hsame : ∀ o ∈ others, s.1 = o.1 → s.2.value.type = o.2.value.type) :
    ∃ res, compare_helper_inner comparators s others = some res := by
  induction others with
  | nil => exact ⟨true, rfl⟩
  | cons o rest ih =>
    have ih' := ih (fun o' ho' => hsame o' (List.mem_cons_of_mem _ ho'))
    unfold compare_helper_inner
    by_cases hn : s.1 = o.1
    · obtain ⟨res, hres⟩ := compare_any_same_type comparators hreg s.2.value o.2.value
        (hsame o (List.mem_cons_self _ _) hn)
      obtain ⟨equal, success⟩ := res
      simp only [hn, if_true, hres]
      cases success <;> cases equal <;> simp [ih']
    · simpa [hn] using ih'

theorem compare_helper_outer_returns (comparators : DispatchTable Comparator)
    (hreg : comparators_registered comparators) (others selfs : List (String × Attribute))
    (hsame : ∀ s ∈ selfs, ∀ o ∈ others, s.1 = o.1 → s.2.value.type = o.2.value.type) :
    ∃ res, compare_helper_outer comparators others selfs = some res := by
  induction selfs with
  | nil => exact ⟨true, rfl⟩
  | cons s rest ih =>
    have ih' := ih (fun s' hs' => hsame s' (List.mem_cons_of_mem _ hs'))
    obtain ⟨res, hres⟩ := compare_helper_inner_returns comparators hreg s others
      (hsame s (List.mem_cons_self _ _))
    unfold compare_helper_outer
    rw [hres]
    cases res with
    | false => exact ⟨false, rfl⟩
    | true => exact ih'

/-- The comparison of two models whose shared names hold cells of one type
returns `false` when one of these cells has a type without a comparator. -/
theorem compare_helper_unregistered (comparators : DispatchTable Comparator)
    (hreg : comparators_registered comparators) (a b : Model)
    (hsame : ∀ x ∈ a.attributes, ∀ y ∈ b.attributes, x.1 = y.1 →
      x.2.value.type = y.2.value.type)
    (x y : String × Attribute) (hx : x ∈ a.attributes) (hy : y ∈ b.attributes)
    (hxy : x.1 = y.1) (hun : DispatchTable.find comparators x.2.value.type = none) :
    Model.compare_helper comparators a b = some false := by
  unfold Model.compare_helper
  by_cases hlen : a.attributes.length = b.attributes.length
  · simp only [hlen, ne_eq, not_true_eq_false, if_false]
    obtain ⟨res, hres⟩ := compare_helper_outer_returns comparators hreg b.attributes
      a.attributes hsame
    cases res with
    | false => exact hres
    | true =>
      have h := (compare_helper_inner_true_iff comparators x b.attributes).1
        ((compare_helper_outer_true_iff comparators b.attributes a.attributes).1 hres x hx)
        y hy hxy
      simp [compare_any, hun] at h
  · simp [hlen]

theorem any_comparator_registered : comparators_registered any_comparator := by
  unfold comparators_registered
  simp only [any_comparator, List.mem_cons, List.mem_singleton, forall_eq_or_imp, forall_eq,
    List.not_mem_nil, false_implies, implies_true, and_true]
  repeat' apply And.intro
  all_goals exact ⟨_, rfl⟩

/-- C15 (amended): with a comparator table whose entries were made by
`to_any_comparator`, if every attribute name present in both models has the
same stored type in both and one of these attributes has a type with no
registered comparator, the comparison returns `false` rather than failing; in
particular a model that holds an attribute of an unregistered type is not equal
to a copy of itself, nor to itself. -/
theorem model_equality_fail_safe (comparators : DispatchTable Comparator)
    (hreg : comparators_registered comparators) (a b : Model)
    (hsame : ∀ x ∈ a.attributes, ∀ y ∈ b.attributes, x.1 = y.1 →
      x.2.value.type = y.2.value.type)
    (x y : String × Attribute) (hx : x ∈ a.attributes) (hy : y ∈ b.attributes)
    (hxy : x.1 = y.1) (hun : DispatchTable.find comparators x.2.value.type = none) :
    Model.op_eq comparators a b = some false ∧
    ((a.attributes.map fun e => e.1).Nodup →
      ∀ copy : Model, copy.attributes = a.attributes →
        Model.op_eq comparators a copy = some false ∧
        Model.op_eq comparators copy a = some false) := by
  refine ⟨compare_helper_unregistered comparators hreg a b hsame x y hx hy hxy hun, ?_⟩
  intro hkeys copy hcopy
  have hself : ∀ u ∈ a.attributes, ∀ v ∈ a.attributes, u.1 = v.1 →
      u.2.value.type = v.2.value.type := by
    intro u hu v hv huv
    rw [List.inj_on_of_nodup_map hkeys hu hv huv]
  exact ⟨compare_helper_unregistered comparators hreg a copy (hcopy ▸ hself) x x hx
      (hcopy ▸ hx) rfl hun,
    compare_helper_unregistered comparators hreg copy a (hcopy ▸ hself) x x (hcopy ▸ hx) hx
      rfl hun⟩

/-- C15, counterexample: both records hold a `photo` of the type `Photo`, which
has no comparator, and a `code` that is a `std::int32_t` in one and a
`std::string` in the other. The comparison reaches `code` first, finds the
comparator of `std::int32_t` and fails in the cast of the other value: it has
no result, instead of returning `false`. -/
theorem model_equality_cast_fails :
    map_find photo_user.attributes "photo" = some ⟨.other "Photo" 1, false⟩ ∧
    map_find photo_product.attributes "photo" = some ⟨.other "Photo" 1, false⟩ ∧
    (DispatchTable.find any_comparator (.other "Photo")).isSome = false ∧
    Model.op_eq any_comparator photo_user photo_product = none := by
  decide

/-- Witness of C15 at the sample input. -/
theorem model_equality_fail_safe_witness :
    ("photo", (⟨.other "Photo" 1, false⟩ : Attribute)) ∈ photo_user.attributes ∧
    Model.op_eq any_comparator photo_user photo_user = some false :=
  ⟨by decide,
    (model_equality_fail_safe any_comparator any_comparator_registered photo_user photo_user
      (by decide) ("photo", ⟨.other "Photo" 1, false⟩) ("photo", ⟨.other "Photo" 1, false⟩)
      (by decide) (by decide) rfl (by
        simp [any_comparator, DispatchTable.find, COMPARATOR, to_any_comparator,
          AnyValue.type])).1⟩

/-! ## The attribute-store invariant -/

theorem map_find_isSome_iff (attributes : List (String × Attribute)) (key : String) :
    (∃ a, map_find attributes key = some a) ↔ key ∈ attributes.map (fun e => e.1) := by
  induction attributes with
  | nil => simp [map_find]
  | cons e rest ih =>
    obtain ⟨k, b⟩ := e
    by_cases hk : k = key
    · simp [map_find, hk]
    · simp [map_find, hk, ih, Ne.symm hk]

theorem map_insert_sorted_keys (attributes : List (String × Attribute)) (key : String)
    (a : Attribute) (n : String) :
    n ∈ (map_insert_sorted attributes key a).map (fun e => e.1) ↔
      n = key ∨ n ∈ attributes.map (fun e => e.1) := by
  induction attributes with
  | nil => simp [map_insert_sorted]
  | cons e rest ih =>
    obtain ⟨k, b⟩ := e
    by_cases hk : key_less key k = true
    · simp [map_insert_sorted, hk]
    · have hk' : key_less key k = false := by simpa using hk
      simp only [map_insert_sorted, hk', Bool.false_eq_true, if_false, List.map_cons,
        List.mem_cons, ih]
      tauto

theorem map_insert_keys (attributes : List (String × Attribute)) (key : String)
    (a : Attribute) (n : String) :
    n ∈ (map_insert attributes key a).map (fun e => e.1) ↔
      n = key ∨ n ∈ attributes.map (fun e => e.1) := by
  unfold map_insert
  cases hf : map_find attributes key with
  | some b =>
    have hmem := (map_find_isSome_iff attributes key).1 ⟨b, hf⟩
    constructor
    · exact fun h => Or.inr h
    · rintro (rfl | h)
      · exact hmem
      · exact h
  | none => exact map_insert_sorted_keys attributes key a n

theorem map_find_insert_sorted_same (attributes : List (String × Attribute)) (key : String)
    (a : Attribute) (h : map_find attributes key = none) :
    map_find (map_insert_sorted attributes key a) key = some a := by
  induction attributes with
  | nil => simp [map_insert_sorted, map_find]
  | cons e rest ih =>
    obtain ⟨k, b⟩ := e
    by_cases hk : k = key
    · simp [map_find, hk] at h
    · simp only [map_find, hk, if_false] at h
      by_cases hl : key_less key k = true
      · simp [map_insert_sorted, hl, map_find]
      · simp [map_insert_sorted, hl, map_find, hk, ih h]

/-- A write that has a result changes neither the declaration order nor the
names of the attribute map. -/
theorem set_attribute_value_keys (m m' : Model) (name : String) (v : AnyValue)
    (h : m.set_attribute_value name v = some m') :
    m'.columns = m.columns ∧
    m'.attributes.map (fun e => e.1) = m.attributes.map (fun e => e.1) := by
  cases hf : map_find m.attributes name with
  | some a =>
    unfold Model.set_attribute_value at h
    simp only [map_subscript_present _ _ _ hf, hf] at h
    split at h
    · rw [← Option.some.inj h]
      exact ⟨rfl, map_assign_keys _ _ _⟩
    · simp at h
  | none =>
    unfold Model.set_attribute_value at h
    have hins : map_find (map_subscript m.attributes name) name
        = some { value := .void, modified := false } := by
      simp only [map_subscript, map_insert, hf]
      exact map_find_insert_sorted_same _ _ _ hf
    simp only [hins] at h
    split at h
    · rename_i hc
      exact absurd hc.1.symm hc.2
    · simp at h

theorem construct_default_step_keys (mappers : DispatchTable Mapper) (row : Row)
    (attributes result : List (String × Attribute)) (attr : String)
    (hmem : attr ∈ attributes.map (fun e => e.1))
    (h : construct_default_step mappers row attributes attr = some result) :
    result.map (fun e => e.1) = attributes.map (fun e => e.1) := by
  obtain ⟨a, hf⟩ := (map_find_isSome_iff attributes attr).2 hmem
  unfold construct_default_step at h
  simp only [map_subscript_present _ _ _ hf, hf, Option.bind_eq_bind, Option.some_bind] at h
  cases hd : any_from_qvariant mappers a.value (row.value attr) with
  | none => simp [hd] at h
  | some decoded =>
    simp only [hd, Option.some_bind, Option.pure_def, Option.some.injEq] at h
    rw [← h]
    exact map_assign_keys _ _ _

theorem construct_default_loop_keys (mappers : DispatchTable Mapper) (row : Row)
    (columns : List String) :
    ∀ attributes result : List (String × Attribute),
      (∀ c ∈ columns, c ∈ attributes.map (fun e => e.1)) →
      construct_default_loop mappers row attributes columns = some result →
      result.map (fun e => e.1) = attributes.map (fun e => e.1) := by
  induction columns with
  | nil =>
    intro attributes result _ h
    simp only [construct_default_loop, Option.some.injEq] at h
    rw [h]
  | cons attr rest ih =>
    intro attributes result hcols h
    unfold construct_default_loop at h
    cases hs : construct_default_step mappers row attributes attr with
    | none => simp [hs] at h
    | some stepped =>
      simp only [hs, Option.bind_eq_bind, Option.some_bind] at h
      have hk := construct_default_step_keys mappers row attributes stepped attr
        (hcols attr (List.mem_cons_self _ _)) hs
      rw [← hk]
      exact ih stepped result
        (fun c hc => hk ▸ hcols c (List.mem_cons_of_mem _ hc)) h

theorem construct_default_keys (mappers : DispatchTable Mapper) (m m' : Model) (row : Row)
    (hcols : ∀ c ∈ m.columns, c ∈ m.attributes.map (fun e => e.1))
    (h : m.construct_default mappers row = some m') :
    m'.columns = m.columns ∧
    m'.attributes.map (fun e => e.1) = m.attributes.map (fun e => e.1) := by
  unfold Model.construct_default at h
  cases hl : construct_default_loop mappers row m.attributes m.columns with
  | none => simp [hl] at h
  | some attributes =>
    simp only [hl, Option.bind_eq_bind, Option.some_bind, Option.pure_def,
      Option.some.injEq] at h
    rw [← h]
    refine ⟨rfl, ?_⟩
    simp only [Model.reset_changed_state, List.map_map]
    exact construct_default_loop_keys mappers row m.columns m.attributes attributes hcols hl

/-- Every operation on the store keeps the names of the column list and of the
attribute map the same, and only a declaration extends the column list. -/
theorem run_store_ops_invariant (mappers : DispatchTable Mapper) (ops : List StoreOp) :
    ∀ start m : Model,
      (∀ n, n ∈ start.columns ↔ n ∈ start.attributes.map (fun e => e.1)) →
      run_store_ops mappers start ops = some m →
      (∀ n, n ∈ m.columns ↔ n ∈ m.attributes.map (fun e => e.1)) ∧
      m.columns = start.columns ++ declared_names ops := by
  induction ops with
  | nil =>
    intro start m hinv h
    simp only [run_store_ops, Option.some.injEq] at h
    subst h
    exact ⟨hinv, by simp [declared_names]⟩
  | cons op rest ih =>
    intro start m hinv h
    unfold run_store_ops at h
    cases hop : op.apply mappers start with
    | none => simp [hop] at h
    | some next =>
      simp only [hop] at h
      cases op with
      | declare name value =>
        simp only [StoreOp.apply, Option.some.injEq] at hop
        have hnext : ∀ n, n ∈ next.columns ↔ n ∈ next.attributes.map (fun e => e.1) := by
          intro n
          rw [← hop]
          simp only [Model.make_model_attribute, List.mem_append, List.mem_singleton,
            map_insert_keys, hinv n]
          tauto
        obtain ⟨h1, h2⟩ := ih next m hnext h
        refine ⟨h1, ?_⟩
        rw [h2, ← hop]
        simp [Model.make_model_attribute, declared_names]
      | set name value =>
        simp only [StoreOp.apply] at hop
        obtain ⟨hc, hk⟩ := set_attribute_value_keys start next name value hop
        obtain ⟨h1, h2⟩ := ih next m (fun n => by rw [hc, hk]; exact hinv n) h
        exact ⟨h1, by rw [h2, hc]; rfl⟩
      | load row =>
        simp only [StoreOp.apply] at hop
        obtain ⟨hc, hk⟩ := construct_default_keys mappers start next row
          (fun c hcm => (hinv c).1 hcm) hop
        obtain ⟨h1, h2⟩ := ih next m (fun n => by rw [hc, hk]; exact hinv n) h
        exact ⟨h1, by rw [h2, hc]; rfl⟩
      | reset =>
        simp only [StoreOp.apply, Option.some.injEq] at hop
        have hc : next.columns = start.columns := by rw [← hop]; rfl
        have hk : next.attributes.map (fun e => e.1) = start.attributes.map (fun e => e.1) := by
          rw [← hop]; simp [Model.reset_changed_state, List.map_map]
        obtain ⟨h1, h2⟩ := ih next m (fun n => by rw [hc, hk]; exact hinv n) h
        exact ⟨h1, by rw [h2, hc]; rfl⟩

/-- C18 (amended): in every state reached from `Model::Model()` by a sequence
of declarations, writes, loads and flag resets, the column list is `id`
followed by the declared names, one entry per declaration in declaration order
(so every name appears exactly once when no name is declared twice and none is
`id`), the column list and the attribute map have the same names, and `id` is
among them. -/
theorem attribute_store_invariant (mappers : DispatchTable Mapper)
    (table_name type_name : String) (is_valid : AttributeStore → Bool × String)
    (ops : List StoreOp) (m : Model)
    (h : run_store_ops mappers (Model.new table_name type_name is_valid) ops = some m) :
    m.columns = "id" :: declared_names ops ∧
    (("id" :: declared_names ops).Nodup → m.columns.Nodup) ∧
    (∀ n, n ∈ m.columns ↔ n ∈ m.attributes.map (fun e => e.1)) ∧
    "id" ∈ m.columns ∧ "id" ∈ m.attributes.map (fun e => e.1) := by
  obtain ⟨hinv, hcols⟩ := run_store_ops_invariant mappers ops
    (Model.new table_name type_name is_valid) m (by intro n; rfl) h
  have hcols' : m.columns = "id" :: declared_names ops := hcols
  have hid : "id" ∈ m.columns := by rw [hcols']; exact List.mem_cons_self _ _
  exact ⟨hcols', fun hn => hcols' ▸ hn, hinv, hid, (hinv "id").1 hid⟩

/-- C18, counterexample: a class that declares `name` twice has it twice in
the column list (and once in the attribute map). -/
theorem duplicate_declaration_repeats_column :
    (run_store_ops (qvariant_mapper zero_convert) (Model.new "users" "User" default_valid)
        [.declare "name" (.plain (.string "")), .declare "name" (.plain (.string ""))]).map
        (fun m => (m.columns, m.columns.count "name", m.attributes.map (fun e => e.1)))
      = some (["id", "name", "name"], 2, ["id", "name"]) := by
  decide

/-- Witness of C18 at the sample operations. -/
theorem attribute_store_invariant_witness :
    ∃ m, run_store_ops (qvariant_mapper zero_convert) (Model.new "users" "User" default_valid)
        sample_ops = some m ∧
      m.columns = ["id", "name", "age"] ∧ m.columns.Nodup := by
  obtain ⟨m, hm⟩ := Option.isSome_iff_exists.1
    (show (run_store_ops (qvariant_mapper zero_convert)
      (Model.new "users" "User" default_valid) sample_ops).isSome = true by decide)
  have h := attribute_store_invariant (qvariant_mapper zero_convert) "users" "User"
    default_valid sample_ops m hm
  exact ⟨m, hm, h.1, h.2.1 (by decide)⟩

/-! ## Evaluations of the find operations at the sample inputs -/

/-- C11, counterexample: the class `User` is not registered and the table has
no row with id `1`; `findRecord` fails with the last error
`empty result set for users`, not with `unsupported model type: User`. -/
theorem find_unregistered_empty_result :
    (DispatchTable.find ([] : DispatchTable Factory) user_type.tag).isSome = false ∧
    (Database.findRecord [] (rows_driver []) {} user_type 1 (some false)).map
        (fun r => (r.error, r.db))
      = some (some true,
          { lastErrorMessage := "empty result set for users"
            calls := [.connect, .exec "SELECT * FROM `users` WHERE id=1;", .close] }) := by
  decide

/-- Witness of C11 at the sample input. -/
theorem findRecord_unregistered_witness :
    DispatchTable.find ([] : DispatchTable Factory) user_type.tag = none ∧
    ∃ r, Database.findRecord [] (rows_driver sample_rows) {} user_type 7 (some false) = some r ∧
      r.error = some true ∧
      r.db = { lastErrorMessage := "unsupported model type: User"
               calls := [.connect, .exec "SELECT * FROM `users` WHERE id=7;", .close] } :=
  ⟨rfl,
    match findRecord_unregistered [] (rows_driver sample_rows) {} user_type 7 (some false)
        rfl with
    | ⟨r, h1, h2, _, _, h5⟩ => ⟨r, h1, h2, h5 _ _ rfl rfl⟩⟩

/-- Witness of C12 at the sample input. -/
theorem findRecord_reports_failure_witness :
    internal_find_statement user_type.default (some 7) none
      = some "SELECT * FROM `users` WHERE id=7;" ∧
    Database.findRecord (registerModel [] user_type) (rows_driver sample_rows) {} user_type 7
        (some true)
      = some { db := { lastErrorMessage := ""
                       calls := [.connect, .exec "SELECT * FROM `users` WHERE id=7;", .close] }
               error := some false
               model := user_type.from_query
                 [("id", .int .uint64 7), ("name", .string "ada"), ("age", .int .int64 36)] } :=
  ⟨by decide,
    (findRecord_reports_failure (registerModel [] user_type) (rows_driver sample_rows) {}
      user_type (some 7) none "SELECT * FROM `users` WHERE id=7;" (some true)
      (by decide)).2.2 rfl |>.2.2.2 _ _ rfl rfl⟩

/-- Witness of C13 at the sample input. -/
theorem findAll_all_or_nothing_witness :
    (rows_driver sample_rows).connect = none ∧
    Database.findAll (registerModel [] user_type) (rows_driver sample_rows) {} user_type
        (some true)
      = some { db := { lastErrorMessage := ""
                       calls := [.connect, .exec "SELECT * FROM `users`;", .close] }
               error := some false
               models := sample_rows.map user_type.from_query } :=
  ⟨rfl,
    (findAll_all_or_nothing (registerModel [] user_type) (rows_driver sample_rows) {} user_type
      none (some true) rfl).2.2 sample_rows rfl rfl⟩

/-! ## `remove` of a new record -/

/-- C21: on a new model (id `0`) `remove` returns success, executes no
statement (the engine, with its trace of driver calls, is unchanged) and leaves
the model with its values, flags and id as it was. -/
theorem remove_new_record_is_noop (drv : Driver) (db : Database) (m : Model)
    (hid : m.id = some 0) :
    ∃ r, m.remove drv db = some r ∧ r.ok = true ∧ r.db = db ∧ r.db.calls = db.calls ∧
      r.model = m ∧ r.model.id = some 0 := by
  refine ⟨{ ok := true, db := db, model := m, last_insert_id := none }, ?_, rfl, rfl, rfl, rfl,
    hid⟩
  simp [Model.remove, is_new_record_of_id m 0 hid]

/-- Witness of C21 at the new sample record. -/
theorem remove_new_record_is_noop_witness :
    sample_user.id = some 0 ∧
    ∃ r, sample_user.remove (failing_driver "gone") {} = some r ∧ r.ok = true ∧
      r.db = {} ∧ r.db.calls = ({} : Database).calls ∧ r.model = sample_user ∧
      r.model.id = some 0 :=
  ⟨by decide, remove_new_record_is_noop (failing_driver "gone") {} sample_user (by decide)⟩

/-! ## The registrar -/

theorem find_none_of_not_mem {F : Type} (table : DispatchTable F) (tag : TypeTag)
    (h : ∀ e ∈ table, e.1 ≠ tag) : DispatchTable.find table tag = none := by
  induction table with
  | nil => rfl
  | cons e rest ih =>
    obtain ⟨t, g⟩ := e
    have ht : t ≠ tag := h (t, g) (List.mem_cons_self _ _)
    have hrest : ∀ e ∈ rest, e.1 ≠ tag := fun e he => h e (List.mem_cons_of_mem _ he)
    simp [DispatchTable.find, ht, ih hrest]

theorem find_append_of_none {F : Type} (table : DispatchTable F) (entry : TypeTag × F)
    (tag : TypeTag) (h : DispatchTable.find table tag = none) :
    DispatchTable.find (table ++ [entry]) tag = if entry.1 = tag then some entry.2 else none := by
  induction table with
  | nil => obtain ⟨t, g⟩ := entry; simp [DispatchTable.find]
  | cons e rest ih =>
    obtain ⟨t, g⟩ := e
    simp only [DispatchTable.find, List.cons_append] at h ⊢
    by_cases ht : t = tag
    · simp [ht] at h
    · simp only [ht, if_false] at h ⊢
      exact ih h

theorem find_append_of_ne {F : Type} (table : DispatchTable F) (entry : TypeTag × F)
    (tag : TypeTag) (h : entry.1 ≠ tag) :
    DispatchTable.find (table ++ [entry]) tag = DispatchTable.find table tag := by
  induction table with
  | nil => obtain ⟨t, g⟩ := entry; simp only [ne_eq] at h; simp [DispatchTable.find, h]
  | cons e rest ih =>
    obtain ⟨t, g⟩ := e
    simp only [DispatchTable.find, List.cons_append]
    by_cases ht : t = tag
    · simp [ht]
    · simp only [ht, if_false]
      exact ih

theorem find_insert_same {F : Type} (table : DispatchTable F) (entry : TypeTag × F)
    (h : DispatchTable.find table entry.1 = none) :
    DispatchTable.find (table.insert entry) entry.1 = some entry.2 := by
  simp [DispatchTable.insert, h, find_append_of_none table entry entry.1 h]

theorem find_insert_other {F : Type} (table : DispatchTable F) (entry : TypeTag × F)
    (tag : TypeTag) (h : entry.1 ≠ tag) :
    DispatchTable.find (table.insert entry) tag = DispatchTable.find table tag := by
  unfold DispatchTable.insert
  cases hf : DispatchTable.find table entry.1 with
  | some f => rfl
  | none => exact find_append_of_ne table entry tag h

theorem find_register_models_none (calls : List (TypeTag × Factory)) (tag : TypeTag) :
    ∀ registrar : DispatchTable Factory, DispatchTable.find registrar tag = none →
      (∀ call ∈ calls, call.1 ≠ tag) →
      DispatchTable.find (register_models registrar calls) tag = none := by
  induction calls with
  | nil => intro registrar h _; exact h
  | cons call rest ih =>
    intro registrar h hcalls
    have hne : call.1 ≠ tag := hcalls call (List.mem_cons_self _ _)
    have hstep : DispatchTable.find (register_model registrar call.1 call.2) tag = none := by
      rw [register_model, find_insert_other registrar (to_model_constructor call.1 call.2) tag hne]
      exact h
    exact ih _ hstep fun c hc => hcalls c (List.mem_cons_of_mem _ hc)

/-- C26: in the registrar reached from the empty initial table by any sequence
of `register_model` calls, the lookup of a tag that none of the calls
registered finds nothing; and after `register_model<T>(f)` on a registrar
without an entry for `T`, the lookup of `T` returns `f` and the lookup of every
other tag returns what it returned before. -/
theorem registrar_lookup (calls : List (TypeTag × Factory)) (T : TypeTag) (f : Factory)
    (hnew : DispatchTable.find (register_models model_registrar calls) T = none) :
    (∀ tag, (∀ call ∈ calls, call.1 ≠ tag) →
      DispatchTable.find (register_models model_registrar calls) tag = none) ∧
    DispatchTable.find (register_model (register_models model_registrar calls) T f) T = some f ∧
    ∀ tag, tag ≠ T →
      DispatchTable.find (register_model (register_models model_registrar calls) T f) tag
        = DispatchTable.find (register_models model_registrar calls) tag := by
  refine ⟨fun tag h => find_register_models_none calls tag model_registrar rfl h, ?_, ?_⟩
  · exact find_insert_same _ (to_model_constructor T f) hnew
  · intro tag hne
    exact find_insert_other _ (to_model_constructor T f) tag (Ne.symm hne)

/-- Witness of C26: the class `User` is registered after a class `Token`. -/
theorem registrar_lookup_witness :
    DispatchTable.find (register_models model_registrar [(.other "Token", fun _ => none)])
        (.other "User") = none ∧
    DispatchTable.find
        (register_model (register_models model_registrar [(.other "Token", fun _ => none)])
          (.other "User") user_type.factory) (.other "User") = some user_type.factory :=
  ⟨rfl,
    (registrar_lookup [(.other "Token", fun _ => none)] (.other "User") user_type.factory
      rfl).2.1⟩

/-! ## The integer decoders -/

theorem find_append {F : Type} (l1 l2 : DispatchTable F) (tag : TypeTag) :
    DispatchTable.find (l1 ++ l2) tag
      = (DispatchTable.find l1 tag).orElse fun _ => DispatchTable.find l2 tag := by
  induction l1 with
  | nil => rfl
  | cons e rest ih =>
    obtain ⟨t, g⟩ := e
    simp only [DispatchTable.find, List.cons_append]
    by_cases ht : t = tag
    · simp [ht]
    · simp only [ht, if_false]
      exact ih

theorem find_MAPPER (qt : QtConvert) (b : BaseType) (tag : TypeTag) :
    DispatchTable.find (MAPPER qt b) tag
      = if tag = .plain b then
          some (to_qvariant_mapper (.plain b) (fun _ var => .plain (mapper_impl qt b var))).2
        else if tag = .optional b then
          some (to_qvariant_mapper (.optional b)
            (fun _ var => .optional b (some (mapper_impl qt b var)))).2
        else none := by
  simp only [MAPPER, DispatchTable.find, to_qvariant_mapper, eq_comm]

theorem find_qvariant_mapper_plain (qt : QtConvert) (b : BaseType) :
    DispatchTable.find (qvariant_mapper qt) (.plain b)
      = some (to_qvariant_mapper (.plain b) (fun _ var => .plain (mapper_impl qt b var))).2 := by
  simp only [qvariant_mapper, find_append, find_MAPPER]
  cases b with
  | int T => cases T <;> simp
  | _ => simp

theorem find_qvariant_mapper_optional (qt : QtConvert) (b : BaseType) :
    DispatchTable.find (qvariant_mapper qt) (.optional b)
      = some (to_qvariant_mapper (.optional b)
          (fun _ var => .optional b (some (mapper_impl qt b var)))).2 := by
  simp only [qvariant_mapper, find_append, find_MAPPER]
  cases b with
  | int T => cases T <;> simp
  | _ => simp

theorem find_qvariant_mapper_none (qt : QtConvert) (tag : TypeTag)
    (hplain : ∀ b, tag ≠ .plain b) (hoptional : ∀ b, tag ≠ .optional b) :
    DispatchTable.find (qvariant_mapper qt) tag = none := by
  simp [qvariant_mapper, find_append, find_MAPPER, hplain, hoptional]

theorem decode_plain_default (qt : QtConvert) (s : Scalar) (var : QVariant) :
    any_from_qvariant (qvariant_mapper qt) (.plain s) var
      = some (.plain (mapper_impl qt s.type var), true) := by
  unfold any_from_qvariant
  rw [show (AnyValue.plain s).type = .plain s.type from rfl, find_qvariant_mapper_plain]
  simp [to_qvariant_mapper, AnyValue.type]

theorem decode_optional_default (qt : QtConvert) (b : BaseType) (v : Option Scalar)
    (var : QVariant) :
    any_from_qvariant (qvariant_mapper qt) (.optional b v) var
      = some (.optional b (some (mapper_impl qt b var)), true) := by
  unfold any_from_qvariant
  rw [show (AnyValue.optional b v).type = .optional b from rfl, find_qvariant_mapper_optional]
  simp [to_qvariant_mapper, AnyValue.type]

/-- C30: decoding a driver integer `n` (of any meta type) into a cell of type
`std::int64_t` or `std::optional<std::int64_t>` stores `static_cast<int16_t>(n)`,
which is `n` exactly when `-32768 ≤ n ≤ 32767`; decoding it into a cell of type
`std::uint64_t`, the type of the id, stores `n` modulo `2 ^ 64`, which is `n`
for every 64-bit unsigned value. -/
theorem decode_int64_reads_int16 (qt : QtConvert) (T : IntType) (n old : Int)
    (engaged : Option Scalar) :
    any_from_qvariant (qvariant_mapper qt) (.plain (.int .int64 old)) (.int T n)
      = some (.plain (.int .int64 (IntType.int16.wrap n)), true) ∧
    any_from_qvariant (qvariant_mapper qt) (.optional (.int .int64) engaged) (.int T n)
      = some (.optional (.int .int64) (some (.int .int64 (IntType.int16.wrap n))), true) ∧
    IntType.int16.wrap n = (n + 32768) % 65536 - 32768 ∧
    (IntType.int16.wrap n = n ↔ -32768 ≤ n ∧ n ≤ 32767) ∧
    any_from_qvariant (qvariant_mapper qt) (.plain (.int .uint64 old)) (.int T n)
      = some (.plain (.int .uint64 (IntType.uint64.wrap n)), true) ∧
    (0 ≤ n ∧ n < 2 ^ 64 → IntType.uint64.wrap n = n) := by
  have hw : IntType.int16.wrap n = (n + 32768) % 65536 - 32768 := by
    simp [IntType.wrap, IntType.signed, IntType.bits]
  refine ⟨?_, ?_, hw, ?_, ?_, ?_⟩
  · rw [decode_plain_default]; simp [Scalar.type, mapper_impl, QVariant.value]
  · rw [decode_optional_default]; simp [mapper_impl, QVariant.value]
  · rw [hw]; omega
  · rw [decode_plain_default]; simp [Scalar.type, mapper_impl, QVariant.value]
  · intro h
    have hu : IntType.uint64.wrap n = n % 18446744073709551616 := by
      simp [IntType.wrap, IntType.signed, IntType.bits]
    rw [hu]
    have h2 : n < 18446744073709551616 := by simpa using h.2
    omega

/-! ## Decoding in place -/

theorem mapper_impl_type (qt : QtConvert) (b : BaseType) (var : QVariant) :
    (mapper_impl qt b var).type = b := by
  cases b with
  | int T => cases T <;> rfl
  | _ => rfl

theorem MAPPER_registered (qt : QtConvert) (b : BaseType) :
    ∀ e ∈ MAPPER qt b, ∃ f, e = to_qvariant_mapper e.1 f ∧
      ∀ target var, target.type = e.1 → (f target var).type = e.1 := by
  intro e he
  simp only [MAPPER, List.mem_cons, List.mem_singleton, List.not_mem_nil, or_false] at he
  rcases he with rfl | rfl
  · exact ⟨fun _ var => .plain (mapper_impl qt b var), rfl, fun _ var _ => by
      simp [to_qvariant_mapper, AnyValue.type, mapper_impl_type]⟩
  · exact ⟨fun _ var => .optional b (some (mapper_impl qt b var)), rfl, fun _ var _ => by
      simp [to_qvariant_mapper, AnyValue.type]⟩

/-- The default decoder table is made of `to_qvariant_mapper` entries. -/
theorem qvariant_mapper_registered (qt : QtConvert) :
    mappers_registered (qvariant_mapper qt) := by
  intro e he
  simp only [qvariant_mapper, List.mem_append] at he
  rcases he with ((((((((((((((h | h) | h) | h) | h) | h) | h) | h) | h) | h) | h) | h) | h) | h)
    | h) <;> exact MAPPER_registered qt _ e h

theorem any_from_qvariant_cases (mappers : DispatchTable Mapper)
    (hreg : mappers_registered mappers) (cell : AnyValue) (v : QVariant) :
    (DispatchTable.find mappers cell.type = none ∧
      any_from_qvariant mappers cell v = some (cell, false)) ∨
    ∃ f decoded, DispatchTable.find mappers cell.type = some f ∧
      any_from_qvariant mappers cell v = some (decoded, true) ∧ decoded.type = cell.type := by
  unfold any_from_qvariant
  cases hf : DispatchTable.find mappers cell.type with
  | none => exact Or.inl ⟨rfl, rfl⟩
  | some f =>
    right
    obtain ⟨g, hg, htype⟩ := hreg _ (find_mem mappers cell.type f hf)
    have hfg : f = (to_qvariant_mapper cell.type g).2 := congrArg Prod.snd hg
    by_cases hvoid : cell.type = .void
    · refine ⟨f, .void, rfl, ?_, ?_⟩
      · simp [hfg, to_qvariant_mapper, hvoid]
      · rw [hvoid]; rfl
    · refine ⟨f, g cell v, rfl, ?_, htype cell v rfl⟩
      simp [hfg, to_qvariant_mapper, hvoid]

/-- C27: with a decoder table made by `to_qvariant_mapper`, for every cell and
every driver value (the null variant included) `any_from_qvariant` returns;
the returned flag is `true` iff the runtime type of the cell has an entry in
the table; when it is `false` the cell is unchanged; and when it is `true` the
type tag of the cell after the call is its tag before the call. -/
theorem any_from_qvariant_in_place (mappers : DispatchTable Mapper)
    (hreg : mappers_registered mappers) (cell : AnyValue) (v : QVariant) :
    ∃ decoded flag, any_from_qvariant mappers cell v = some (decoded, flag) ∧
      (flag = true ↔ (DispatchTable.find mappers cell.type).isSome = true) ∧
      (flag = false → decoded = cell) ∧
      (flag = true → decoded.type = cell.type) := by
  rcases any_from_qvariant_cases mappers hreg cell v with ⟨hnone, h⟩ | ⟨f, decoded, hsome, h, ht⟩
  · exact ⟨cell, false, h, by simp [hnone], fun _ => rfl, fun hflag => by simp at hflag⟩
  · exact ⟨decoded, true, h, by simp [hsome], fun hflag => by simp at hflag, fun _ => ht⟩

/-- Witness of C27: a null driver value is decoded into an `std::string` cell
with the default table. -/
theorem any_from_qvariant_in_place_witness :
    ∃ decoded flag,
      any_from_qvariant (qvariant_mapper zero_convert) (.plain (.string "ada")) .invalid
        = some (decoded, flag) ∧
      (flag = true ↔ (DispatchTable.find (qvariant_mapper zero_convert)
        (AnyValue.plain (.string "ada")).type).isSome = true) ∧
      (flag = false → decoded = .plain (.string "ada")) ∧
      (flag = true → decoded.type = (AnyValue.plain (.string "ada")).type) :=
  any_from_qvariant_in_place (qvariant_mapper zero_convert)
    (qvariant_mapper_registered zero_convert) (.plain (.string "ada")) .invalid

/-! ## `compare_any` with the default table -/

theorem any_comparator_entries :
    ∀ e ∈ any_comparator, e = to_any_comparator .void (fun _ _ => false) ∨ e = COMPARATOR e.1 := by
  simp only [any_comparator, List.mem_cons, List.mem_singleton, forall_eq_or_imp, forall_eq,
    List.not_mem_nil, false_implies, implies_true, and_true]
  repeat' apply And.intro
  all_goals first | exact Or.inl rfl | exact Or.inr rfl

theorem compare_any_registered_eq (l r : AnyValue) (hvoid : l.type ≠ .void)
    (hreg : (DispatchTable.find any_comparator l.type).isSome = true) (htype : r.type = l.type) :
    compare_any any_comparator l r = some (l.eq r, true) := by
  obtain ⟨f, hf⟩ := Option.isSome_iff_exists.1 hreg
  have hmem := find_mem any_comparator l.type f hf
  unfold compare_any
  rw [hf]
  rcases any_comparator_entries _ hmem with h | h
  · exact absurd (congrArg Prod.fst h) hvoid
  · have hfg : f = (COMPARATOR l.type).2 := congrArg Prod.snd h
    simp [hfg, COMPARATOR, to_any_comparator, hvoid, htype]

/-- C28: with the default comparator table, for two cells `l`, `r` of one
type that is not `void` and has an entry, `compare_any` returns `l == r` with
success `true`; for a left operand whose type has no entry (in any table) it
returns `false` with success `false`; and two empty (`void`) cells compare as
not equal with success `true`. -/
theorem compare_any_spec (l r : AnyValue) :
    (l.type ≠ .void → (DispatchTable.find any_comparator l.type).isSome = true →
      r.type = l.type → compare_any any_comparator l r = some (l.eq r, true)) ∧
    (∀ table : DispatchTable Comparator, DispatchTable.find table l.type = none →
      compare_any table l r = some (false, false)) ∧
    (DispatchTable.find any_comparator .void).isSome = true ∧
    compare_any any_comparator .void .void = some (false, true) := by
  refine ⟨compare_any_registered_eq l r, ?_, by decide, by decide⟩
  intro table h
  simp [compare_any, h]

/-- Witness of C28: two `std::int32_t` cells with the default table, and a cell
of an unregistered type `Photo`. -/
theorem compare_any_spec_witness :
    compare_any any_comparator (.plain (.int .int32 4)) (.plain (.int .int32 5))
      = some (false, true) ∧
    compare_any any_comparator (.other "Photo" 1) (.other "Photo" 1) = some (false, false) :=
  ⟨(compare_any_spec (.plain (.int .int32 4)) (.plain (.int .int32 5))).1 (by decide)
      (by decide) (by decide),
    (compare_any_spec (.other "Photo" 1) (.other "Photo" 1)).2.1 any_comparator
      (Option.isNone_iff_eq_none.1 (by decide))⟩

/-! ## Populating a model from a row -/

theorem construct_default_step_eq (mappers : DispatchTable Mapper) (row : Row)
    (attributes : List (String × Attribute)) (attr : String) (cell : Attribute)
    (decoded : AnyValue × Bool) (hf : map_find attributes attr = some cell)
    (hd : any_from_qvariant mappers cell.value (row.value attr) = some decoded) :
    construct_default_step mappers row attributes attr
      = some (map_assign attributes attr { cell with value := decoded.1 }) := by
  unfold construct_default_step
  simp [map_subscript_present _ _ _ hf, hf, hd]

theorem any_from_qvariant_returns (mappers : DispatchTable Mapper)
    (hreg : mappers_registered mappers) (cell : AnyValue) (v : QVariant) :
    ∃ decoded, any_from_qvariant mappers cell v = some decoded := by
  rcases any_from_qvariant_cases mappers hreg cell v with ⟨_, h⟩ | ⟨_, _, _, h, _⟩
  · exact ⟨_, h⟩
  · exact ⟨_, h⟩

theorem construct_default_loop_decodes (mappers : DispatchTable Mapper)
    (hreg : mappers_registered mappers) (row : Row) (columns : List String) :
    ∀ attributes : List (String × Attribute), columns.Nodup →
      (∀ c ∈ columns, c ∈ attributes.map (fun e => e.1)) →
      ∃ result, construct_default_loop mappers row attributes columns = some result ∧
        (∀ name, name ∉ columns → map_find result name = map_find attributes name) ∧
        ∀ name ∈ columns, ∀ cell, map_find attributes name = some cell →
          ∃ decoded, any_from_qvariant mappers cell.value (row.value name) = some decoded ∧
            map_find result name = some { cell with value := decoded.1 } := by
  induction columns with
  | nil =>
    intro attributes _ _
    exact ⟨attributes, rfl, fun _ _ => rfl, fun name hname => by simp at hname⟩
  | cons attr rest ih =>
    intro attributes hnodup hcols
    obtain ⟨hnot, hrest⟩ := List.nodup_cons.1 hnodup
    obtain ⟨cell, hf⟩ := (map_find_isSome_iff attributes attr).2
      (hcols attr (List.mem_cons_self _ _))
    obtain ⟨decoded, hd⟩ := any_from_qvariant_returns mappers hreg cell.value (row.value attr)
    have hstep := construct_default_step_eq mappers row attributes attr cell decoded hf hd
    have hkeys : ∀ c ∈ rest,
        c ∈ (map_assign attributes attr { cell with value := decoded.1 }).map (fun e => e.1) := by
      intro c hc
      rw [map_assign_keys]
      exact hcols c (List.mem_cons_of_mem _ hc)
    obtain ⟨result, hloop, hother, hsame⟩ := ih _ hrest hkeys
    refine ⟨result, ?_, ?_, ?_⟩
    · unfold construct_default_loop
      simp [hstep, hloop]
    · intro name hname
      have hne : name ≠ attr := fun h => hname (h ▸ List.mem_cons_self _ _)
      have hnr : name ∉ rest := fun h => hname (List.mem_cons_of_mem _ h)
      rw [hother name hnr, map_find_assign_other _ _ _ _ hne]
    · intro name hname c hc
      rcases List.mem_cons.1 hname with rfl | hmem
      · have hcell : c = cell := Option.some.inj (hc.symm.trans hf)
        subst hcell
        refine ⟨decoded, hd, ?_⟩
        rw [hother name hnot]
        exact map_find_assign_same _ _ _ _ hf
      · have hne : name ≠ attr := fun h => hnot (h ▸ hmem)
        exact hsame name hmem c (by rw [map_find_assign_other _ _ _ _ hne]; exact hc)

theorem map_find_reset (attributes : List (String × Attribute)) (key : String) :
    map_find (attributes.map fun e => (e.1, { e.2 with modified := false })) key
      = (map_find attributes key).map fun a => { a with modified := false } := by
  induction attributes with
  | nil => rfl
  | cons e rest ih =>
    obtain ⟨k, a⟩ := e
    simp only [List.map_cons, map_find]
    by_cases hk : k = key
    · simp [hk]
    · simp only [hk, if_false]
      exact ih

theorem reset_changed_state_clears (m : Model) :
    m.reset_changed_state.has_changes = false ∧
    (∀ e ∈ m.reset_changed_state.attributes, e.2.modified = false) ∧
    m.reset_changed_state.attributes.map (fun e => (e.1, e.2.value))
      = m.attributes.map (fun e => (e.1, e.2.value)) ∧
    m.reset_changed_state.columns = m.columns := by
  refine ⟨?_, ?_, ?_, rfl⟩
  · simp [Model.has_changes, Model.reset_changed_state, List.any_map]
  · intro e he
    simp only [Model.reset_changed_state, List.mem_map] at he
    obtain ⟨x, _, rfl⟩ := he
    rfl
  · simp [Model.reset_changed_state, List.map_map, Function.comp_def]

/-- C25: on a model whose columns are distinct names that all have an
attribute, with a decoder table made by `to_qvariant_mapper`,
`construct_default(row)` returns a model without a modified attribute
(`has_changes()` is `false`) in which every declared attribute, `id`
included, holds what `any_from_qvariant` decodes into its cell from the column
of the same name of the row (the decoding when the type of the cell has a
decoder, and the unchanged value, with flag `false`, when it has none);
`reset_changed_state` itself clears every modified flag and keeps the names,
values and order of the attributes and the columns. -/
theorem construct_default_populates (mappers : DispatchTable Mapper)
    (hreg : mappers_registered mappers) (m : Model) (row : Row) (hnodup : m.columns.Nodup)
    (hcols : ∀ c ∈ m.columns, c ∈ m.attributes.map (fun e => e.1)) :
    (∃ loaded, m.construct_default mappers row = some loaded ∧
      loaded.has_changes = false ∧ loaded.columns = m.columns ∧
      ∀ name ∈ m.columns, ∀ cell, map_find m.attributes name = some cell →
        ∃ decoded flag,
          any_from_qvariant mappers cell.value (row.value name) = some (decoded, flag) ∧
          (flag = true ↔ (DispatchTable.find mappers cell.value.type).isSome = true) ∧
          map_find loaded.attributes name = some { value := decoded, modified := false }) ∧
    ∀ model : Model,
      model.reset_changed_state.has_changes = false ∧
      (∀ e ∈ model.reset_changed_state.attributes, e.2.modified = false) ∧
      model.reset_changed_state.attributes.map (fun e => (e.1, e.2.value))
        = model.attributes.map (fun e => (e.1, e.2.value)) ∧
      model.reset_changed_state.columns = model.columns := by
  refine ⟨?_, reset_changed_state_clears⟩
  obtain ⟨result, hloop, _, hsame⟩ :=
    construct_default_loop_decodes mappers hreg row m.columns m.attributes hnodup hcols
  refine ⟨Model.reset_changed_state { m with attributes := result }, ?_,
    (reset_changed_state_clears _).1, rfl, ?_⟩
  · simp [Model.construct_default, hloop]
  · intro name hname cell hcell
    obtain ⟨decoded, hd, hfound⟩ := hsame name hname cell hcell
    refine ⟨decoded.1, decoded.2, hd, ?_, ?_⟩
    · rcases any_from_qvariant_cases mappers hreg cell.value (row.value name) with
        ⟨hnone, h⟩ | ⟨f, d, hsome, h, _⟩
      · have hflag : decoded.2 = false := by
          rw [h] at hd; rw [← Option.some.inj hd]
        simp [hflag, hnone]
      · have hflag : decoded.2 = true := by
          rw [h] at hd; rw [← Option.some.inj hd]
        simp [hflag, hsome]
    · show map_find (result.map fun e => (e.1, { e.2 with modified := false })) name = _
      rw [map_find_reset, hfound]
      rfl

/-- Witness of C25: the default `User` is populated from the row of id `7`. -/
theorem construct_default_populates_witness :
    ∃ loaded, (user_model "" 0).construct_default (qvariant_mapper zero_convert)
        [("id", .int .uint64 7), ("name", .string "ada"), ("age", .int .int64 36)] = some loaded ∧
      loaded.has_changes = false ∧ loaded.columns = (user_model "" 0).columns ∧
      ∀ name ∈ (user_model "" 0).columns, ∀ cell,
        map_find (user_model "" 0).attributes name = some cell →
        ∃ decoded flag,
          any_from_qvariant (qvariant_mapper zero_convert) cell.value
            (Row.value [("id", .int .uint64 7), ("name", .string "ada"),
              ("age", .int .int64 36)] name) = some (decoded, flag) ∧
          (flag = true ↔
            (DispatchTable.find (qvariant_mapper zero_convert) cell.value.type).isSome = true) ∧
          map_find loaded.attributes name = some { value := decoded, modified := false } :=
  (construct_default_populates (qvariant_mapper zero_convert)
    (qvariant_mapper_registered zero_convert) (user_model "" 0)
    [("id", .int .uint64 7), ("name", .string "ada"), ("age", .int .int64 36)]
    (by decide) (by decide)).1

/-! ## `createTable` -/

theorem open_ok (drv : Driver) (db : Database) (error : Option Bool) (h : drv.connect = none) :
    Database.open drv db error
      = (true, { lastErrorMessage := "", calls := db.calls ++ [.connect] },
          set_error error false) := by
  simp [Database.open, h]

theorem open_failed (drv : Driver) (db : Database) (error : Option Bool) (text : String)
    (h : drv.connect = some text) :
    Database.open drv db error
      = (false, { lastErrorMessage := text, calls := db.calls ++ [.connect] },
          set_error error true) := by
  simp [Database.open, h]

/-- C23: for a table without fields, `createTable` on a connection that opens
returns failure, leaves the message `"<table name>: no fields specified"` as
the last error and executes no statement (the driver is only asked to open and
to close the connection), for either value of `errorWhenExists`. -/
theorem createTable_without_fields (drv : Driver) (db : Database) (table : DatabaseTable)
    (errorWhenExists : Bool) (hopen : drv.connect = none) (hempty : table.fields = []) :
    Database.createTable drv db table errorWhenExists
      = (false, { lastErrorMessage := table.name ++ ": no fields specified",
                  calls := db.calls ++ [.connect, .close] }) ∧
    ∀ statement, DriverCall.exec statement ∉
      (Database.createTable drv db table errorWhenExists).2.calls.drop db.calls.length := by
  have h : Database.createTable drv db table errorWhenExists
      = (false, { lastErrorMessage := table.name ++ ": no fields specified",
                  calls := db.calls ++ [.connect, .close] }) := by
    simp [Database.createTable, open_ok drv db none hopen, Database.internal_create_table,
      DatabaseTable.empty, hempty, Database.close]
  refine ⟨h, ?_⟩
  intro statement
  rw [h]
  simp

/-- Witness of C23: a table `users` without fields. -/
theorem createTable_without_fields_witness :
    Database.createTable (accepting_driver 0) {} { name := "users", fields := [] } true
      = (false, { lastErrorMessage := "users: no fields specified",
                  calls := [.connect, .close] }) :=
  (createTable_without_fields (accepting_driver 0) {} { name := "users", fields := [] } true
    rfl rfl).1

theorem generateSqlStatement_no_fields (t : DatabaseTable) (b : Bool) (h : t.fields = []) :
    t.generateSqlStatement b
      = "CREATE TABLE " ++ (if b then "IF NOT EXISTS " else "") ++ "`" ++ (t.name ++ "`  );") := by
  have hq : ((((({} : OStringStream).write "CREATE TABLE ").write
      (if b then "IF NOT EXISTS " else "")).write "`").write t.name).write "` ("
      = OStringStream.ofBuf (("CREATE TABLE " ++ (if b then "IF NOT EXISTS " else "") ++ "`"
          ++ t.name ++ "` ").data ++ ['(']) := by
    simp [empty_stream_eq, write_ofBuf, List.append_assoc]
  apply String.ext
  unfold DatabaseTable.generateSqlStatement
  simp only [h, List.foldl_nil, Bool.false_eq_true, if_false]
  rw [hq]
  simp only [OStringStream.str, String.data_append]
  rw [seekp_back_write _ _ " " (by decide)]
  simp [empty_stream_eq, write_ofBuf, List.append_assoc]
  rfl

/-- What follows the optional `IF NOT EXISTS ` does not depend on the flag. -/
theorem generateSqlStatement_shape (t : DatabaseTable) :
    ∃ rest, ∀ b, t.generateSqlStatement b
      = "CREATE TABLE " ++ (if b then "IF NOT EXISTS " else "") ++ "`" ++ rest := by
  by_cases h : t.fields = []
  · exact ⟨_, fun b => generateSqlStatement_no_fields t b h⟩
  · refine ⟨t.name ++ "` (" ++ String.intercalate "," (t.fields.map ddl_field_clause) ++
      ddl_key_section t.fields ++ ");", fun b => ?_⟩
    rw [generateSqlStatement_writes_reference t b h]
    simp only [ddl_reference, String.append_assoc]

theorem generateSqlStatement_prefix_iff (t : DatabaseTable) (b : Bool) :
    "CREATE TABLE IF NOT EXISTS ".data <+: (t.generateSqlStatement b).data ↔ b = true := by
  obtain ⟨rest, h⟩ := generateSqlStatement_shape t
  rw [h b]
  cases b
  · simp only [Bool.false_eq_true, if_false, String.data_append, iff_false]
    intro hp
    simp at hp
  · simp only [if_true, String.data_append, iff_true]
    simp

theorem createTable_executes (drv : Driver) (db : Database) (table : DatabaseTable)
    (errorWhenExists : Bool) (hopen : drv.connect = none) (hfields : table.fields ≠ []) :
    ∃ status message, Database.createTable drv db table errorWhenExists
      = (status, { lastErrorMessage := message,
                   calls := db.calls ++ [.connect,
                     .exec (table.generateSqlStatement (!errorWhenExists)), .close] }) := by
  have hempty : table.empty = false := by
    simp [DatabaseTable.empty, hfields]
  cases hexec : drv.exec (table.generateSqlStatement (!errorWhenExists)) with
  | error text =>
    exact ⟨false, text, by
      simp [Database.createTable, open_ok drv db none hopen, Database.internal_create_table,
        hempty, query, hexec, Database.close]⟩
  | ok rows =>
    exact ⟨true, "", by
      simp [Database.createTable, open_ok drv db none hopen, Database.internal_create_table,
        hempty, query, hexec, Database.close]⟩

/-- C24: on a connection that opens, `createTable(table, errorWhenExists)` of
a table with fields executes exactly one statement, which is
`generateSqlStatement(!errorWhenExists)`; the statement that
`generateSqlStatement(includeIfNotExists)` builds is `CREATE TABLE `, then
`IF NOT EXISTS ` iff `includeIfNotExists` is `true`, then a rest that starts
with a backtick and is the same for both values of the flag; so the executed
statement has `IF NOT EXISTS ` directly after `CREATE TABLE ` iff
`errorWhenExists` is `false`. -/
theorem createTable_if_not_exists (drv : Driver) (db : Database) (table : DatabaseTable)
    (errorWhenExists : Bool) (hopen : drv.connect = none) (hfields : table.fields ≠ []) :
    (∃ status message, Database.createTable drv db table errorWhenExists
      = (status, { lastErrorMessage := message,
                   calls := db.calls ++ [.connect,
                     .exec (table.generateSqlStatement (!errorWhenExists)), .close] })) ∧
    (∃ rest, ∀ includeIfNotExists, table.generateSqlStatement includeIfNotExists
      = "CREATE TABLE " ++ (if includeIfNotExists then "IF NOT EXISTS " else "") ++ "`"
          ++ rest) ∧
    (∀ includeIfNotExists,
      "CREATE TABLE IF NOT EXISTS ".data <+: (table.generateSqlStatement includeIfNotExists).data
        ↔ includeIfNotExists = true) ∧
    ("CREATE TABLE IF NOT EXISTS ".data
        <+: (table.generateSqlStatement (!errorWhenExists)).data ↔ errorWhenExists = false) := by
  refine ⟨createTable_executes drv db table errorWhenExists hopen hfields,
    generateSqlStatement_shape table, generateSqlStatement_prefix_iff table, ?_⟩
  rw [generateSqlStatement_prefix_iff]
  cases errorWhenExists <;> simp

/-- Witness of C24: `createTable` of the sample table with the default
`errorWhenExists = false`. -/
theorem createTable_if_not_exists_witness :
    ∃ status message, Database.createTable (accepting_driver 0) {} sample_table false
      = (status, { lastErrorMessage := message,
                   calls := [.connect,
                     .exec (sample_table.generateSqlStatement (!false)), .close] }) :=
  (createTable_if_not_exists (accepting_driver 0) {} sample_table false rfl (by decide)).1

/-! ## The connection discipline -/

theorem connection_open_append (drv : Driver) (opened : Bool) (a b : List DriverCall) :
    connection_open drv opened (a ++ b) = connection_open drv (connection_open drv opened a) b := by
  simp [connection_open, List.foldl_append]

theorem connection_open_close (drv : Driver) (opened : Bool) (db : Database) :
    connection_open drv opened (Database.close db).calls = false := by
  simp [Database.close, connection_open, List.foldl_append]

theorem connection_open_failed (drv : Driver) (opened : Bool) (db : Database)
    (error : Option Bool) (h : (Database.open drv db error).1 = false) :
    connection_open drv opened (Database.open drv db error).2.1.calls = false := by
  cases hc : drv.connect with
  | none => simp [Database.open, hc] at h
  | some text => simp [Database.open, hc, connection_open, List.foldl_append]

theorem execute_closed (drv : Driver) (opened : Bool) (db : Database) (statement : String) :
    connection_open drv opened (Database.execute drv db statement).2.calls = false := by
  unfold Database.execute
  cases ho : Database.open drv db none with
  | mk status rest =>
    obtain ⟨db1, error⟩ := rest
    have hf := connection_open_failed drv opened db none
    rw [ho] at hf
    cases status with
    | false => exact hf rfl
    | true =>
      simp only [query]
      cases drv.exec statement with
      | error text => exact connection_open_close drv opened _
      | ok rows => exact connection_open_close drv opened _

theorem createTable_closed (drv : Driver) (opened : Bool) (db : Database) (table : DatabaseTable)
    (errorWhenExists : Bool) :
    connection_open drv opened (Database.createTable drv db table errorWhenExists).2.calls
      = false := by
  unfold Database.createTable
  cases ho : Database.open drv db none with
  | mk status rest =>
    obtain ⟨db1, error⟩ := rest
    have hf := connection_open_failed drv opened db none
    rw [ho] at hf
    cases status with
    | false => exact hf rfl
    | true => exact connection_open_close drv opened _

theorem tables_closed (drv : Driver) (opened : Bool) (db : Database) :
    connection_open drv opened (Database.tables drv db).2.calls = false := by
  unfold Database.tables
  cases ho : Database.open drv db none with
  | mk status rest =>
    obtain ⟨db1, error⟩ := rest
    have hf := connection_open_failed drv opened db none
    rw [ho] at hf
    cases status with
    | false => exact hf rfl
    | true => exact connection_open_close drv opened _

theorem canConnect_closed (drv : Driver) (opened : Bool) (db : Database) :
    connection_open drv opened (Database.canConnect drv db).2.calls = false := by
  unfold Database.canConnect
  exact connection_open_close drv opened _

theorem saveRecord_closed (converters : DispatchTable Converter) (drv : Driver) (opened : Bool)
    (db : Database) (model : Model) (r : SaveResult)
    (h : Database.saveRecord converters drv db model = some r) :
    connection_open drv opened r.db.calls = false := by
  unfold Database.saveRecord at h
  cases ho : Database.open drv db none with
  | mk status rest =>
    obtain ⟨db1, error⟩ := rest
    have hf := connection_open_failed drv opened db none
    rw [ho] at hf h
    cases status with
    | false =>
      simp only [Option.some.injEq] at h
      rw [← h]
      exact hf rfl
    | true =>
      simp only at h
      cases hs : model.save converters drv db1 none with
      | none => simp [hs] at h
      | some saved =>
        simp only [hs, Option.some.injEq] at h
        rw [← h]
        exact connection_open_close drv opened _

theorem deleteRecord_closed (drv : Driver) (opened : Bool) (db : Database) (model : Model)
    (r : SaveResult) (h : Database.deleteRecord drv db model = some r) :
    connection_open drv opened r.db.calls = false := by
  unfold Database.deleteRecord at h
  cases ho : Database.open drv db none with
  | mk status rest =>
    obtain ⟨db1, error⟩ := rest
    have hf := connection_open_failed drv opened db none
    rw [ho] at hf h
    cases status with
    | false =>
      simp only [Option.some.injEq] at h
      rw [← h]
      exact hf rfl
    | true =>
      simp only at h
      cases hs : model.remove drv db1 with
      | none => simp [hs] at h
      | some removed =>
        simp only [hs, Option.some.injEq] at h
        rw [← h]
        exact connection_open_close drv opened _

theorem findRecord_closed (model_registrar : DispatchTable Factory) (drv : Driver)
    (opened : Bool) (db : Database) (T : ModelType) (id : Option Int) (filter : Option String)
    (error : Option Bool) (r : FindRecord)
    (h : Database.findRecord_body model_registrar drv db T id filter error = some r) :
    connection_open drv opened r.db.calls = false := by
  unfold Database.findRecord_body at h
  cases ho : Database.open drv db error with
  | mk status rest =>
    obtain ⟨db1, error1⟩ := rest
    have hf := connection_open_failed drv opened db error
    rw [ho] at hf h
    cases status with
    | false =>
      simp only [Option.some.injEq] at h
      rw [← h]
      exact hf rfl
    | true =>
      simp only at h
      cases hs : Database.internal_find model_registrar drv db1 T.default id filter T.tag
          error1 with
      | none => simp [hs] at h
      | some found =>
        simp only [hs] at h
        cases hres : found.result with
        | none =>
          simp only [hres, Option.some.injEq] at h
          rw [← h]
          exact connection_open_close drv opened _
        | some pointer =>
          obtain ⟨tag, model⟩ := pointer
          simp only [hres] at h
          split at h
          · simp only [Option.some.injEq] at h
            rw [← h]
            exact connection_open_close drv opened _
          · simp at h

theorem findAll_closed (model_registrar : DispatchTable Factory) (drv : Driver)
    (opened : Bool) (db : Database) (T : ModelType) (filter : Option String)
    (error : Option Bool) (r : FindAll)
    (h : Database.findAll_body model_registrar drv db T filter error = some r) :
    connection_open drv opened r.db.calls = false := by
  unfold Database.findAll_body at h
  cases ho : Database.open drv db error with
  | mk status rest =>
    obtain ⟨db1, error1⟩ := rest
    have hf := connection_open_failed drv opened db error
    rw [ho] at hf h
    cases status with
    | false =>
      simp only [Option.some.injEq] at h
      rw [← h]
      exact hf rfl
    | true =>
      simp only at h
      split at h
      · simp at h
      · simp only [Option.some.injEq] at h
        rw [← h]
        exact connection_open_close drv opened _

theorem internal_find_calls (model_registrar : DispatchTable Factory) (drv : Driver)
    (db : Database) (model : Model) (id : Option Int) (filter : Option String) (type : TypeTag)
    (error : Option Bool) (r : InternalFind)
    (h : Database.internal_find model_registrar drv db model id filter type error = some r) :
    ∃ statement, r.db.calls = db.calls ++ [.exec statement] := by
  unfold Database.internal_find at h
  cases hs : internal_find_statement model id filter with
  | none => simp [hs] at h
  | some statement =>
    refine ⟨statement, ?_⟩
    simp only [hs, query] at h
    cases he : drv.exec statement with
    | error text =>
      simp only [he, Option.some.injEq] at h
      rw [← h]
    | ok rows =>
      cases rows with
      | nil =>
        simp only [he, Option.some.injEq] at h
        rw [← h]
      | cons row rest =>
        simp only [he] at h
        cases hf : DispatchTable.find model_registrar type with
        | none =>
          simp only [hf, Option.some.injEq] at h
          rw [← h]
        | some constructor =>
          simp only [hf, Option.some.injEq] at h
          rw [← h]

theorem internal_find_all_calls (model_registrar : DispatchTable Factory) (drv : Driver)
    (db : Database) (model : Model) (filter : Option String) (type : TypeTag)
    (error : Option Bool) :
    (Database.internal_find_all model_registrar drv db model filter type error).db.calls
      = db.calls ++ [.exec (internal_find_all_statement model filter)] := by
  unfold Database.internal_find_all
  simp only [query]
  cases drv.exec (internal_find_all_statement model filter) with
  | error text => rfl
  | ok rows =>
    simp only
    cases internal_find_all_loop model_registrar type rows with
    | none => rfl
    | some results => rfl

theorem connection_open_exec (drv : Driver) (opened : Bool) (calls : List DriverCall)
    (statement : String) :
    connection_open drv opened (calls ++ [.exec statement]) = connection_open drv opened calls := by
  simp [connection_open, List.foldl_append]

/-- C29: from any state of the connection, every public operation that returns
(`execute`, `tables`, `createTable`, `dropTable`, `truncateTable`,
`canConnect`, `saveRecord`, `deleteRecord`, both overloads of `findRecord` and
of `findAll`) leaves the connection closed, whether the connection could not
be opened, the statement failed or the operation succeeded; `internal_find`
and `internal_find_all` only execute their statement: they call neither `open`
nor `close` and leave the state of the connection as it was. -/
theorem public_operations_close_connection (converters : DispatchTable Converter)
    (model_registrar : DispatchTable Factory) (drv : Driver) (db : Database) (opened : Bool)
    (statement tableName : String) (table : DatabaseTable) (errorWhenExists : Bool)
    (model : Model) (T : ModelType) (id : Option Int) (filter : Option String) (type : TypeTag)
    (error : Option Bool) :
    connection_open drv opened (Database.execute drv db statement).2.calls = false ∧
    connection_open drv opened (Database.tables drv db).2.calls = false ∧
    connection_open drv opened (Database.createTable drv db table errorWhenExists).2.calls
      = false ∧
    connection_open drv opened (Database.dropTable drv db tableName).2.calls = false ∧
    connection_open drv opened (Database.truncateTable drv db tableName).2.calls = false ∧
    connection_open drv opened (Database.canConnect drv db).2.calls = false ∧
    (∀ r, Database.saveRecord converters drv db model = some r →
      connection_open drv opened r.db.calls = false) ∧
    (∀ r, Database.deleteRecord drv db model = some r →
      connection_open drv opened r.db.calls = false) ∧
    (∀ r, Database.findRecord_body model_registrar drv db T id filter error = some r →
      connection_open drv opened r.db.calls = false) ∧
    (∀ r, Database.findAll_body model_registrar drv db T filter error = some r →
      connection_open drv opened r.db.calls = false) ∧
    (∀ r, Database.internal_find model_registrar drv db model id filter type error = some r →
      (∃ executed, r.db.calls = db.calls ++ [.exec executed]) ∧
      connection_open drv opened r.db.calls = connection_open drv opened db.calls) ∧
    (Database.internal_find_all model_registrar drv db model filter type error).db.calls
      = db.calls ++ [.exec (internal_find_all_statement model filter)] ∧
    connection_open drv opened
        (Database.internal_find_all model_registrar drv db model filter type error).db.calls
      = connection_open drv opened db.calls := by
  refine ⟨execute_closed drv opened db statement, tables_closed drv opened db,
    createTable_closed drv opened db table errorWhenExists, execute_closed drv opened db _,
    execute_closed drv opened db _, canConnect_closed drv opened db,
    saveRecord_closed converters drv opened db model, deleteRecord_closed drv opened db model,
    findRecord_closed model_registrar drv opened db T id filter error,
    findAll_closed model_registrar drv opened db T filter error, ?_,
    internal_find_all_calls model_registrar drv db model filter type error, ?_⟩
  · intro r h
    obtain ⟨executed, he⟩ := internal_find_calls model_registrar drv db model id filter type
      error r h
    exact ⟨⟨executed, he⟩, by rw [he, connection_open_exec]⟩
  · rw [internal_find_all_calls, connection_open_exec]

/-- Witness of C29: `deleteRecord` of the loaded sample record returns, on a
driver that fails the statement, with the connection closed. -/
theorem public_operations_close_connection_witness :
    ∃ r, Database.deleteRecord (failing_driver "gone") {} sample_persisted = some r ∧
      connection_open (failing_driver "gone") false r.db.calls = false := by
  obtain ⟨r, hr⟩ := Option.isSome_iff_exists.1
    (show (Database.deleteRecord (failing_driver "gone") {} sample_persisted).isSome = true by
      decide)
  exact ⟨r, hr,
    (public_operations_close_connection qvariant_converter model_registrar
      (failing_driver "gone") {} false "" "" sample_table false sample_persisted user_type none
      none .void none).2.2.2.2.2.2.2.1 r hr⟩

/-! ## `to_string` -/

/-- C22: the `photo` attribute of the sample record has a type without a
formatter. The entry that `to_string` writes for it is `photo={unsupported}`:
the format string of this branch lacks the blanks around `=` that the branch
for a formatted value (the entry `code = 1`) writes, so the result is not the
text with the entry `photo = {unsupported}` in the shape `name = value`. -/
theorem to_string_unsupported_without_spaces :
    DispatchTable.find (any_formatter sample_text) (AnyValue.other "Photo" 1).type = none ∧
    photo_user.to_string (any_formatter sample_text)
      = some "User(new) \x7b\n    code = 1,\n    photo=\x7bunsupported\x7d,\n\x7d" ∧
    photo_user.to_string (any_formatter sample_text)
      ≠ some "User(new) \x7b\n    code = 1,\n    photo = \x7bunsupported\x7d,\n\x7d" := by
  refine ⟨Option.isNone_iff_eq_none.1 (by decide), by decide, by decide⟩

theorem FORMATTER_registered (text : TextFormat) (b : BaseType) :
    ∀ e ∈ FORMATTER text b, ∃ f, e = to_any_formatter e.1 f := by
  intro e he
  simp only [FORMATTER, List.mem_cons, List.mem_singleton, List.not_mem_nil, or_false] at he
  rcases he with rfl | rfl
  · exact ⟨_, rfl⟩
  · exact ⟨_, rfl⟩

/-- The default formatter table is made of `to_any_formatter` entries. -/
theorem any_formatter_registered (text : TextFormat) :
    formatters_registered (any_formatter text) := by
  intro e he
  simp only [any_formatter, List.mem_append] at he
  rcases he with ((((((((((((((h | h) | h) | h) | h) | h) | h) | h) | h) | h) | h) | h) | h) | h)
    | h) <;> exact FORMATTER_registered text _ e h

theorem format_any_cases (formatters : DispatchTable Formatter)
    (hreg : formatters_registered formatters) (any : AnyValue) :
    (DispatchTable.find formatters any.type = none ∧
      format_any formatters any = some ("", false)) ∨
    ∃ f formatted, DispatchTable.find formatters any.type = some f ∧
      f any = some formatted ∧ format_any formatters any = some (formatted, true) := by
  unfold format_any
  cases hf : DispatchTable.find formatters any.type with
  | none => exact Or.inl ⟨rfl, rfl⟩
  | some f =>
    right
    obtain ⟨g, hg⟩ := hreg _ (find_mem formatters any.type f hf)
    have hfg : f = (to_any_formatter any.type g).2 := congrArg Prod.snd hg
    by_cases hvoid : any.type = .void
    · exact ⟨f, "", rfl, by simp [hfg, to_any_formatter, hvoid],
        by simp [hfg, to_any_formatter, hvoid]⟩
    · exact ⟨f, g any, rfl, by simp [hfg, to_any_formatter, hvoid],
        by simp [hfg, to_any_formatter, hvoid]⟩

theorem to_string_loop_entries (formatters : DispatchTable Formatter)
    (hreg : formatters_registered formatters) (attributes : List (String × Attribute))
    (columns : List String) (hcols : ∀ c ∈ columns, c ∈ attributes.map (fun e => e.1)) :
    ∃ entries, to_string_loop formatters attributes columns = some entries ∧
      List.Forall₂
        (fun name entry => ∃ cell, map_find attributes name = some cell ∧
          ((DispatchTable.find formatters cell.value.type = none ∧
              entry = name ++ "=\x7bunsupported\x7d") ∨
            ∃ f formatted, DispatchTable.find formatters cell.value.type = some f ∧
              f cell.value = some formatted ∧ entry = name ++ " = " ++ formatted))
        (columns.filter fun c => c ≠ "id") entries := by
  induction columns with
  | nil => exact ⟨[], rfl, by simp⟩
  | cons attr rest ih =>
    obtain ⟨entries, hloop, hall⟩ := ih fun c hc => hcols c (List.mem_cons_of_mem _ hc)
    by_cases hattr : attr = "id"
    · exact ⟨entries, by simp [to_string_loop, hattr, hloop], by simpa [hattr] using hall⟩
    · obtain ⟨cell, hcell⟩ := (map_find_isSome_iff attributes attr).2
        (hcols attr (List.mem_cons_self _ _))
      rcases format_any_cases formatters hreg cell.value with
        ⟨hnone, hfmt⟩ | ⟨f, formatted, hsome, hf, hfmt⟩
      · refine ⟨(attr ++ "=\x7bunsupported\x7d") :: entries, ?_, ?_⟩
        · simp [to_string_loop, hattr, hcell, hfmt, hloop, to_string_entry]
        · simp only [ne_eq, hattr, not_false_eq_true, decide_True, List.filter_cons_of_pos]
          exact List.Forall₂.cons ⟨cell, hcell, Or.inl ⟨hnone, rfl⟩⟩ hall
      · refine ⟨(attr ++ " = " ++ formatted) :: entries, ?_, ?_⟩
        · simp [to_string_loop, hattr, hcell, hfmt, hloop, to_string_entry]
        · simp only [ne_eq, hattr, not_false_eq_true, decide_True, List.filter_cons_of_pos]
          exact List.Forall₂.cons ⟨cell, hcell, Or.inr ⟨f, formatted, hsome, hf, rfl⟩⟩ hall

/-- What `to_string` returns as the code stands: on a model with an id whose
columns all have an attribute, with a formatter table made by
`to_any_formatter`, it returns `<TypeName>(<head>) {`, a line break and four
blanks, then one entry per non-id column in declaration order, joined by a
comma, a line break and four blanks, then a comma, a line break and `}`; the
head is `new` iff the id is `0` and the decimal id otherwise; the entry of an
attribute whose type has a formatter is `name = <formatted value>`, while the
branch for a type without a formatter writes `name={unsupported}` and so
misses the blanks of the other branch. -/
theorem to_string_returns (formatters : DispatchTable Formatter)
    (hreg : formatters_registered formatters) (m : Model) (k : Int) (hid : m.id = some k)
    (hcols : ∀ c ∈ m.columns, c ∈ m.attributes.map (fun e => e.1)) :
    ∃ entries,
      m.to_string formatters
        = some (m.type_name ++ "(" ++ (if k = 0 then "new" else toString k) ++ ") \x7b\n    "
            ++ String.intercalate ",\n    " entries ++ ",\n\x7d") ∧
      List.Forall₂
        (fun name entry => ∃ cell, map_find m.attributes name = some cell ∧
          ((DispatchTable.find formatters cell.value.type = none ∧
              entry = name ++ "=\x7bunsupported\x7d") ∨
            ∃ f formatted, DispatchTable.find formatters cell.value.type = some f ∧
              f cell.value = some formatted ∧ entry = name ++ " = " ++ formatted))
        (m.columns.filter fun c => c ≠ "id") entries := by
  obtain ⟨entries, hloop, hall⟩ :=
    to_string_loop_entries formatters hreg m.attributes m.columns hcols
  refine ⟨entries, ?_, hall⟩
  unfold Model.to_string
  rw [is_new_record_of_id m k hid, hid]
  simp only [hloop, list_join_eq_intercalate]
  by_cases hk : k = 0 <;> simp [hk]

/-- The sample record with the `photo` attribute and the default formatter
table meet the conditions under which `to_string` returns. -/
theorem to_string_returns_at_sample :
    ∃ entries,
      photo_user.to_string (any_formatter sample_text)
        = some (photo_user.type_name ++ "(" ++ (if (0 : Int) = 0 then "new" else toString (0 : Int))
            ++ ") \x7b\n    " ++ String.intercalate ",\n    " entries ++ ",\n\x7d") ∧
      List.Forall₂
        (fun name entry => ∃ cell, map_find photo_user.attributes name = some cell ∧
          ((DispatchTable.find (any_formatter sample_text) cell.value.type = none ∧
              entry = name ++ "=\x7bunsupported\x7d") ∨
            ∃ f formatted,
              DispatchTable.find (any_formatter sample_text) cell.value.type = some f ∧
              f cell.value = some formatted ∧ entry = name ++ " = " ++ formatted))
        (photo_user.columns.filter fun c => c ≠ "id") entries :=
  to_string_returns (any_formatter sample_text) (any_formatter_registered sample_text) photo_user 0
    (by decide) (by decide)

/-! ## Decoding into an optional cell -/

theorem encode_empty_optional (b : BaseType) :
    (qvariant_from_any qvariant_converter (.optional b none)).map Prod.fst = some .invalid := by
  cases b with
  | int T => cases T <;> decide
  | _ => decide

/-- C31: the decoder of a `std::optional<T>` cell assigns `var.impl()` to the
optional, so for every driver value the cell afterwards is engaged and holds a
`T`; for the null variant it holds `false`, `0` or the empty string; the
encoder gives the null variant for an empty optional, so encoding an empty
optional and decoding the result gives an engaged optional, not the empty
one. -/
theorem decode_optional_always_engaged (qt : QtConvert) (b : BaseType) (v : Option Scalar)
    (var : QVariant) :
    (∃ s, s.type = b ∧
      any_from_qvariant (qvariant_mapper qt) (.optional b v) var
        = some (.optional b (some s), true)) ∧
    any_from_qvariant (qvariant_mapper qt) (.optional .bool v) .invalid
      = some (.optional .bool (some (.bool false)), true) ∧
    (∀ T, any_from_qvariant (qvariant_mapper qt) (.optional (.int T) v) .invalid
      = some (.optional (.int T) (some (.int T 0)), true)) ∧
    any_from_qvariant (qvariant_mapper qt) (.optional .string v) .invalid
      = some (.optional .string (some (.string "")), true) ∧
    (qvariant_from_any qvariant_converter (.optional b none)).map Prod.fst = some .invalid ∧
    ∃ encoded decoded,
      qvariant_from_any qvariant_converter (.optional b none) = some encoded ∧
      any_from_qvariant (qvariant_mapper qt) (.optional b none) encoded.1 = some decoded ∧
      decoded.1 ≠ .optional b none := by
  refine ⟨⟨mapper_impl qt b var, mapper_impl_type qt b var, decode_optional_default qt b v var⟩,
    ?_, ?_, ?_, encode_empty_optional b, ?_⟩
  · rw [decode_optional_default]; rfl
  · intro T
    rw [decode_optional_default]
    cases T <;> rfl
  · rw [decode_optional_default]; rfl
  · have henc := encode_empty_optional b
    cases hq : qvariant_from_any qvariant_converter (.optional b none) with
    | none => rw [hq] at henc; simp at henc
    | some encoded =>
      exact ⟨encoded, _, rfl, decode_optional_default qt b none encoded.1, by simp⟩

/-! ## Change tracking follows the writes -/

theorem map_find_mem (attributes : List (String × Attribute)) (key : String) (a : Attribute)
    (h : map_find attributes key = some a) : (key, a) ∈ attributes := by
  induction attributes with
  | nil => simp [map_find] at h
  | cons e rest ih =>
    obtain ⟨k, b⟩ := e
    by_cases hk : k = key
    · simp only [map_find, hk, if_true, Option.some.injEq] at h
      simp [hk, h]
    · simp only [map_find, hk, if_false] at h
      exact List.mem_cons_of_mem _ (ih h)

theorem map_assign_same_value (attributes : List (String × Attribute)) (key : String)
    (a : Attribute) (flag : Bool) (h : map_find attributes key = some a) :
    (map_assign attributes key { value := a.value, modified := flag }).map
        (fun e => (e.1, e.2.value))
      = attributes.map (fun e => (e.1, e.2.value)) := by
  induction attributes with
  | nil => rfl
  | cons e rest ih =>
    obtain ⟨k, b⟩ := e
    by_cases hk : k = key
    · simp only [map_find, hk, if_true, Option.some.injEq] at h
      simp [map_assign, hk, h]
    · simp only [map_find, hk, if_false] at h
      simp [map_assign, hk, ih h]

/-- C32, counterexample: the loaded sample record holds the id `7`; writing
`7` to `id` sets the flag of `id` and makes `has_changes()` true, but
`generate_update_query` skips `id` and returns the empty text. -/
theorem rewrite_id_gives_no_update :
    map_find sample_persisted.attributes "id" = some ⟨.plain (.int .uint64 7), false⟩ ∧
    sample_persisted.is_new_record = some false ∧
    (sample_persisted.set_attribute_value "id" (.plain (.int .uint64 7))).map
        (fun m => (m.has_changes, map_find m.attributes "id", m.generate_update_query))
      = some (true, some ⟨.plain (.int .uint64 7), true⟩, some "") := by
  decide

/-- C32 (amended): writing to a declared attribute other than `id` the value
it already holds (of a type other than `void`) returns, keeps every name and
value, sets the flag of the attribute and makes `has_changes()` true; with an
id `k` (for a persisted model, `k ≠ 0`) `generate_update_query` afterwards
returns the non-empty text ``UPDATE `<table>` SET <pairs> WHERE id=<k>;`` whose
pairs contain `name=:name` for the written attribute. -/
theorem rewrite_same_value_marks_modified (m : Model) (key : String) (cell : Attribute)
    (k : Int) (hkey : key ≠ "id") (hcell : map_find m.attributes key = some cell)
    (hvoid : cell.value.type ≠ .void) (hid : m.id = some k) (hcol : "id" ∈ m.columns) :
    ∃ written, m.set_attribute_value key cell.value = some written ∧
      map_find written.attributes key = some { value := cell.value, modified := true } ∧
      written.attributes.map (fun e => (e.1, e.2.value))
        = m.attributes.map (fun e => (e.1, e.2.value)) ∧
      written.has_changes = true ∧
      ∃ pairs statement, (key ++ "=:" ++ key) ∈ pairs ∧
        written.generate_update_query = some statement ∧ statement ≠ "" ∧
        statement = "UPDATE `" ++ m.table_name ++ "` SET " ++ String.intercalate "," pairs
          ++ " WHERE id=" ++ toString k ++ ";" := by
  have hset := set_attribute_value_eq m key cell.value cell hcell rfl hvoid
  have hfound : map_find (map_assign m.attributes key { value := cell.value, modified := true })
      key = some { value := cell.value, modified := true } :=
    map_find_assign_same _ _ _ _ hcell
  have hmem := map_find_mem _ _ _ hfound
  have hpair : (key ++ "=:" ++ key) ∈ update_query_pairs
      (map_assign m.attributes key { value := cell.value, modified := true }) := by
    rw [update_query_pairs_eq]
    simp only [List.mem_map, List.mem_filter, Bool.and_eq_true, decide_eq_true_eq]
    exact ⟨key, ⟨(key, _), ⟨hmem, hkey, rfl⟩, rfl⟩, rfl⟩
  have hne : (update_query_pairs
      (map_assign m.attributes key { value := cell.value, modified := true })).isEmpty
      = false := by
    cases hp : update_query_pairs
        (map_assign m.attributes key { value := cell.value, modified := true }) with
    | nil => rw [hp] at hpair; simp at hpair
    | cons _ _ => rfl
  have hid' : Model.id { m with
      attributes := map_assign m.attributes key { value := cell.value, modified := true } }
      = some k := by
    obtain ⟨flag, hf⟩ := (id_eq_some_iff m k).1 hid
    exact (id_eq_some_iff _ k).2 ⟨flag, by
      show map_find (map_assign m.attributes key _) "id" = _
      rw [map_find_assign_other _ _ _ _ (Ne.symm hkey)]; exact hf⟩
  refine ⟨_, hset, hfound, map_assign_same_value _ _ _ _ hcell,
    map_assign_any_modified _ _ _ _ hcell, _, _, hpair, ?_, ?_, rfl⟩
  · simp only [Model.generate_update_query, erase_id, hcol, if_true, hne, Bool.false_eq_true,
      if_false, hid', list_join_eq_intercalate]
  · intro h
    have hd := congrArg String.data h
    simp at hd

/-- Witness of C32 (amended): `set_name("ada")` on the loaded sample record,
whose name is `ada` already. -/
theorem rewrite_same_value_marks_modified_witness :
    sample_persisted.is_new_record = some false ∧
    sample_persisted.has_changes = false ∧
    ∃ written,
      sample_persisted.set_attribute_value "name" (.plain (.string "ada")) = some written ∧
      written.has_changes = true ∧
      ∃ pairs statement, ("name" ++ "=:" ++ "name") ∈ pairs ∧
        written.generate_update_query = some statement ∧ statement ≠ "" ∧
        statement = "UPDATE `" ++ sample_persisted.table_name ++ "` SET "
          ++ String.intercalate "," pairs ++ " WHERE id=" ++ toString (7 : Int) ++ ";" :=
  ⟨by decide, by decide,
    match rewrite_same_value_marks_modified sample_persisted "name"
      ⟨.plain (.string "ada"), false⟩ 7 (by decide) (by decide) (by decide) (by decide)
      (by decide) with
    | ⟨written, hset, _, _, hchanged, rest⟩ => ⟨written, hset, hchanged, rest⟩⟩

/-! ## Symmetry of model equality -/

theorem ieee_eq_comm (maxExp : Nat) (x y : Ieee) : Ieee.eq maxExp x y = Ieee.eq maxExp y x := by
  unfold Ieee.eq
  rw [Bool.eq_iff_iff]
  simp only [Bool.and_eq_true, Bool.or_eq_true, beq_iff_eq, Bool.not_eq_true']
  constructor <;> rintro ⟨⟨h1, h2⟩, h3⟩ <;>
    exact ⟨⟨h2, h1⟩, h3.imp (fun h => ⟨h.2, h.1⟩) (fun h => h.symm)⟩

theorem scalar_eq_comm (a b : Scalar) : a.eq b = b.eq a := by
  cases a <;> cases b <;> simp only [Scalar.eq, ieee_eq_comm] <;>
    rw [Bool.eq_iff_iff] <;> simp only [beq_iff_eq, Bool.and_eq_true] <;>
    constructor <;> intro h <;>
    first
    | exact h.symm
    | exact ⟨h.1.symm, h.2.symm⟩

theorem any_eq_comm (l r : AnyValue) : l.eq r = r.eq l := by
  cases l with
  | plain a => cases r <;> simp [AnyValue.eq, scalar_eq_comm]
  | optional b v =>
    cases r with
    | optional c w => cases v <;> cases w <;> simp [AnyValue.eq, scalar_eq_comm]
    | _ => cases v <;> simp [AnyValue.eq]
  | void => cases r <;> simp [AnyValue.eq]
  | other n x => cases r <;> simp [AnyValue.eq]

/-- The default comparator table is symmetric. -/
theorem any_comparator_symmetric : comparators_symmetric any_comparator := by
  intro e he
  rcases any_comparator_entries e he with h | h
  · exact ⟨fun _ _ => false, by rw [h]; rfl, fun _ _ => rfl⟩
  · exact ⟨fun l r => l.eq r, h, any_eq_comm⟩

theorem registered_of_symmetric (comparators : DispatchTable Comparator)
    (hsym : comparators_symmetric comparators) : comparators_registered comparators := by
  intro e he
  obtain ⟨f, hf, _⟩ := hsym e he
  exact ⟨f, hf⟩

theorem compare_any_comm (comparators : DispatchTable Comparator)
    (hsym : comparators_symmetric comparators) (l r : AnyValue) (h : l.type = r.type) :
    compare_any comparators l r = compare_any comparators r l := by
  unfold compare_any
  rw [← h]
  cases hf : DispatchTable.find comparators l.type with
  | none => rfl
  | some f =>
    obtain ⟨g, hg, hcomm⟩ := hsym _ (find_mem comparators l.type f hf)
    have hfg : f = (to_any_comparator l.type g).2 := congrArg Prod.snd hg
    simp [hfg, to_any_comparator, ← h, hcomm l r]

theorem compare_helper_true_iff (comparators : DispatchTable Comparator) (a b : Model) :
    Model.compare_helper comparators a b = some true ↔
      a.attributes.length = b.attributes.length ∧
      ∀ x ∈ a.attributes, ∀ y ∈ b.attributes, x.1 = y.1 →
        compare_any comparators x.2.value y.2.value = some (true, true) := by
  unfold Model.compare_helper
  by_cases hlen : a.attributes.length = b.attributes.length
  · simp only [hlen, ne_eq, not_true_eq_false, if_false, true_and,
      compare_helper_outer_true_iff, compare_helper_inner_true_iff]
  · simp [hlen]

theorem compare_helper_returns (comparators : DispatchTable Comparator)
    (hreg : comparators_registered comparators) (a b : Model)
    (hsame : ∀ x ∈ a.attributes, ∀ y ∈ b.attributes, x.1 = y.1 →
      x.2.value.type = y.2.value.type) :
    ∃ equal, Model.compare_helper comparators a b = some equal := by
  unfold Model.compare_helper
  by_cases hlen : a.attributes.length = b.attributes.length
  · simp only [hlen, ne_eq, not_true_eq_false, if_false]
    exact compare_helper_outer_returns comparators hreg b.attributes a.attributes hsame
  · exact ⟨false, by simp [hlen]⟩

/-- C33: with a comparator table whose callables are symmetric (the default
table is), for two models in which every attribute name present in both has
the same stored type, `a == b` and `b == a` both return, and they return the
same result. -/
theorem model_equality_symmetric (comparators : DispatchTable Comparator)
    (hsym : comparators_symmetric comparators) (a b : Model)
    (hsame : ∀ x ∈ a.attributes, ∀ y ∈ b.attributes, x.1 = y.1 →
      x.2.value.type = y.2.value.type) :
    ∃ equal, Model.op_eq comparators a b = some equal ∧
      Model.op_eq comparators b a = some equal := by
  have hreg := registered_of_symmetric comparators hsym
  have hsame' : ∀ y ∈ b.attributes, ∀ x ∈ a.attributes, y.1 = x.1 →
      y.2.value.type = x.2.value.type :=
    fun y hy x hx hxy => (hsame x hx y hy hxy.symm).symm
  obtain ⟨p, hp⟩ := compare_helper_returns comparators hreg a b hsame
  obtain ⟨q, hq⟩ := compare_helper_returns comparators hreg b a hsame'
  have hiff : Model.compare_helper comparators a b = some true ↔
      Model.compare_helper comparators b a = some true := by
    rw [compare_helper_true_iff, compare_helper_true_iff]
    constructor
    · rintro ⟨hlen, hall⟩
      refine ⟨hlen.symm, fun y hy x hx hxy => ?_⟩
      rw [compare_any_comm comparators hsym _ _ (hsame' y hy x hx hxy)]
      exact hall x hx y hy hxy.symm
    · rintro ⟨hlen, hall⟩
      refine ⟨hlen.symm, fun x hx y hy hxy => ?_⟩
      rw [compare_any_comm comparators hsym _ _ (hsame x hx y hy hxy)]
      exact hall y hy x hx hxy.symm
  refine ⟨p, hp, ?_⟩
  show Model.compare_helper comparators b a = some p
  rw [hp, hq] at hiff
  rw [hq]
  cases p <;> cases q <;> simp at hiff ⊢

/-- Witness of C33: the loaded sample record and the record after
`set_name("eve")`, with the default table. -/
theorem model_equality_symmetric_witness :
    ∃ equal, Model.op_eq any_comparator sample_persisted sample_modified = some equal ∧
      Model.op_eq any_comparator sample_modified sample_persisted = some equal :=
  model_equality_symmetric any_comparator any_comparator_symmetric sample_persisted
    sample_modified (by decide)

/-! ## First registration wins -/

theorem insert_of_registered {F : Type} (table : DispatchTable F) (entry : TypeTag × F)
    (h : (DispatchTable.find table entry.1).isSome = true) : table.insert entry = table := by
  obtain ⟨f, hf⟩ := Option.isSome_iff_exists.1 h
  simp [DispatchTable.insert, hf]

/-- C34: `register_model`, `register_any_comparator`, `register_any_formatter`,
`register_qvariant_converter` and `register_qvariant_mapper` of a type tag that
has an entry leave the table as it was: the lookup of that tag and of every
other tag returns what it returned before the call. -/
theorem first_registration_wins (registrar : DispatchTable Factory)
    (comparators : DispatchTable Comparator) (formatters : DispatchTable Formatter)
    (converters : DispatchTable Converter) (mappers : DispatchTable Mapper) (T : TypeTag)
    (factory : Factory) (compare : AnyValue → AnyValue → Bool) (format : AnyValue → String)
    (encode : AnyValue → QVariant) (decode : AnyValue → QVariant → AnyValue) :
    ((DispatchTable.find registrar T).isSome = true →
      register_model registrar T factory = registrar ∧
      ∀ tag, DispatchTable.find (register_model registrar T factory) tag
        = DispatchTable.find registrar tag) ∧
    ((DispatchTable.find comparators T).isSome = true →
      register_any_comparator comparators T compare = comparators ∧
      ∀ tag, DispatchTable.find (register_any_comparator comparators T compare) tag
        = DispatchTable.find comparators tag) ∧
    ((DispatchTable.find formatters T).isSome = true →
      register_any_formatter formatters T format = formatters ∧
      ∀ tag, DispatchTable.find (register_any_formatter formatters T format) tag
        = DispatchTable.find formatters tag) ∧
    ((DispatchTable.find converters T).isSome = true →
      register_qvariant_converter converters T encode = converters ∧
      ∀ tag, DispatchTable.find (register_qvariant_converter converters T encode) tag
        = DispatchTable.find converters tag) ∧
    ((DispatchTable.find mappers T).isSome = true →
      register_qvariant_mapper mappers T decode = mappers ∧
      ∀ tag, DispatchTable.find (register_qvariant_mapper mappers T decode) tag
        = DispatchTable.find mappers tag) := by
  refine ⟨fun h => ?_, fun h => ?_, fun h => ?_, fun h => ?_, fun h => ?_⟩
  · have he := insert_of_registered registrar (to_model_constructor T factory) h
    exact ⟨he, fun tag => by rw [register_model, he]⟩
  · have he := insert_of_registered comparators (to_any_comparator T compare) h
    exact ⟨he, fun tag => by rw [register_any_comparator, he]⟩
  · have he := insert_of_registered formatters (to_any_formatter T format) h
    exact ⟨he, fun tag => by rw [register_any_formatter, he]⟩
  · have he := insert_of_registered converters (to_qvariant_converter T encode) h
    exact ⟨he, fun tag => by rw [register_qvariant_converter, he]⟩
  · have he := insert_of_registered mappers (to_qvariant_mapper T decode) h
    exact ⟨he, fun tag => by rw [register_qvariant_mapper, he]⟩

/-- Witness of C34: a comparator for `std::string` that calls every two strings
equal is registered on the default table, and a second factory for `User` on a
registrar that has one. -/
theorem first_registration_wins_witness :
    register_any_comparator any_comparator (.plain .string) (fun _ _ => true) = any_comparator ∧
    register_model (registerModel model_registrar user_type) (.other "User") (fun _ => none)
      = registerModel model_registrar user_type :=
  ⟨((first_registration_wins (registerModel model_registrar user_type) any_comparator
        (any_formatter sample_text) qvariant_converter (qvariant_mapper zero_convert)
        (.plain .string) (fun _ => none) (fun _ _ => true) (fun _ => "") (fun _ => .invalid)
        (fun cell _ => cell)).2.1 (by decide)).1,
    ((first_registration_wins (registerModel model_registrar user_type) any_comparator
        (any_formatter sample_text) qvariant_converter (qvariant_mapper zero_convert)
        (.other "User") (fun _ => none) (fun _ _ => true) (fun _ => "") (fun _ => .invalid)
        (fun cell _ => cell)).1 (by decide)).1⟩

/-! ## Coverage of the default dispatch tables -/

theorem find_isSome_iff_mem {F : Type} (table : DispatchTable F) (tag : TypeTag) :
    (DispatchTable.find table tag).isSome = true ↔ tag ∈ table.map Prod.fst := by
  induction table with
  | nil => simp [DispatchTable.find]
  | cons e rest ih =>
    obtain ⟨t, g⟩ := e
    by_cases ht : t = tag
    · simp [DispatchTable.find, ht]
    · have ht' : ¬ tag = t := fun h => ht h.symm
      simp [DispatchTable.find, ht, ht', ih]

theorem qvariant_converter_tags :
    qvariant_converter.map Prod.fst
      = (([.bool, .float, .double, .int .uint8, .int .uint16, .int .uint32, .int .uint64,
            .int .int8, .int .int16, .int .int32, .int .int64, .string] : List BaseType).map
          TypeTag.plain)
        ++ (([.bool, .float, .double, .int .uint8, .int .uint16, .int .uint32, .int .uint64,
            .int .int8, .int .int16, .int .int32, .int .int64, .string] : List BaseType).map
          TypeTag.optional)
        ++ [.plain .qDateTime, .plain .qDate, .plain .qTime] := by
  decide

theorem any_comparator_tags :
    any_comparator.map Prod.fst = TypeTag.void :: qvariant_converter.map Prod.fst := by
  decide

theorem FORMATTER_tags (text : TextFormat) (b : BaseType) :
    (FORMATTER text b).map Prod.fst = [.plain b, .optional b] := rfl

theorem MAPPER_tags (qt : QtConvert) (b : BaseType) :
    (MAPPER qt b).map Prod.fst = [.plain b, .optional b] := rfl

theorem any_formatter_tags (text : TextFormat) :
    (any_formatter text).map Prod.fst
      = ([.bool, .float, .double, .int .uint8, .int .uint16, .int .uint32, .int .uint64,
          .int .int8, .int .int16, .int .int32, .int .int64, .string, .qDateTime, .qDate,
          .qTime] : List BaseType).flatMap fun b => [.plain b, .optional b] := by
  simp [any_formatter, FORMATTER_tags]

theorem qvariant_mapper_tags (qt : QtConvert) :
    (qvariant_mapper qt).map Prod.fst
      = ([.bool, .float, .double, .int .uint8, .int .uint16, .int .uint32, .int .uint64,
          .int .int8, .int .int16, .int .int32, .int .int64, .string, .qDateTime, .qDate,
          .qTime] : List BaseType).flatMap fun b => [.plain b, .optional b] := by
  simp [qvariant_mapper, MAPPER_tags]

/-- C35: in the default tables, every type with an encoder has a comparator, a
formatter and a decoder; the comparator table has the types of the encoder
table and `void`, which has no encoder; the formatter and the decoder table
have the same types; and the types with a formatter and a decoder but without
an encoder and without a comparator are exactly `std::optional<QDateTime>`,
`std::optional<QDate>` and `std::optional<QTime>`. -/
theorem default_tables_coverage (qt : QtConvert) (text : TextFormat) (tag : TypeTag) :
    ((DispatchTable.find qvariant_converter tag).isSome = true →
      (DispatchTable.find any_comparator tag).isSome = true ∧
      (DispatchTable.find (any_formatter text) tag).isSome = true ∧
      (DispatchTable.find (qvariant_mapper qt) tag).isSome = true) ∧
    ((DispatchTable.find any_comparator tag).isSome = true ↔
      tag = .void ∨ (DispatchTable.find qvariant_converter tag).isSome = true) ∧
    (DispatchTable.find qvariant_converter .void).isSome = false ∧
    ((DispatchTable.find (any_formatter text) tag).isSome = true ↔
      (DispatchTable.find (qvariant_mapper qt) tag).isSome = true) ∧
    (((DispatchTable.find (any_formatter text) tag).isSome = true ∧
        (DispatchTable.find (qvariant_mapper qt) tag).isSome = true ∧
        (DispatchTable.find qvariant_converter tag).isSome = false ∧
        (DispatchTable.find any_comparator tag).isSome = false) ↔
      tag = .optional .qDateTime ∨ tag = .optional .qDate ∨ tag = .optional .qTime) := by
  have hE := find_isSome_iff_mem qvariant_converter tag
  have hC := find_isSome_iff_mem any_comparator tag
  have hF := find_isSome_iff_mem (any_formatter text) tag
  have hD := find_isSome_iff_mem (qvariant_mapper qt) tag
  rw [any_comparator_tags, qvariant_converter_tags] at hC
  rw [qvariant_converter_tags] at hE
  rw [any_formatter_tags] at hF
  rw [qvariant_mapper_tags] at hD
  refine ⟨?_, ?_, by decide, ?_, ?_⟩
  · rw [hE, hC, hF, hD]
    cases tag with
    | void => simp
    | plain b => cases b with
      | int T => cases T <;> simp
      | _ => simp
    | optional b => cases b with
      | int T => cases T <;> simp
      | _ => simp
    | other n => simp
  · rw [hE, hC]
    simp
  · rw [hF, hD]
  · rw [← Bool.not_eq_true, ← Bool.not_eq_true, hE, hC, hF, hD]
    cases tag with
    | void => simp
    | plain b => cases b with
      | int T => cases T <;> simp
      | _ => simp
    | optional b => cases b with
      | int T => cases T <;> simp
      | _ => simp
    | other n => simp

end Awesomedb
